import Mathlib

/-!
Hot Potato minigame (internal/athena/hotpotato.go)

A shallow embedding of the Hot Potato orchestrator of the Athena server and
proofs of properties of its state transitions.

The package-level variable `hotPotato` becomes an explicit value of type
`hotPotatoState` that every operation receives and returns.  Everything an
operation does to the outside world (taking and releasing the mutex, private
messages, broadcasts, log entries, goroutines it launches, punishments,
disconnects) is recorded, in program order, in a list of `Event`s.  The clock,
the client table, the iteration order of a `range` over a map and the results of
`rand.Intn` are inputs of the operations.
-/

namespace HotPotato

/-! ## Time and durations -/

/-! A `time.Duration` is a signed 64-bit count of nanoseconds, here an `Int` kept
in that range.  A `time.Time` is represented by the number of nanoseconds since
the zero `Time` (January 1, year 1, 00:00:00 UTC), an `Int`; `time.Time{}` is
`0`. -/

def Second : Int := 1000000000

def Minute : Int := 60 * Second

def minDuration : Int := -(2 ^ 63)

def maxDuration : Int := 2 ^ 63 - 1

def hotPotatoOptInDuration : Int := 60 * Second

def hotPotatoGameDuration : Int := 5 * Minute

def hotPotatoCooldown : Int := 5 * Minute

def hotPotatoMinParticipants : Nat := 2

def hotPotatoPunishmentDuration : Int := 10 * Minute

/-- Two-s complement wrap-around of a 64-bit signed integer operation. -/
def wrapInt64 (x : Int) : Int := (x + 2 ^ 63) % 2 ^ 64 - 2 ^ 63

/-- The method `Time.IsZero`. -/
def Time.IsZero (t : Int) : Bool := decide (t = 0)

/-- The method `Time.Sub` on wall-clock readings: the difference `t - u`,
saturated to the range of a `Duration`. -/
def Time.Sub (t u : Int) : Int :=
  if t - u < minDuration then minDuration
  else if maxDuration < t - u then maxDuration
  else t - u

/-- The function `time.Since(t)`, which is `time.Now().Sub(t)`; `now` is the
clock reading the call observes.  The time stamps the program stores come from
`time.Now().UTC()`, which carries no monotonic reading, so the wall-clock
difference is what `Sub` computes. -/
def timeSince (now t : Int) : Int := Time.Sub now t

/-! ## float64 arithmetic, as far as `Duration.Seconds` needs it -/

/-- Round a rational to the nearest integer, ties to the even one. -/
def roundHalfEven (x : ℚ) : Int :=
  if x - ⌊x⌋ < 1 / 2 then ⌊x⌋
  else if 1 / 2 < x - ⌊x⌋ then ⌊x⌋ + 1
  else if ⌊x⌋ % 2 = 0 then ⌊x⌋ else ⌊x⌋ + 1

/-- The float64 nearest to `q` (IEEE 754 binary64, 53-bit significand, round to
nearest, ties to even).  The exponent is left unbounded: every value
`Duration.Seconds` meets is `0` or has magnitude between `2^-30` and `2^34`,
far from the subnormal and overflow ranges. -/
def f64Round (q : ℚ) : ℚ :=
  if q = 0 then 0
  else roundHalfEven (q / 2 ^ (Int.log 2 |q| - 52)) * 2 ^ (Int.log 2 |q| - 52)

/-- The method `Duration.Seconds`:
`sec := d / Second; nsec := d % Second; return float64(sec) + float64(nsec)/1e9`
with Go-s truncating integer division and float64 operations. -/
def Duration.Seconds (d : Int) : ℚ :=
  f64Round (f64Round (Int.tdiv d Second) + f64Round (f64Round (Int.tmod d Second) / 1000000000))

/-- The conversion `int(f)` of a float64 in range: truncation toward zero. -/
def floatToInt (q : ℚ) : Int := if 0 ≤ q then ⌊q⌋ else ⌈q⌉

/-- The expression `int((hotPotatoCooldown - elapsed).Seconds()) + 1`, which
`isHotPotatoCoolingDown` and `cmdHotPotato` both compute. -/
def remainingSeconds (elapsed : Int) : Int :=
  wrapInt64 (floatToInt (Duration.Seconds (wrapInt64 (hotPotatoCooldown - elapsed))) + 1)

/-! ## Collaborators -/

/-- Modelled from the spec: the type `PunishmentType` is declared outside the
files at hand; these are the sixteen kinds that `randomHotPotatoPunishment`
names ("a fixed enumerated set of distinct kinds"). -/
inductive PunishmentType where
  | PunishmentBackward
  | PunishmentStutterstep
  | PunishmentElongate
  | PunishmentUppercase
  | PunishmentLowercase
  | PunishmentRobotic
  | PunishmentAlternating
  | PunishmentUwu
  | PunishmentPirate
  | PunishmentCaveman
  | PunishmentDrunk
  | PunishmentHiccup
  | PunishmentConfused
  | PunishmentParanoid
  | PunishmentMumble
  | PunishmentSubtitles
  deriving DecidableEq, Repr

/-- Modelled from the spec: the type `Client` is declared outside the files at
hand ("exposes identity, current spatial area, an authority flag").  A client is
the record of what its methods `Uid()`, `OOCName()`, `Area()` and
`Authenticated()` return when the operation calls them. -/
structure Client where
  Uid : Int
  OOCName : String
  Area : Nat
  Authenticated : Bool
  deriving DecidableEq, Repr

/-- The result of `getClientByUid` for every uid: `none` is the error result. -/
abbrev ClientTable := Int → Option Client

/-- The texts sent to clients, one constructor per format string of the source,
carrying the arguments of `fmt.Sprintf`. -/
inductive Msg where
  /-- "A Hot Potato game is already in progress." -/
  | alreadyInProgress
  /-- "Hot Potato is on cooldown. Please wait %d seconds." -/
  | onCooldown (remaining : Int)
  /-- The constant `hotPotatoRules`. -/
  | rules
  /-- "There is no active Hot Potato game to join right now." -/
  | noActiveGame
  /-- "You have already joined the Hot Potato game." -/
  | alreadyJoined
  /-- "You have joined the Hot Potato game! (%d participant(s) so far)" -/
  | joined (count : Nat)
  /-- "%v joined Hot Potato! (%d participant(s))" -/
  | joinedAnnounce (oocName : String) (count : Nat)
  /-- "Hot Potato cancelled: not enough participants (%d/%d required)." -/
  | cancelled (valid required : Nat)
  /-- "THE HOT POTATO GAME HAS BEGUN! %d players are in. ..." -/
  | begun (count : Nat)
  /-- "YOU have the Hot Potato! ..." -/
  | youCarry
  /-- "HOT POTATO TIMER EXPIRED! The carrier was alone ..." -/
  | expiredAlone
  /-- "You had the Hot Potato and nobody was nearby ... punished with (%v)!" -/
  | selfPunished (kind : PunishmentType)
  /-- "HOT POTATO TIMER EXPIRED! The carrier was a MODERATOR - %d participant(s)
  in the same area are being KICKED!" -/
  | expiredKick (count : Nat)
  /-- "HOT POTATO TIMER EXPIRED! %d participant(s) were caught in the same area
  as the carrier and received random punishments!" -/
  | expiredPunish (count : Nat)
  /-- "You were caught with the Hot Potato carrier! You have been punished with
  (%v) for 10 minutes." -/
  | caught (kind : PunishmentType)
  deriving DecidableEq, Repr

/-- The entries written with `addToBuffer`. -/
inductive LogMsg where
  /-- "CMD", "Started Hot Potato opt-in" -/
  | startedOptIn
  /-- "HOTPOTATO", "Carrier self-punished with %v (no victims)" -/
  | carrierSelfPunished (kind : PunishmentType)
  /-- "HOTPOTATO", "Mod carrier kicked %d participant(s)" -/
  | modKicked (count : Nat)
  /-- "HOTPOTATO", "Punished UID %d with %v" -/
  | punishedUid (uid : Int) (kind : PunishmentType)
  deriving DecidableEq, Repr

/-- The reason strings passed to `AddPunishment`. -/
inductive Reason where
  /-- "Hot Potato: solo carrier penalty" -/
  | soloCarrier
  /-- "Hot Potato punishment" -/
  | punishment
  deriving DecidableEq, Repr

/-- What an operation does besides changing the game state, in program order. -/
inductive Event where
  /-- `hotPotato.mu.Lock()` -/
  | lock
  /-- `hotPotato.mu.Unlock()` -/
  | unlock
  /-- `c.SendServerMessage(m)` -/
  | sendServerMessage (c : Client) (m : Msg)
  /-- `writeToAll("CT", encode(config.Name), encode(m), "1")` -/
  | writeToAll (m : Msg)
  /-- `addToBuffer(c, _, m, false)` -/
  | addToBuffer (c : Client) (m : LogMsg)
  /-- `go hotPotatoOptInTimer()` -/
  | goOptInTimer
  /-- `go hotPotatoGameTimer(carrierUID)` -/
  | goGameTimer (carrierUID : Int)
  /-- `c.AddPunishment(kind, duration, reason)` -/
  | addPunishment (c : Client) (kind : PunishmentType) (duration : Int) (reason : Reason)
  /-- `c.SendPacket("KK", "Hot Potato: you were caught in the same area as a
  moderator carrying the Hot Potato!")` -/
  | sendKick (c : Client)
  /-- `c.conn.Close()` -/
  | connClose (c : Client)
  deriving DecidableEq, Repr

/-! ## Game state -/

/-- A Go `map[int]bool`: finitely many keys, each with a value. -/
abbrev IntBoolMap := Finmap (fun _ : Int => Bool)

/-- The index expression `m[k]`: the zero value `false` for an absent key. -/
def IntBoolMap.get (m : IntBoolMap) (k : Int) : Bool := (m.lookup k).getD false

/-- The assignment `m[k] = v`. -/
def IntBoolMap.set (m : IntBoolMap) (k : Int) (v : Bool) : IntBoolMap := m.insert k v

/-- The builtin `len(m)`: the number of keys. -/
def IntBoolMap.len (m : IntBoolMap) : Nat := m.keys.card

/-- The struct `hotPotatoState`; the mutex `mu` shows as the events `lock` and
`unlock`. -/
structure hotPotatoState where
  optInActive : Bool
  gameActive : Bool
  participants : IntBoolMap
  carrierUID : Int
  lastGameEnd : Int
  deriving DecidableEq

/-- The initial value of the package variable `hotPotato`. -/
def hotPotato : hotPotatoState where
  optInActive := false
  gameActive := false
  participants := ∅
  carrierUID := -1
  lastGameEnd := 0

/-- The state after an operation, the events it produced and what it returned. -/
structure Run (α : Type) where
  state : hotPotatoState
  events : List Event
  ret : α

/-! ## Operations -/

/-- The function `isHotPotatoCoolingDown`. -/
def isHotPotatoCoolingDown (s : hotPotatoState) (now : Int) : Run (Bool × Int) :=
  if Time.IsZero s.lastGameEnd then
    ⟨s, [Event.lock, Event.unlock], (false, 0)⟩
  else if timeSince now s.lastGameEnd < hotPotatoCooldown then
    ⟨s, [Event.lock, Event.unlock], (true, remainingSeconds (timeSince now s.lastGameEnd))⟩
  else
    ⟨s, [Event.lock, Event.unlock], (false, 0)⟩

/-- The function `hotPotatoAccept`. -/
def hotPotatoAccept (s : hotPotatoState) (client : Client) : Run Unit :=
  if !s.optInActive then
    ⟨s, [Event.lock, Event.sendServerMessage client Msg.noActiveGame, Event.unlock], ()⟩
  else if s.participants.get client.Uid then
    ⟨s, [Event.lock, Event.sendServerMessage client Msg.alreadyJoined, Event.unlock], ()⟩
  else
    let participants := s.participants.set client.Uid true
    ⟨{ s with participants := participants },
     [Event.lock,
      Event.sendServerMessage client (Msg.joined participants.len),
      Event.writeToAll (Msg.joinedAnnounce client.OOCName participants.len),
      Event.unlock], ()⟩

/-- The function `cmdHotPotato`. -/
def cmdHotPotato (s : hotPotatoState) (now : Int) (client : Client) (args : List String) :
    Run Unit :=
  if 0 < args.length ∧ args.head? = some "accept" then
    hotPotatoAccept s client
  else if s.optInActive || s.gameActive then
    ⟨s, [Event.lock, Event.unlock, Event.sendServerMessage client Msg.alreadyInProgress], ()⟩
  else if !Time.IsZero s.lastGameEnd ∧ timeSince now s.lastGameEnd < hotPotatoCooldown then
    ⟨s, [Event.lock,
         Event.sendServerMessage client
           (Msg.onCooldown (remainingSeconds (timeSince now s.lastGameEnd))),
         Event.unlock], ()⟩
  else
    ⟨{ s with optInActive := true, gameActive := false, participants := ∅, carrierUID := -1 },
     [Event.lock, Event.unlock, Event.writeToAll Msg.rules,
      Event.addToBuffer client LogMsg.startedOptIn, Event.goOptInTimer], ()⟩

/-- The slice `pool` of `randomHotPotatoPunishment`. -/
def pool : List PunishmentType :=
  [PunishmentType.PunishmentBackward,
   PunishmentType.PunishmentStutterstep,
   PunishmentType.PunishmentElongate,
   PunishmentType.PunishmentUppercase,
   PunishmentType.PunishmentLowercase,
   PunishmentType.PunishmentRobotic,
   PunishmentType.PunishmentAlternating,
   PunishmentType.PunishmentUwu,
   PunishmentType.PunishmentPirate,
   PunishmentType.PunishmentCaveman,
   PunishmentType.PunishmentDrunk,
   PunishmentType.PunishmentHiccup,
   PunishmentType.PunishmentConfused,
   PunishmentType.PunishmentParanoid,
   PunishmentType.PunishmentMumble,
   PunishmentType.PunishmentSubtitles]

/-- The function `randomHotPotatoPunishment`; `intn` is what
`rand.Intn(len(pool))` returned.  `none` is the run-time panic of an index out of
range. -/
def randomHotPotatoPunishment (intn : Nat) : Option PunishmentType := pool[intn]?

/-- The function `hotPotatoOptInTimer`, from the moment `time.Sleep` returns.
`now` is the reading of `time.Now().UTC()`, `getClientByUid` the client table
during the call, `order` the order in which `range hotPotato.participants`
visits the keys, `intn` what `rand.Intn(len(validUIDs))` returned.  `none` is
the run-time panic of an index out of range. -/
def hotPotatoOptInTimer (s : hotPotatoState) (now : Int) (getClientByUid : ClientTable)
    (order : List Int) (intn : Nat) : Option (Run Unit) :=
  if !s.optInActive then
    some ⟨s, [Event.lock, Event.unlock], ()⟩
  else
    let validUIDs := order.filter (fun uid => (getClientByUid uid).isSome)
    if validUIDs.length < hotPotatoMinParticipants then
      some ⟨{ s with optInActive := false, lastGameEnd := now },
            [Event.lock, Event.unlock,
             Event.writeToAll (Msg.cancelled validUIDs.length hotPotatoMinParticipants)], ()⟩
    else
      match validUIDs[intn]? with
      | none => none
      | some carrierUID =>
        some ⟨{ s with optInActive := false, carrierUID := carrierUID, gameActive := true },
              [Event.lock, Event.unlock, Event.writeToAll (Msg.begun validUIDs.length)]
                ++ (match getClientByUid carrierUID with
                    | some carrierClient => [Event.sendServerMessage carrierClient Msg.youCarry]
                    | none => [])
                ++ [Event.goGameTimer carrierUID], ()⟩

/-- The snapshot loop of `hotPotatoGameTimer`:
`for uid, v := range hotPotato.participants { participantsCopy[uid] = v }`,
visiting the keys in the order `order`. -/
def copyParticipants (participants : IntBoolMap) (order : List Int) : IntBoolMap :=
  order.foldl (fun acc uid => acc.set uid (participants.get uid)) ∅

/-- The loop of `hotPotatoGameTimer` that collects `affected`, visiting the keys
of the snapshot in the order `order`. -/
def affectedClients (getClientByUid : ClientTable) (carrierUID : Int) (order : List Int) :
    List Client :=
  match getClientByUid carrierUID with
  | none => []
  | some carrierClient =>
    order.filterMap (fun uid =>
      if uid = carrierUID then none
      else match getClientByUid uid with
        | none => none
        | some c => if c.Area = carrierClient.Area then some c else none)

/-- The loop `for _, c := range affected` of the mass-eject branch. -/
def kickAll : List Client → List Event
  | [] => []
  | c :: cs => Event.sendKick c :: Event.connClose c :: kickAll cs

/-- The loop `for _, c := range affected` of the mass-punish branch; the call
of `randomHotPotatoPunishment` for the `k`-th client draws `intn k`. -/
def punishAll (carrier : Option Client) (intn : Nat → Nat) :
    Nat → List Client → Option (List Event)
  | _, [] => some []
  | k, c :: cs =>
    match randomHotPotatoPunishment (intn k), punishAll carrier intn (k + 1) cs with
    | some pType, some rest =>
      some ([Event.addPunishment c pType hotPotatoPunishmentDuration Reason.punishment,
             Event.sendServerMessage c (Msg.caught pType)]
            ++ (match carrier with
                | some carrierClient =>
                  [Event.addToBuffer carrierClient (LogMsg.punishedUid c.Uid pType)]
                | none => [])
            ++ rest)
    | _, _ => none

/-- The part of `hotPotatoGameTimer` after the lock is released: look up the
carrier, collect `affected` and apply the outcome. -/
def resolveGame (getClientByUid : ClientTable) (carrierUID : Int) (order : List Int)
    (intn : Nat → Nat) : Option (List Event) :=
  let affected := affectedClients getClientByUid carrierUID order
  if affected.length = 0 then
    match getClientByUid carrierUID with
    | none => some [Event.writeToAll Msg.expiredAlone]
    | some carrierClient =>
      match randomHotPotatoPunishment (intn 0) with
      | none => none
      | some pType =>
        some [Event.writeToAll Msg.expiredAlone,
              Event.addPunishment carrierClient pType hotPotatoPunishmentDuration
                Reason.soloCarrier,
              Event.sendServerMessage carrierClient (Msg.selfPunished pType),
              Event.addToBuffer carrierClient (LogMsg.carrierSelfPunished pType)]
  else if (match getClientByUid carrierUID with
           | some carrierClient => carrierClient.Authenticated
           | none => false) then
    some ([Event.writeToAll (Msg.expiredKick affected.length)] ++ kickAll affected
          ++ (match getClientByUid carrierUID with
              | some carrierClient =>
                [Event.addToBuffer carrierClient (LogMsg.modKicked affected.length)]
              | none => []))
  else
    match punishAll (getClientByUid carrierUID) intn 0 affected with
    | none => none
    | some evs => some (Event.writeToAll (Msg.expiredPunish affected.length) :: evs)

/-- The function `hotPotatoGameTimer`, from the moment `time.Sleep` returns.
`now` is the reading of `time.Now().UTC()`, `getClientByUid` the client table
during the call, `orderCopy` the order in which `range participantsCopy` visits
the keys of the snapshot (see `copyParticipants`; the snapshot is read by that
loop only), `intn k` what the `k`-th call of `rand.Intn(len(pool))` returned.
`none` is the run-time panic of an index out of range. -/
def hotPotatoGameTimer (s : hotPotatoState) (now : Int) (carrierUID : Int)
    (getClientByUid : ClientTable) (orderCopy : List Int) (intn : Nat → Nat) :
    Option (Run Unit) :=
  if !s.gameActive then
    some ⟨s, [Event.lock, Event.unlock], ()⟩
  else
    match resolveGame getClientByUid carrierUID orderCopy intn with
    | none => none
    | some evs =>
      some ⟨{ s with gameActive := false, optInActive := false, lastGameEnd := now },
            Event.lock :: Event.unlock :: evs, ()⟩

/-! ## Runs of the system -/

/-- One operation on the game state together with the inputs it observes. -/
inductive Op where
  | cmdHotPotato (now : Int) (client : Client) (args : List String)
  | hotPotatoAccept (client : Client)
  | hotPotatoOptInTimer (now : Int) (getClientByUid : ClientTable) (order : List Int)
      (intn : Nat)
  | hotPotatoGameTimer (now : Int) (carrierUID : Int) (getClientByUid : ClientTable)
      (orderCopy : List Int) (intn : Nat → Nat)

/-- Apply one operation. -/
def Op.apply (s : hotPotatoState) : Op → Option (Run Unit)
  | Op.cmdHotPotato now client args => some (HotPotato.cmdHotPotato s now client args)
  | Op.hotPotatoAccept client => some (HotPotato.hotPotatoAccept s client)
  | Op.hotPotatoOptInTimer now tbl order intn =>
    HotPotato.hotPotatoOptInTimer s now tbl order intn
  | Op.hotPotatoGameTimer now carrierUID tbl orderCopy intn =>
    HotPotato.hotPotatoGameTimer s now carrierUID tbl orderCopy intn

/-- Apply a finite sequence of operations, one after the other (each runs to
its end under the mutex before the next one starts). -/
def runOps (s : hotPotatoState) : List Op → Option hotPotatoState
  | [] => some s
  | op :: ops =>
    match op.apply s with
    | none => none
    | some r => runOps r.state ops

/-! ## Sample data -/

def sampleClient1 : Client := ⟨1, "alice", 0, false⟩

def sampleClient2 : Client := ⟨2, "bob", 0, false⟩

/-- A client table in which uids 1 and 2 are connected. -/
def sampleTable : ClientTable := fun uid =>
  if uid = 1 then some sampleClient1 else if uid = 2 then some sampleClient2 else none

/-- The residual of the cooldown in seconds, rounded up to a whole number: the
remaining time as the specification words it ("ceiling of the residual
seconds"). -/
def ceilingSeconds (residual : Int) : Int := ⌈(residual : ℚ) / 1000000000⌉

/-! ## Iteration orders, the client table and what the events say -/

/-- A list is an order in which `range m` can visit the keys of the map `m`:
every key of `m`, each once. -/
def IsRangeOrder (m : IntBoolMap) (order : List Int) : Prop :=
  order.Nodup ∧ order.toFinset = m.keys

instance decIsRangeOrder (m : IntBoolMap) (order : List Int) : Decidable (IsRangeOrder m order) := by
  unfold IsRangeOrder
  infer_instance

/-- The contract of `getClientByUid` at one uid: the client found for the uid,
if any, has that uid. -/
def agreesAt (getClientByUid : ClientTable) (uid : Int) : Bool :=
  match getClientByUid uid with
  | some c => decide (c.Uid = uid)
  | none => true

/-- The contract of `getClientByUid` on the uids looked up. -/
def tableAgrees (getClientByUid : ClientTable) (uids : List Int) : Prop :=
  ∀ uid ∈ uids, agreesAt getClientByUid uid = true

instance decTableAgrees (getClientByUid : ClientTable) (uids : List Int) :
    Decidable (tableAgrees getClientByUid uids) := by
  unfold tableAgrees
  infer_instance

/-- The participants connected at opt-in expiry: the keys of the map that
`getClientByUid` resolves. -/
def connectedParticipants (participants : IntBoolMap) (getClientByUid : ClientTable) :
    Finset Int :=
  participants.keys.filter (fun uid => (getClientByUid uid).isSome = true)

/-- The test a uid passes in the loop that collects `affected`: it is not the
carrier, it resolves to a client, and that client is in the area `carrierArea`. -/
def isAffected (getClientByUid : ClientTable) (carrierUID : Int) (carrierArea : Nat)
    (uid : Int) : Bool :=
  decide (uid ≠ carrierUID) &&
    (match getClientByUid uid with
     | some c => decide (c.Area = carrierArea)
     | none => false)

/-- The punishments applied: client, kind and duration of every `AddPunishment`
call, in program order. -/
def punishments (evs : List Event) : List (Client × PunishmentType × Int) :=
  evs.filterMap (fun e =>
    match e with
    | Event.addPunishment c kind duration _ => some (c, kind, duration)
    | _ => none)

/-- The clients disconnected: the client of every `conn.Close()`, in program
order. -/
def disconnects (evs : List Event) : List Client :=
  evs.filterMap (fun e =>
    match e with
    | Event.connClose c => some c
    | _ => none)

/-- The three outcomes of a resolution. -/
inductive Outcome where
  | carrierSelfPunish
  | massEject
  | massPunish
  deriving DecidableEq, Repr

/-- The outcomes announced: one entry per broadcast of an expiry notice, in
program order. -/
def outcomes (evs : List Event) : List Outcome :=
  evs.filterMap (fun e =>
    match e with
    | Event.writeToAll Msg.expiredAlone => some Outcome.carrierSelfPunish
    | Event.writeToAll (Msg.expiredKick _) => some Outcome.massEject
    | Event.writeToAll (Msg.expiredPunish _) => some Outcome.massPunish
    | _ => none)

/-- The local `isMod` of `hotPotatoGameTimer`:
`carrierErr == nil && carrierClient.Authenticated()`. -/
def isMod (getClientByUid : ClientTable) (carrierUID : Int) : Bool :=
  match getClientByUid carrierUID with
  | some carrierClient => carrierClient.Authenticated
  | none => false

/-! ## The system: game state and sleeping timers -/

/-- The opt-in timers an operation launched. -/
def launchedOptInTimers (evs : List Event) : Nat := evs.count Event.goOptInTimer

/-- The game timers an operation launched, by their carrier argument. -/
def launchedGameTimers (evs : List Event) : List Int :=
  evs.filterMap (fun e =>
    match e with
    | Event.goGameTimer carrierUID => some carrierUID
    | _ => none)

/-- The uids whose accept an operation acknowledged ("You have joined ..."). -/
def acknowledgedJoins (evs : List Event) : List Int :=
  evs.filterMap (fun e =>
    match e with
    | Event.sendServerMessage c (Msg.joined _) => some c.Uid
    | _ => none)

/-- A configuration of the running system: the game state, the number of
`hotPotatoOptInTimer` goroutines that sleep, the carrier arguments of the
`hotPotatoGameTimer` goroutines that sleep, and, for bookkeeping only, the uids
whose accept was acknowledged since the last start that opened an opt-in
phase. -/
structure System where
  state : hotPotatoState
  optInTimers : Nat
  gameTimers : List Int
  accepted : List Int

/-- The system when the server starts. -/
def initialSystem : System := ⟨hotPotato, 0, [], []⟩

/-- The configuration after a command handler ran: timers it launched sleep,
a start that opened an opt-in phase resets the record of accepts, and an
acknowledged accept is recorded. -/
def System.afterCommand (σ : System) (r : Run Unit) : System :=
  ⟨r.state, σ.optInTimers + launchedOptInTimers r.events,
   launchedGameTimers r.events ++ σ.gameTimers,
   acknowledgedJoins r.events ++
     (if launchedOptInTimers r.events = 0 then σ.accepted else [])⟩

/-- One step of the system, with the events it produces.  A command can run at
any time.  A timer can fire only if it was launched and still sleeps, a game
timer with the carrier it was launched with; the `range` loops visit the keys
of the map they range over (the snapshot of the game timer is a copy of the
participant map) and `getClientByUid` honours its contract on the uids looked
up.  `none` where the step is not possible or the operation panics. -/
def System.step (σ : System) : Op → Option (System × List Event)
  | Op.cmdHotPotato now client args =>
    some (σ.afterCommand (HotPotato.cmdHotPotato σ.state now client args),
          (HotPotato.cmdHotPotato σ.state now client args).events)
  | Op.hotPotatoAccept client =>
    some (σ.afterCommand (HotPotato.hotPotatoAccept σ.state client),
          (HotPotato.hotPotatoAccept σ.state client).events)
  | Op.hotPotatoOptInTimer now tbl order intn =>
    if 0 < σ.optInTimers ∧ IsRangeOrder σ.state.participants order then
      match HotPotato.hotPotatoOptInTimer σ.state now tbl order intn with
      | none => none
      | some r =>
        some (⟨r.state, σ.optInTimers - 1, launchedGameTimers r.events ++ σ.gameTimers,
               σ.accepted⟩, r.events)
    else none
  | Op.hotPotatoGameTimer now carrierUID tbl orderCopy intn =>
    if carrierUID ∈ σ.gameTimers ∧ IsRangeOrder σ.state.participants orderCopy ∧
        tableAgrees tbl (carrierUID :: orderCopy) then
      match HotPotato.hotPotatoGameTimer σ.state now carrierUID tbl orderCopy intn with
      | none => none
      | some r =>
        some (⟨r.state, σ.optInTimers, σ.gameTimers.erase carrierUID, σ.accepted⟩, r.events)
    else none

/-- A finite run of the system. -/
def runSystem (σ : System) : List Op → Option System
  | [] => some σ
  | op :: ops =>
    match σ.step op with
    | none => none
    | some next => runSystem next.1 ops

/-- What holds in every configuration the system reaches: the keys of the
participant map are the uids recorded as accepted; a sleeping game timer has a
participant as carrier; game timers sleep only while a game runs, at most one;
and no game runs while the opt-in phase is open. -/
def SystemInv (σ : System) : Prop :=
  (∀ uid, uid ∈ σ.state.participants ↔ uid ∈ σ.accepted) ∧
  (∀ c ∈ σ.gameTimers, c ∈ σ.state.participants) ∧
  (σ.state.gameActive = false → σ.gameTimers = []) ∧
  (σ.state.optInActive = true → σ.state.gameActive = false) ∧
  σ.gameTimers.length ≤ 1

/-! ## More sample data -/

/-- A third player, in another area than the first two. -/
def sampleClient3 : Client := ⟨3, "carol", 5, false⟩

/-- The third player, back and in the area of the first two. -/
def sampleClient3Back : Client := ⟨3, "carol", 0, false⟩

/-- The first player with moderator rights. -/
def sampleMod : Client := ⟨1, "alice", 0, true⟩

/-- A client table with the three players, the third elsewhere. -/
def sampleTable3 : ClientTable := fun uid =>
  if uid = 3 then some sampleClient3 else sampleTable uid

/-- A client table with the three players in one area. -/
def sampleTableBack : ClientTable := fun uid =>
  if uid = 3 then some sampleClient3Back else sampleTable uid

/-- A client table with the three players in one area, the first a moderator. -/
def sampleTableMod : ClientTable := fun uid =>
  if uid = 1 then some sampleMod else sampleTableBack uid

/-- A client table in which only uid 2 is connected. -/
def sampleTableGone : ClientTable := fun uid =>
  if uid = 2 then some sampleClient2 else none

/-! ## External reset, lock discipline, timers and outcomes -/

/-- The private messages and broadcasts among the events, in program order. -/
def messages (evs : List Event) : List Event :=
  evs.filter (fun e =>
    match e with
    | Event.sendServerMessage _ _ => true
    | Event.writeToAll _ => true
    | _ => false)

/-- The private messages and broadcasts emitted while the mutex is held;
`held` tells whether it is held before the first event. -/
def messagesWhileLocked : Bool → List Event → List Event
  | _, [] => []
  | _, Event.lock :: evs => messagesWhileLocked true evs
  | _, Event.unlock :: evs => messagesWhileLocked false evs
  | held, Event.sendServerMessage c m :: evs =>
    if held then Event.sendServerMessage c m :: messagesWhileLocked held evs
    else messagesWhileLocked held evs
  | held, Event.writeToAll m :: evs =>
    if held then Event.writeToAll m :: messagesWhileLocked held evs
    else messagesWhileLocked held evs
  | held, _ :: evs => messagesWhileLocked held evs

/-- The sleeping timers match the phase flags: one opt-in timer sleeps while the
opt-in phase is open and none otherwise, one game timer sleeps while a game runs
and none otherwise. -/
def TimerInv (σ : System) : Prop :=
  σ.optInTimers = (if σ.state.optInActive = true then 1 else 0) ∧
  σ.gameTimers.length = (if σ.state.gameActive = true then 1 else 0)

/-- The outcome the policy of `hotPotatoGameTimer` selects: the carrier is
punished if nobody is affected, else everybody affected is kicked if the carrier
is a moderator, else everybody affected is punished. -/
def selectedOutcome (getClientByUid : ClientTable) (carrierUID : Int) (order : List Int) :
    Outcome :=
  if (affectedClients getClientByUid carrierUID order).length = 0 then
    Outcome.carrierSelfPunish
  else if isMod getClientByUid carrierUID then Outcome.massEject
  else Outcome.massPunish

/-- Where the carrier field stands in a configuration: it is `-1` while the
opt-in phase is open, and while a game runs it is a participant and the carrier
argument of the one sleeping game timer. -/
def CarrierInv (σ : System) : Prop :=
  (σ.state.optInActive = true → σ.state.carrierUID = -1) ∧
  (σ.state.gameActive = true →
    σ.state.carrierUID ∈ σ.state.participants ∧ σ.gameTimers = [σ.state.carrierUID])

/-! ## float64 rounding -/

theorem roundHalfEven_intCast (k : Int) : roundHalfEven (k : ℚ) = k := by
  simp [roundHalfEven]

theorem floor_le_roundHalfEven (x : ℚ) : ⌊x⌋ ≤ roundHalfEven x := by
  unfold roundHalfEven
  split_ifs <;> omega

theorem le_roundHalfEven {k : Int} {x : ℚ} (h : (k : ℚ) ≤ x) : k ≤ roundHalfEven x :=
  le_trans (Int.le_floor.mpr h) (floor_le_roundHalfEven x)

theorem abs_roundHalfEven_sub_le (x : ℚ) : |(roundHalfEven x : ℚ) - x| ≤ 1 / 2 := by
  have h1 : (⌊x⌋ : ℚ) ≤ x := Int.floor_le x
  have h2 : x < ⌊x⌋ + 1 := Int.lt_floor_add_one x
  unfold roundHalfEven
  rw [abs_le]
  split_ifs with a b c
  · constructor <;> linarith
  · push_cast; constructor <;> linarith
  · have : x - ⌊x⌋ = 1 / 2 := le_antisymm (not_lt.mp b) (not_lt.mp a)
    constructor <;> linarith
  · have : x - ⌊x⌋ = 1 / 2 := le_antisymm (not_lt.mp b) (not_lt.mp a)
    push_cast; constructor <;> linarith

/-- The spacing of float64 numbers around a positive `q` is positive. -/
theorem ulp_pos (q : ℚ) : (0 : ℚ) < 2 ^ (Int.log 2 |q| - 52) := by positivity

theorem f64Round_nonneg {q : ℚ} (h : 0 ≤ q) : 0 ≤ f64Round q := by
  unfold f64Round
  split_ifs with h0
  · exact le_refl _
  · have hu := ulp_pos q
    have : (0 : Int) ≤ roundHalfEven (q / 2 ^ (Int.log 2 |q| - 52)) := by
      apply le_roundHalfEven
      push_cast
      positivity
    have : (0 : ℚ) ≤ (roundHalfEven (q / 2 ^ (Int.log 2 |q| - 52)) : ℚ) := by exact_mod_cast this
    positivity

theorem abs_f64Round_sub_le {q : ℚ} (h : 0 < q) : |f64Round q - q| ≤ q / 2 ^ 53 := by
  unfold f64Round
  rw [if_neg (ne_of_gt h)]
  have hu := ulp_pos q
  set u : ℚ := 2 ^ (Int.log 2 |q| - 52) with hu_def
  have hr := abs_roundHalfEven_sub_le (q / u)
  have h1 : (roundHalfEven (q / u) : ℚ) * u - q = ((roundHalfEven (q / u) : ℚ) - q / u) * u := by
    field_simp
  rw [h1, abs_mul, abs_of_pos hu]
  have h2 : (2 : ℚ) ^ (Int.log 2 |q|) ≤ q := by
    have := Int.zpow_log_le_self (b := 2) (r := |q|) (by norm_num) (abs_pos.mpr (ne_of_gt h))
    exact le_trans (by exact_mod_cast this) (le_of_eq (abs_of_pos h))
  have h3 : u = 2 ^ (Int.log 2 |q|) / 2 ^ 52 := by
    rw [hu_def, zpow_sub₀ (by norm_num : (2 : ℚ) ≠ 0)]
    norm_num
  calc |(roundHalfEven (q / u) : ℚ) - q / u| * u ≤ 1 / 2 * u := by
        exact mul_le_mul_of_nonneg_right hr (le_of_lt hu)
    _ = 2 ^ (Int.log 2 |q|) / 2 ^ 53 := by rw [h3]; ring
    _ ≤ q / 2 ^ 53 := by
        apply div_le_div_of_nonneg_right h2 (by positivity)

theorem f64Round_le {q : ℚ} (h : 0 < q) : f64Round q ≤ q + q / 2 ^ 53 := by
  have := abs_f64Round_sub_le h
  rw [abs_le] at this
  linarith

/-- Rounding to float64 does not cross an integer below the value, as long as
integers are float64 numbers at that magnitude. -/
theorem le_f64Round {q : ℚ} {n : Int} (hn : (n : ℚ) ≤ q) (h0 : 0 < q) (h53 : q < 2 ^ 53) :
    (n : ℚ) ≤ f64Round q := by
  unfold f64Round
  rw [if_neg (ne_of_gt h0)]
  have hlog : Int.log 2 |q| < 53 := by
    rw [abs_of_pos h0]
    have := (Int.lt_zpow_iff_log_lt (b := 2) (by norm_num) h0 (x := 53)).mp (by exact_mod_cast h53)
    exact this
  obtain ⟨k, hk⟩ : ∃ k : ℕ, Int.log 2 |q| - 52 = -(k : Int) := ⟨(52 - Int.log 2 |q|).toNat, by omega⟩
  rw [hk, zpow_neg, zpow_natCast]
  have hp : (0 : ℚ) < 2 ^ k := by positivity
  have h1 : ((n * 2 ^ k : Int) : ℚ) ≤ q / (2 ^ k)⁻¹ := by
    push_cast
    rw [div_inv_eq_mul]
    exact mul_le_mul_of_nonneg_right hn (le_of_lt hp)
  have h2 := le_roundHalfEven h1
  have h3 : ((n * 2 ^ k : Int) : ℚ) ≤ (roundHalfEven (q / (2 ^ k)⁻¹) : ℚ) := by exact_mod_cast h2
  push_cast at h3
  rw [← div_eq_mul_inv, le_div_iff₀ hp]
  exact h3

theorem f64Round_intCast (n : Int) (h : |n| < 2 ^ 53) : f64Round (n : ℚ) = n := by
  unfold f64Round
  split_ifs with h0
  · exact h0.symm
  · have hq : (0 : ℚ) < |(n : ℚ)| := abs_pos.mpr h0
    have hlog : Int.log 2 |(n : ℚ)| < 53 := by
      have : |(n : ℚ)| < 2 ^ (53 : Int) := by 
        have : ((|n| : Int) : ℚ) < ((2 ^ 53 : Int) : ℚ) := by exact_mod_cast h
        push_cast at this
        exact_mod_cast this
      exact (Int.lt_zpow_iff_log_lt (b := 2) (by norm_num) hq (x := 53)).mp this
    obtain ⟨k, hk⟩ : ∃ k : ℕ, Int.log 2 |(n : ℚ)| - 52 = -(k : Int) :=
      ⟨(52 - Int.log 2 |(n : ℚ)|).toNat, by omega⟩
    rw [hk, zpow_neg, zpow_natCast]
    have hp : (0 : ℚ) < 2 ^ k := by positivity
    have h1 : (n : ℚ) / (2 ^ k)⁻¹ = ((n * 2 ^ k : Int) : ℚ) := by
      push_cast
      rw [div_inv_eq_mul]
    rw [h1, roundHalfEven_intCast]
    push_cast
    field_simp

/-- On durations from zero up to a million seconds the float64 computation of
`Seconds` followed by `int(...)` yields the whole seconds exactly. -/
theorem floatToInt_Seconds (d : Int) (h0 : 0 ≤ d) (h1 : d < 1000000 * Second) :
    floatToInt (Duration.Seconds d) = d / Second := by
  unfold Duration.Seconds
  have hS : Second = 1000000000 := rfl
  rw [Int.tdiv_eq_ediv h0 (by rw [hS]; norm_num : (0 : Int) ≤ Second), Int.tmod_eq_emod h0 (by rw [hS]; norm_num)]
  have hsec0 : 0 ≤ d / Second := Int.ediv_nonneg h0 (by rw [hS]; norm_num)
  have hsec1 : d / Second < 1000000 := by
    apply Int.ediv_lt_of_lt_mul (by rw [hS]; norm_num) h1
  have hn0 : 0 ≤ d % Second := Int.emod_nonneg d (by rw [hS]; norm_num)
  have hn1 : d % Second < 1000000000 := by
    have := Int.emod_lt_of_pos d (by rw [hS]; norm_num : (0 : Int) < Second)
    rwa [hS] at this ⊢
  set sec := d / Second with hsec
  set nsec := d % Second with hnsec
  rw [f64Round_intCast sec (by rw [abs_of_nonneg hsec0]; omega),
    f64Round_intCast nsec (by rw [abs_of_nonneg hn0]; omega)]
  -- the fractional part
  have hq0 : (0 : ℚ) ≤ (nsec : ℚ) / 1000000000 := by
    have : (0 : ℚ) ≤ nsec := by exact_mod_cast hn0
    positivity
  have hq1 : (nsec : ℚ) / 1000000000 ≤ 999999999 / 1000000000 := by
    have : (nsec : ℚ) ≤ 999999999 := by exact_mod_cast (by omega : nsec ≤ 999999999)
    linarith
  have hf0 : 0 ≤ f64Round ((nsec : ℚ) / 1000000000) := f64Round_nonneg hq0
  have hf1 : f64Round ((nsec : ℚ) / 1000000000) ≤ 1 - 1 / 2 ^ 30 := by
    rcases eq_or_lt_of_le hq0 with h | h
    · rw [← h]
      have : f64Round 0 = 0 := by simp [f64Round]
      rw [this]; norm_num
    · have := f64Round_le h
      have h2 : (nsec : ℚ) / 1000000000 / 2 ^ 53 ≤ 999999999 / 1000000000 / 2 ^ 53 :=
        div_le_div_of_nonneg_right hq1 (by positivity)
      have : (999999999 : ℚ) / 1000000000 + 999999999 / 1000000000 / 2 ^ 53 ≤ 1 - 1 / 2 ^ 30 := by
        norm_num
      linarith
  set frac := f64Round ((nsec : ℚ) / 1000000000) with hfrac
  have hs0 : (sec : ℚ) ≤ sec + frac := by linarith
  have hsecq0 : (0 : ℚ) ≤ sec := by exact_mod_cast hsec0
  have hsecq1 : (sec : ℚ) ≤ 999999 := by exact_mod_cast (by omega : sec ≤ 999999)
  have hlow : (sec : ℚ) ≤ f64Round (sec + frac) := by
    rcases eq_or_lt_of_le (add_nonneg hsecq0 hf0) with h | h
    · rw [← h]
      have : (sec : ℚ) = 0 := by linarith
      rw [this]; simp [f64Round]
    · exact le_f64Round hs0 h (by
        have : (1000000 : ℚ) < 2 ^ 53 := by norm_num
        linarith)
  have hhigh : f64Round (sec + frac) < sec + 1 := by
    rcases eq_or_lt_of_le (add_nonneg hsecq0 hf0) with h | h
    · rw [← h]
      have : f64Round 0 = 0 := by simp [f64Round]
      rw [this]; linarith
    · have := f64Round_le h
      have h2 : ((sec : ℚ) + frac) / 2 ^ 53 ≤ 1000000 / 2 ^ 53 :=
        div_le_div_of_nonneg_right (by linarith) (by positivity)
      have h3 : (1000000 : ℚ) / 2 ^ 53 < 1 / 2 ^ 30 := by norm_num
      linarith
  unfold floatToInt
  rw [if_pos (le_trans hsecq0 hlow)]
  rw [Int.floor_eq_iff]
  exact ⟨hlow, hhigh⟩

/-! ## The cooldown gate -/

theorem hotPotatoCooldown_eq : hotPotatoCooldown = 300000000000 := rfl

theorem wrapInt64_of_range {x : Int} (h0 : -(2 ^ 63) ≤ x) (h1 : x < 2 ^ 63) : wrapInt64 x = x := by
  unfold wrapInt64
  omega

/-- Between two clock readings less than about 292 years apart `time.Since` is
the plain difference. -/
theorem timeSince_of_range {now t : Int} (h0 : minDuration ≤ now - t)
    (h1 : now - t ≤ maxDuration) : timeSince now t = now - t := by
  unfold timeSince Time.Sub
  rw [if_neg (not_lt.mpr h0), if_neg (not_lt.mpr h1)]

/-- Saturation does not move a difference across the cooldown window. -/
theorem timeSince_lt_cooldown_iff (now t : Int) :
    timeSince now t < hotPotatoCooldown ↔ now - t < hotPotatoCooldown := by
  unfold timeSince Time.Sub
  rw [hotPotatoCooldown_eq]
  have h1 : minDuration = -(2 ^ 63) := rfl
  have h2 : maxDuration = 2 ^ 63 - 1 := rfl
  split_ifs <;> omega

/-- While the cooldown runs (and the clock has not gone back) the value computed
is the whole seconds of the residual, plus one. -/
theorem remainingSeconds_eq (e : Int) (h0 : 0 ≤ e) (h1 : e < hotPotatoCooldown) :
    remainingSeconds e = (hotPotatoCooldown - e) / Second + 1 := by
  rw [hotPotatoCooldown_eq] at h1
  have hS : Second = 1000000000 := rfl
  have hw : wrapInt64 (300000000000 - e) = 300000000000 - e :=
    wrapInt64_of_range (by omega) (by omega)
  have hf : floatToInt (Duration.Seconds (300000000000 - e)) = (300000000000 - e) / Second :=
    floatToInt_Seconds _ (by omega) (by rw [hS]; omega)
  unfold remainingSeconds
  rw [hotPotatoCooldown_eq, hw, hf, hS]
  exact wrapInt64_of_range (by omega) (by omega)

/-- The gate reports active exactly when a last game end is recorded and less
than the cooldown has elapsed since; the value it then returns is
`remainingSeconds`. -/
theorem isHotPotatoCoolingDown_ret (s : hotPotatoState) (now : Int) :
    (isHotPotatoCoolingDown s now).ret =
      if s.lastGameEnd ≠ 0 ∧ now - s.lastGameEnd < hotPotatoCooldown then
        (true, remainingSeconds (timeSince now s.lastGameEnd))
      else (false, 0) := by
  unfold isHotPotatoCoolingDown Time.IsZero
  by_cases hz : s.lastGameEnd = 0
  · simp [hz]
  · by_cases hc : now - s.lastGameEnd < hotPotatoCooldown
    · have := (timeSince_lt_cooldown_iff now s.lastGameEnd).mpr hc
      simp [hz, hc, this]
    · have := mt (timeSince_lt_cooldown_iff now s.lastGameEnd).mp hc
      simp [hz, hc, this]

theorem isHotPotatoCoolingDown_state (s : hotPotatoState) (now : Int) :
    (isHotPotatoCoolingDown s now).state = s := by
  unfold isHotPotatoCoolingDown
  split_ifs <;> rfl

/-- The ceiling of a whole number of nanoseconds, in seconds. -/
theorem ceilingSeconds_eq (d : Int) :
    ceilingSeconds d = if Second ∣ d then d / Second else d / Second + 1 := by
  have hS : Second = 1000000000 := rfl
  unfold ceilingSeconds
  rw [hS]
  have hd : ((d : Int) : ℚ) = ((d / 1000000000 * 1000000000 + d % 1000000000 : Int) : ℚ) := by
    congr 1
    omega
  have hm0 : (0 : ℚ) ≤ ((d % 1000000000 : Int) : ℚ) := by
    exact_mod_cast Int.emod_nonneg d (by norm_num)
  have hm1 : ((d % 1000000000 : Int) : ℚ) < 1000000000 := by
    exact_mod_cast Int.emod_lt_of_pos d (by norm_num)
  split_ifs with h
  · have : d % 1000000000 = 0 := Int.emod_eq_zero_of_dvd h
    rw [Int.ceil_eq_iff, hd, this]
    push_cast
    constructor <;> [linarith; (apply le_of_eq; field_simp)]
  · have hne : d % 1000000000 ≠ 0 := fun h0 => h (Int.dvd_of_emod_eq_zero h0)
    have hpos : (1 : ℚ) ≤ ((d % 1000000000 : Int) : ℚ) := by
      have : 1 ≤ d % 1000000000 := by
        have := Int.emod_nonneg d (by norm_num : (1000000000 : Int) ≠ 0)
        omega
      exact_mod_cast this
    rw [Int.ceil_eq_iff, hd]
    push_cast at hm0 hm1 hpos ⊢
    constructor
    · rw [lt_div_iff₀ (by norm_num)]
      linarith
    · rw [div_le_iff₀ (by norm_num)]
      linarith

/-- The gate reports active exactly when a last game end is recorded and less
than the cooldown has elapsed since. -/
theorem isHotPotatoCoolingDown_active_iff (s : hotPotatoState) (now : Int) :
    (isHotPotatoCoolingDown s now).ret.1 = true ↔
      s.lastGameEnd ≠ 0 ∧ now - s.lastGameEnd < hotPotatoCooldown := by
  rw [isHotPotatoCoolingDown_ret]
  by_cases h : s.lastGameEnd ≠ 0 ∧ now - s.lastGameEnd < hotPotatoCooldown
  · rw [if_pos h]
    exact ⟨fun _ => h, fun _ => rfl⟩
  · rw [if_neg h]
    exact ⟨fun h2 => Bool.noConfusion h2, fun h2 => absurd h2 h⟩

/-- C5 (Cooldown Gate): `isHotPotatoCoolingDown` returns `(false, 0)` when
`lastGameEnd` is unset; otherwise it reports active if and only if the time
elapsed since `lastGameEnd` is strictly less than 5 minutes, and returns
`(false, 0)` when 5 minutes or more have elapsed; the game state it hands back
is the one it received. -/
theorem cooldown_gate (s : hotPotatoState) (now : Int) :
    (s.lastGameEnd = 0 → (isHotPotatoCoolingDown s now).ret = (false, 0)) ∧
    (s.lastGameEnd ≠ 0 →
      ((isHotPotatoCoolingDown s now).ret.1 = true ↔ now - s.lastGameEnd < 5 * Minute)) ∧
    (s.lastGameEnd ≠ 0 → 5 * Minute ≤ now - s.lastGameEnd →
      (isHotPotatoCoolingDown s now).ret = (false, 0)) ∧
    (isHotPotatoCoolingDown s now).state = s := by
  have hc : (5 : Int) * Minute = hotPotatoCooldown := rfl
  rw [isHotPotatoCoolingDown_ret, hc]
  refine ⟨?_, ?_, ?_, isHotPotatoCoolingDown_state s now⟩
  · intro hz
    simp [hz]
  · intro hz
    by_cases h : now - s.lastGameEnd < hotPotatoCooldown <;> simp [hz, h]
  · intro hz h
    simp [not_lt.mpr h]

/-- C5, at a game that ended one second ago, one that ended six minutes ago and
a state with no game yet (the three cases of `TestHotPotatoCooldown`). -/
theorem cooldown_gate_witness :
    (isHotPotatoCoolingDown ⟨false, false, ∅, -1, 0⟩ 63900000000000000000).ret = (false, 0) ∧
    (isHotPotatoCoolingDown ⟨false, false, ∅, -1, 63900000000000000000⟩
      63900000001000000000).ret.1 = true ∧
    (isHotPotatoCoolingDown ⟨false, false, ∅, -1, 63900000000000000000⟩
      63900000360000000000).ret = (false, 0) :=
  ⟨(cooldown_gate ⟨false, false, ∅, -1, 0⟩ 63900000000000000000).1 rfl,
   ((cooldown_gate ⟨false, false, ∅, -1, 63900000000000000000⟩ 63900000001000000000).2.1
      (by decide)).mpr (by decide),
   (cooldown_gate ⟨false, false, ∅, -1, 63900000000000000000⟩ 63900000360000000000).2.2.1
      (by decide) (by decide)⟩

/-- C6, counterexample: a game ended exactly one second ago, so the residual is
299 whole seconds; the gate reports 300 seconds while the ceiling of the
residual is 299. -/
theorem remaining_is_ceiling_counterexample :
    (isHotPotatoCoolingDown ⟨false, false, ∅, -1, 63900000000000000000⟩
      63900000001000000000).ret = (true, 300) ∧
    ceilingSeconds (hotPotatoCooldown - (63900000001000000000 - 63900000000000000000)) = 299 ∧
    (isHotPotatoCoolingDown ⟨false, false, ∅, -1, 63900000000000000000⟩
      63900000001000000000).ret.2 ≠
      ceilingSeconds (hotPotatoCooldown - (63900000001000000000 - 63900000000000000000)) := by
  have h1 : (isHotPotatoCoolingDown ⟨false, false, ∅, -1, 63900000000000000000⟩
      63900000001000000000).ret = (true, 300) := by
    rw [isHotPotatoCoolingDown_ret, if_pos (by decide),
      timeSince_of_range (by decide) (by decide),
      remainingSeconds_eq _ (by decide) (by decide)]
    rfl
  have h2 : ceilingSeconds
      (hotPotatoCooldown - (63900000001000000000 - 63900000000000000000)) = 299 := by
    rw [ceilingSeconds_eq]
    decide
  refine ⟨h1, h2, ?_⟩
  rw [h1, h2]
  decide

/-- C6, amended: whenever less than 5 minutes have elapsed since `lastGameEnd`
(and the clock has not gone back), the gate reports active and
`secondsRemaining` is the whole seconds of the residual plus one.  That is the
ceiling of the residual seconds when the residual is not a whole number of
seconds, and the ceiling plus one when it is. -/
theorem remaining_is_floor_plus_one (s : hotPotatoState) (now : Int)
    (hset : s.lastGameEnd ≠ 0) (h0 : 0 ≤ now - s.lastGameEnd)
    (h1 : now - s.lastGameEnd < hotPotatoCooldown) :
    (isHotPotatoCoolingDown s now).ret.1 = true ∧
    (isHotPotatoCoolingDown s now).ret.2 =
      ⌊((hotPotatoCooldown - (now - s.lastGameEnd) : Int) : ℚ) / 1000000000⌋ + 1 ∧
    (¬ Second ∣ hotPotatoCooldown - (now - s.lastGameEnd) →
      (isHotPotatoCoolingDown s now).ret.2 =
        ceilingSeconds (hotPotatoCooldown - (now - s.lastGameEnd))) ∧
    (Second ∣ hotPotatoCooldown - (now - s.lastGameEnd) →
      (isHotPotatoCoolingDown s now).ret.2 =
        ceilingSeconds (hotPotatoCooldown - (now - s.lastGameEnd)) + 1) := by
  have hS : Second = 1000000000 := rfl
  have hr : (isHotPotatoCoolingDown s now).ret =
      (true, (hotPotatoCooldown - (now - s.lastGameEnd)) / Second + 1) := by
    rw [hotPotatoCooldown_eq] at h1
    rw [isHotPotatoCoolingDown_ret, if_pos ⟨hset, by rw [hotPotatoCooldown_eq]; exact h1⟩,
      timeSince_of_range (by unfold minDuration; omega) (by unfold maxDuration; omega),
      remainingSeconds_eq _ h0 (by rw [hotPotatoCooldown_eq]; exact h1)]
  rw [hr, ceilingSeconds_eq]
  refine ⟨rfl, ?_, ?_, ?_⟩
  · have := Rat.floor_intCast_div_natCast (hotPotatoCooldown - (now - s.lastGameEnd)) 1000000000
    simp only [Nat.cast_ofNat] at this
    rw [this, hS]
  · intro h
    rw [if_neg h]
  · intro h
    rw [if_pos h]

/-- C6 amended, half a second after a game ended: 300 seconds are reported. -/
theorem remaining_is_floor_plus_one_witness :
    (isHotPotatoCoolingDown ⟨false, false, ∅, -1, 63900000000000000000⟩
      63900000000500000000).ret.2 =
      ⌊((hotPotatoCooldown - (63900000000500000000 - 63900000000000000000) : Int) : ℚ)
        / 1000000000⌋ + 1 :=
  (remaining_is_floor_plus_one ⟨false, false, ∅, -1, 63900000000000000000⟩
    63900000000500000000 (by decide) (by decide) (by decide)).2.1

/-- C7: for every elapsed time `e` with `0 ≤ e < 5 minutes` the gate reports
active, and the remaining seconds `r` it reports are a whole number strictly
greater than the exact residual `300 s - e` and at most that residual plus one;
so `1 ≤ r ≤ 301`, and right after `lastGameEnd` is set (`e = 0`) `r` is within
one second of the full 300 seconds. -/
theorem remaining_bounds (s : hotPotatoState) (now : Int)
    (hset : s.lastGameEnd ≠ 0) (h0 : 0 ≤ now - s.lastGameEnd)
    (h1 : now - s.lastGameEnd < 5 * Minute) :
    (isHotPotatoCoolingDown s now).ret.1 = true ∧
    (300 : ℚ) - ((now - s.lastGameEnd : Int) : ℚ) / 1000000000
      < ((isHotPotatoCoolingDown s now).ret.2 : ℚ) ∧
    ((isHotPotatoCoolingDown s now).ret.2 : ℚ)
      ≤ (300 : ℚ) - ((now - s.lastGameEnd : Int) : ℚ) / 1000000000 + 1 ∧
    1 ≤ (isHotPotatoCoolingDown s now).ret.2 ∧
    (isHotPotatoCoolingDown s now).ret.2 ≤ 301 ∧
    (now - s.lastGameEnd = 0 → |(isHotPotatoCoolingDown s now).ret.2 - 300| ≤ 1) := by
  have hc : (5 : Int) * Minute = 300000000000 := rfl
  rw [hc] at h1
  have hS : Second = 1000000000 := rfl
  have hr : (isHotPotatoCoolingDown s now).ret =
      (true, (300000000000 - (now - s.lastGameEnd)) / 1000000000 + 1) := by
    rw [isHotPotatoCoolingDown_ret, if_pos ⟨hset, by rw [hotPotatoCooldown_eq]; exact h1⟩,
      timeSince_of_range (by unfold minDuration; omega) (by unfold maxDuration; omega),
      remainingSeconds_eq _ h0 (by rw [hotPotatoCooldown_eq]; exact h1),
      hotPotatoCooldown_eq, hS]
  rw [hr]
  generalize now - s.lastGameEnd = e at h0 h1
  have hq : (((300000000000 - e) / 1000000000 : Int) : ℚ) * 1000000000
      + (((300000000000 - e) % 1000000000 : Int) : ℚ) = 300000000000 - (e : ℚ) := by
    have : (300000000000 - e) / 1000000000 * 1000000000 + (300000000000 - e) % 1000000000
        = 300000000000 - e := by omega
    exact_mod_cast this
  have hm0 : (0 : ℚ) ≤ (((300000000000 - e) % 1000000000 : Int) : ℚ) := by
    exact_mod_cast Int.emod_nonneg _ (by norm_num)
  have hm1 : (((300000000000 - e) % 1000000000 : Int) : ℚ) < 1000000000 := by
    exact_mod_cast Int.emod_lt_of_pos _ (by norm_num)
  refine ⟨rfl, ?_, ?_, ?_, ?_, ?_⟩
  · show (300 : ℚ) - (e : ℚ) / 1000000000
      < (((300000000000 - e) / 1000000000 + 1 : Int) : ℚ)
    have hx : (e : ℚ) / 1000000000 * 1000000000 = e := by field_simp
    push_cast
    linarith
  · show (((300000000000 - e) / 1000000000 + 1 : Int) : ℚ)
      ≤ (300 : ℚ) - (e : ℚ) / 1000000000 + 1
    have hx : (e : ℚ) / 1000000000 * 1000000000 = e := by field_simp
    push_cast
    linarith
  · show 1 ≤ (300000000000 - e) / 1000000000 + 1
    omega
  · show (300000000000 - e) / 1000000000 + 1 ≤ 301
    omega
  · intro he
    show |(300000000000 - e) / 1000000000 + 1 - 300| ≤ 1
    rw [he]
    decide

/-- C7, one nanosecond before the cooldown ends: one second is reported. -/
theorem remaining_bounds_witness :
    (isHotPotatoCoolingDown ⟨false, false, ∅, -1, 63900000000000000000⟩
      63900000299999999999).ret.1 = true ∧
    1 ≤ (isHotPotatoCoolingDown ⟨false, false, ∅, -1, 63900000000000000000⟩
      63900000299999999999).ret.2 ∧
    (isHotPotatoCoolingDown ⟨false, false, ∅, -1, 63900000000000000000⟩
      63900000299999999999).ret.2 ≤ 301 :=
  have h := remaining_bounds ⟨false, false, ∅, -1, 63900000000000000000⟩
    63900000299999999999 (by decide) (by decide) (by decide)
  ⟨h.1, h.2.2.2.1, h.2.2.2.2.1⟩

/-! ## Starting a game -/

/-- A start request (anything but the `accept` sub-command) goes through the
two guards and then opens the opt-in phase. -/
theorem cmdHotPotato_start (s : hotPotatoState) (now : Int) (client : Client)
    (args : List String) (hstart : args.head? ≠ some "accept") :
    cmdHotPotato s now client args =
      if s.optInActive = true ∨ s.gameActive = true then
        ⟨s, [Event.lock, Event.unlock,
             Event.sendServerMessage client Msg.alreadyInProgress], ()⟩
      else if s.lastGameEnd ≠ 0 ∧ now - s.lastGameEnd < hotPotatoCooldown then
        ⟨s, [Event.lock,
             Event.sendServerMessage client
               (Msg.onCooldown (remainingSeconds (timeSince now s.lastGameEnd))),
             Event.unlock], ()⟩
      else
        ⟨⟨true, false, ∅, -1, s.lastGameEnd⟩,
         [Event.lock, Event.unlock, Event.writeToAll Msg.rules,
          Event.addToBuffer client LogMsg.startedOptIn, Event.goOptInTimer], ()⟩ := by
  unfold cmdHotPotato
  rw [if_neg (fun h => hstart h.2)]
  by_cases hrun : s.optInActive = true ∨ s.gameActive = true
  · rw [if_pos hrun, if_pos (by simpa using hrun)]
  · rw [if_neg hrun, if_neg (by simpa using hrun)]
    have hiff := timeSince_lt_cooldown_iff now s.lastGameEnd
    by_cases hcd : s.lastGameEnd ≠ 0 ∧ now - s.lastGameEnd < hotPotatoCooldown
    · rw [if_pos hcd, if_pos]
      simpa [Time.IsZero, hiff] using hcd
    · rw [if_neg hcd, if_neg]
      simpa [Time.IsZero, hiff] using hcd

/-- C2 (AlreadyRunning): in every game state in which `optInActive` or
`gameActive` is true, a start request is rejected: the state it leaves is the
state it found, field for field, and all it does is tell the requester that a
game is already in progress. -/
theorem start_rejected_while_running (s : hotPotatoState) (now : Int) (client : Client)
    (args : List String) (hstart : args.head? ≠ some "accept")
    (hrun : s.optInActive = true ∨ s.gameActive = true) :
    (cmdHotPotato s now client args).state = s ∧
    (cmdHotPotato s now client args).events =
      [Event.lock, Event.unlock, Event.sendServerMessage client Msg.alreadyInProgress] := by
  rw [cmdHotPotato_start s now client args hstart, if_pos hrun]
  exact ⟨rfl, rfl⟩

/-- C2, at the state of `TestHotPotatoOnlyOneGame` (opt-in phase open) with two
players already in. -/
theorem start_rejected_while_running_witness :
    (cmdHotPotato ⟨true, false, (Finmap.singleton 1 true).insert 2 true, -1, 0⟩
      63900000000000000000 ⟨3, "carol", 0, false⟩ []).state =
      ⟨true, false, (Finmap.singleton 1 true).insert 2 true, -1, 0⟩ :=
  (start_rejected_while_running ⟨true, false, (Finmap.singleton 1 true).insert 2 true, -1, 0⟩
    63900000000000000000 ⟨3, "carol", 0, false⟩ [] (by decide) (Or.inl rfl)).1

/-- C3 (OnCooldown): with both phase flags false, a start request is answered
with the on-cooldown notice exactly when `isHotPotatoCoolingDown` reports active
for the same state and clock reading; on that rejection the state is left as it
was, and the seconds in the notice are the gate-s `secondsRemaining`. -/
theorem start_rejected_on_cooldown (s : hotPotatoState) (now : Int) (client : Client)
    (args : List String) (hstart : args.head? ≠ some "accept")
    (hopt : s.optInActive = false) (hgame : s.gameActive = false) :
    ((∃ r, Event.sendServerMessage client (Msg.onCooldown r)
          ∈ (cmdHotPotato s now client args).events) ↔
      (isHotPotatoCoolingDown s now).ret.1 = true) ∧
    ((isHotPotatoCoolingDown s now).ret.1 = true →
      (cmdHotPotato s now client args).state = s ∧
      (cmdHotPotato s now client args).events =
        [Event.lock,
         Event.sendServerMessage client
           (Msg.onCooldown (isHotPotatoCoolingDown s now).ret.2),
         Event.unlock]) := by
  rw [cmdHotPotato_start s now client args hstart, isHotPotatoCoolingDown_ret,
    if_neg (by simp [hopt, hgame])]
  by_cases hcd : s.lastGameEnd ≠ 0 ∧ now - s.lastGameEnd < hotPotatoCooldown
  · rw [if_pos hcd, if_pos hcd]
    exact ⟨⟨fun _ => rfl,
      fun _ => ⟨remainingSeconds (timeSince now s.lastGameEnd), by simp⟩⟩,
      fun _ => ⟨rfl, rfl⟩⟩
  · rw [if_neg hcd, if_neg hcd]
    refine ⟨⟨?_, ?_⟩, ?_⟩
    · rintro ⟨r, hr⟩
      simp at hr
    · intro h
      simp at h
    · intro h
      simp at h

/-- C3, two minutes after a game ended: the request is refused with the notice
of the remaining seconds and the state stays. -/
theorem start_rejected_on_cooldown_witness :
    (cmdHotPotato ⟨false, false, ∅, -1, 63900000000000000000⟩ 63900000120000000000
      ⟨3, "carol", 0, false⟩ []).state = ⟨false, false, ∅, -1, 63900000000000000000⟩ :=
  ((start_rejected_on_cooldown ⟨false, false, ∅, -1, 63900000000000000000⟩
    63900000120000000000 ⟨3, "carol", 0, false⟩ [] (by decide) rfl rfl).2
    ((isHotPotatoCoolingDown_active_iff ⟨false, false, ∅, -1, 63900000000000000000⟩ 63900000120000000000).mpr
      (by decide))).1

/-- C4 (successful start): with both flags false and `lastGameEnd` unset or at
least 5 minutes back, a start request yields `optInActive = true`,
`gameActive = false`, an empty participant map (whatever it held before), the
carrier absent (`-1`) and `lastGameEnd` unchanged; it announces the rules and
launches the opt-in timer. -/
theorem start_opens_opt_in (s : hotPotatoState) (now : Int) (client : Client)
    (args : List String) (hstart : args.head? ≠ some "accept")
    (hopt : s.optInActive = false) (hgame : s.gameActive = false)
    (hcd : s.lastGameEnd = 0 ∨ 5 * Minute ≤ now - s.lastGameEnd) :
    (cmdHotPotato s now client args).state.optInActive = true ∧
    (cmdHotPotato s now client args).state.gameActive = false ∧
    (cmdHotPotato s now client args).state.participants = ∅ ∧
    (cmdHotPotato s now client args).state.carrierUID = -1 ∧
    (cmdHotPotato s now client args).state.lastGameEnd = s.lastGameEnd ∧
    (cmdHotPotato s now client args).events =
      [Event.lock, Event.unlock, Event.writeToAll Msg.rules,
       Event.addToBuffer client LogMsg.startedOptIn, Event.goOptInTimer] := by
  have hc : (5 : Int) * Minute = hotPotatoCooldown := rfl
  rw [hc] at hcd
  rw [cmdHotPotato_start s now client args hstart, if_neg (by simp [hopt, hgame]), if_neg]
  · exact ⟨rfl, rfl, rfl, rfl, rfl, rfl⟩
  · rintro ⟨h1, h2⟩
    rcases hcd with h | h
    · exact h1 h
    · exact absurd h2 (not_lt.mpr h)

/-- C4, six minutes after a game with two participants ended: a new opt-in phase
opens with no participant. -/
theorem start_opens_opt_in_witness :
    (cmdHotPotato ⟨false, false, (Finmap.singleton 1 true).insert 2 true, 2,
      63900000000000000000⟩ 63900000360000000000 ⟨3, "carol", 0, false⟩ []).state.participants
      = ∅ :=
  (start_opens_opt_in ⟨false, false, (Finmap.singleton 1 true).insert 2 true, 2,
    63900000000000000000⟩ 63900000360000000000 ⟨3, "carol", 0, false⟩ [] (by decide) rfl rfl
    (Or.inr (by decide))).2.2.1

/-! ## Joining -/

theorem IntBoolMap.get_set_self (m : IntBoolMap) (k : Int) (v : Bool) :
    IntBoolMap.get (IntBoolMap.set m k v) k = v := by
  unfold IntBoolMap.get IntBoolMap.set
  rw [Finmap.lookup_insert]
  rfl

theorem IntBoolMap.keys_set (m : IntBoolMap) (k : Int) (v : Bool) :
    Finmap.keys (IntBoolMap.set m k v) = insert k (Finmap.keys m) := by
  ext a
  unfold IntBoolMap.set
  rw [Finmap.mem_keys, Finmap.mem_insert, Finset.mem_insert, Finmap.mem_keys]

theorem IntBoolMap.len_set_of_not_mem (m : IntBoolMap) (k : Int) (v : Bool) (h : k ∉ m) :
    IntBoolMap.len (IntBoolMap.set m k v) = IntBoolMap.len m + 1 := by
  unfold IntBoolMap.len
  rw [IntBoolMap.keys_set, Finset.card_insert_of_not_mem (mt Finmap.mem_keys.mp h)]

theorem IntBoolMap.get_of_not_mem (m : IntBoolMap) (k : Int) (h : k ∉ m) :
    IntBoolMap.get m k = false := by
  unfold IntBoolMap.get
  rw [Finmap.lookup_eq_none.mpr h]
  rfl

/-- An accept during the opt-in phase by a player whose entry is not yet true
stores the entry and reports the new count. -/
theorem hotPotatoAccept_join (s : hotPotatoState) (client : Client)
    (hopt : s.optInActive = true) (hnew : IntBoolMap.get s.participants client.Uid = false) :
    hotPotatoAccept s client =
      ⟨⟨s.optInActive, s.gameActive, IntBoolMap.set s.participants client.Uid true,
        s.carrierUID, s.lastGameEnd⟩,
       [Event.lock,
        Event.sendServerMessage client
          (Msg.joined (IntBoolMap.len (IntBoolMap.set s.participants client.Uid true))),
        Event.writeToAll (Msg.joinedAnnounce client.OOCName
          (IntBoolMap.len (IntBoolMap.set s.participants client.Uid true))),
        Event.unlock], ()⟩ := by
  unfold hotPotatoAccept
  rw [if_neg (by simp [hopt]), if_neg (by simp [hnew])]

/-- An accept during the opt-in phase by a player whose entry is true changes
nothing. -/
theorem hotPotatoAccept_again (s : hotPotatoState) (client : Client)
    (hopt : s.optInActive = true) (hin : IntBoolMap.get s.participants client.Uid = true) :
    hotPotatoAccept s client =
      ⟨s, [Event.lock, Event.sendServerMessage client Msg.alreadyJoined, Event.unlock], ()⟩ := by
  unfold hotPotatoAccept
  rw [if_neg (by simp [hopt]), if_pos hin]

/-- C8 (idempotent join): while the opt-in phase is open, accepting twice with
the same player leaves exactly the game state that accepting once leaves (the
same participant map, of the same size, and the same other fields); the second
call is the already-joined rejection. -/
theorem accept_twice_is_accept_once (s : hotPotatoState) (client : Client)
    (hopt : s.optInActive = true) :
    (hotPotatoAccept (hotPotatoAccept s client).state client).state
      = (hotPotatoAccept s client).state ∧
    IntBoolMap.len (hotPotatoAccept (hotPotatoAccept s client).state client).state.participants
      = IntBoolMap.len (hotPotatoAccept s client).state.participants ∧
    (hotPotatoAccept (hotPotatoAccept s client).state client).events =
      [Event.lock, Event.sendServerMessage client Msg.alreadyJoined, Event.unlock] := by
  have key : hotPotatoAccept (hotPotatoAccept s client).state client =
      ⟨(hotPotatoAccept s client).state,
       [Event.lock, Event.sendServerMessage client Msg.alreadyJoined, Event.unlock], ()⟩ := by
    cases hin : IntBoolMap.get s.participants client.Uid
    · rw [hotPotatoAccept_join s client hopt hin]
      exact hotPotatoAccept_again _ client hopt (IntBoolMap.get_set_self _ _ _)
    · rw [hotPotatoAccept_again s client hopt hin]
      exact hotPotatoAccept_again s client hopt hin
  rw [key]
  exact ⟨rfl, rfl, rfl⟩

/-- C8, at the state of `TestHotPotatoDoubleOptIn` and a newcomer with uid 7. -/
theorem accept_twice_is_accept_once_witness :
    (hotPotatoAccept (hotPotatoAccept ⟨true, false, Finmap.singleton 42 true, -1, 0⟩
        ⟨7, "dana", 0, false⟩).state ⟨7, "dana", 0, false⟩).state
      = ⟨true, false, (Finmap.singleton 42 true).insert 7 true, -1, 0⟩ :=
  (accept_twice_is_accept_once ⟨true, false, Finmap.singleton 42 true, -1, 0⟩
    ⟨7, "dana", 0, false⟩ rfl).1.trans (by decide)

/-- C9 (successful join): while the opt-in phase is open, an accept by a player
whose uid is not a key of the participant map adds that uid (with value true) and
nothing else, so the size grows by exactly one; `optInActive`, `gameActive`,
`carrierUID` and `lastGameEnd` stay; the count in the private acknowledgement
and in the broadcast is the size of the new map. -/
theorem accept_adds_player (s : hotPotatoState) (client : Client)
    (hopt : s.optInActive = true) (hnew : client.Uid ∉ s.participants) :
    Finmap.keys (hotPotatoAccept s client).state.participants
      = insert client.Uid (Finmap.keys s.participants) ∧
    IntBoolMap.get (hotPotatoAccept s client).state.participants client.Uid = true ∧
    (∀ uid, uid ≠ client.Uid →
      Finmap.lookup uid (hotPotatoAccept s client).state.participants
        = Finmap.lookup uid s.participants) ∧
    IntBoolMap.len (hotPotatoAccept s client).state.participants
      = IntBoolMap.len s.participants + 1 ∧
    (hotPotatoAccept s client).state.optInActive = s.optInActive ∧
    (hotPotatoAccept s client).state.gameActive = s.gameActive ∧
    (hotPotatoAccept s client).state.carrierUID = s.carrierUID ∧
    (hotPotatoAccept s client).state.lastGameEnd = s.lastGameEnd ∧
    (hotPotatoAccept s client).events =
      [Event.lock,
       Event.sendServerMessage client
         (Msg.joined (IntBoolMap.len (hotPotatoAccept s client).state.participants)),
       Event.writeToAll (Msg.joinedAnnounce client.OOCName
         (IntBoolMap.len (hotPotatoAccept s client).state.participants)),
       Event.unlock] := by
  rw [hotPotatoAccept_join s client hopt (IntBoolMap.get_of_not_mem _ _ hnew)]
  refine ⟨IntBoolMap.keys_set _ _ _, IntBoolMap.get_set_self _ _ _, ?_,
    IntBoolMap.len_set_of_not_mem _ _ _ hnew, rfl, rfl, rfl, rfl, rfl⟩
  intro uid hne
  exact Finmap.lookup_insert_of_ne _ hne

/-- C9, a second player joining: two participants are counted. -/
theorem accept_adds_player_witness :
    IntBoolMap.len (hotPotatoAccept ⟨true, false, Finmap.singleton 1 true, -1, 0⟩
      ⟨2, "bob", 0, false⟩).state.participants = IntBoolMap.len (Finmap.singleton 1 true) + 1 :=
  (accept_adds_player ⟨true, false, Finmap.singleton 1 true, -1, 0⟩ ⟨2, "bob", 0, false⟩
    rfl (by decide)).2.2.2.1

/-- C10 (NoActiveInvite): in every game state with `optInActive` false, idle or
with a game running, an accept is rejected with the no-active-game notice and
leaves the state as it was, field for field; the participant map cannot change
once the opt-in phase has ended. -/
theorem accept_rejected_without_opt_in (s : hotPotatoState) (client : Client)
    (hopt : s.optInActive = false) :
    (hotPotatoAccept s client).state = s ∧
    (hotPotatoAccept s client).events =
      [Event.lock, Event.sendServerMessage client Msg.noActiveGame, Event.unlock] := by
  unfold hotPotatoAccept
  rw [if_pos (by simp [hopt])]
  exact ⟨rfl, rfl⟩

/-- C10, while a game is running with carrier 2. -/
theorem accept_rejected_without_opt_in_witness :
    (hotPotatoAccept ⟨false, true, (Finmap.singleton 1 true).insert 2 true, 2, 0⟩
      ⟨3, "carol", 0, false⟩).state
      = ⟨false, true, (Finmap.singleton 1 true).insert 2 true, 2, 0⟩ :=
  (accept_rejected_without_opt_in ⟨false, true, (Finmap.singleton 1 true).insert 2 true, 2, 0⟩
    ⟨3, "carol", 0, false⟩ rfl).1

/-! ## Phases -/

theorem cmdHotPotato_exclusive (s : hotPotatoState) (now : Int) (client : Client)
    (args : List String) (hinv : ¬(s.optInActive = true ∧ s.gameActive = true)) :
    ¬((cmdHotPotato s now client args).state.optInActive = true ∧
      (cmdHotPotato s now client args).state.gameActive = true) := by
  unfold cmdHotPotato hotPotatoAccept
  split_ifs <;> first | exact hinv | simp

theorem hotPotatoAccept_exclusive (s : hotPotatoState) (client : Client)
    (hinv : ¬(s.optInActive = true ∧ s.gameActive = true)) :
    ¬((hotPotatoAccept s client).state.optInActive = true ∧
      (hotPotatoAccept s client).state.gameActive = true) := by
  unfold hotPotatoAccept
  split_ifs <;> exact hinv

theorem hotPotatoOptInTimer_exclusive (s : hotPotatoState) (now : Int)
    (getClientByUid : ClientTable) (order : List Int) (intn : Nat) (r : Run Unit)
    (h : hotPotatoOptInTimer s now getClientByUid order intn = some r)
    (hinv : ¬(s.optInActive = true ∧ s.gameActive = true)) :
    ¬(r.state.optInActive = true ∧ r.state.gameActive = true) := by
  unfold hotPotatoOptInTimer at h
  split at h
  · cases h
    exact hinv
  · dsimp only at h
    split at h
    · cases h
      intro hc
      exact Bool.noConfusion hc.1
    · split at h
      · exact Option.noConfusion h
      · cases h
        intro hc
        exact Bool.noConfusion hc.1

theorem hotPotatoGameTimer_exclusive (s : hotPotatoState) (now : Int) (carrierUID : Int)
    (getClientByUid : ClientTable) (orderCopy : List Int) (intn : Nat → Nat) (r : Run Unit)
    (h : hotPotatoGameTimer s now carrierUID getClientByUid orderCopy intn = some r)
    (hinv : ¬(s.optInActive = true ∧ s.gameActive = true)) :
    ¬(r.state.optInActive = true ∧ r.state.gameActive = true) := by
  unfold hotPotatoGameTimer at h
  split_ifs at h with h1
  · cases h
    exact hinv
  · split at h
    · exact Option.noConfusion h
    · cases h
      intro hc
      exact Bool.noConfusion hc.1

/-- Every operation keeps the two phase flags from being true together. -/
theorem Op.apply_exclusive (s : hotPotatoState) (op : Op) (r : Run Unit)
    (h : op.apply s = some r) (hinv : ¬(s.optInActive = true ∧ s.gameActive = true)) :
    ¬(r.state.optInActive = true ∧ r.state.gameActive = true) := by
  cases op with
  | cmdHotPotato now client args =>
    cases h
    exact cmdHotPotato_exclusive s now client args hinv
  | hotPotatoAccept client =>
    cases h
    exact hotPotatoAccept_exclusive s client hinv
  | hotPotatoOptInTimer now tbl order intn =>
    exact hotPotatoOptInTimer_exclusive s now tbl order intn r h hinv
  | hotPotatoGameTimer now carrierUID tbl orderCopy intn =>
    exact hotPotatoGameTimer_exclusive s now carrierUID tbl orderCopy intn r h hinv

theorem runOps_exclusive (ops : List Op) (s t : hotPotatoState)
    (h : runOps s ops = some t) (hinv : ¬(s.optInActive = true ∧ s.gameActive = true)) :
    ¬(t.optInActive = true ∧ t.gameActive = true) := by
  induction ops generalizing s with
  | nil =>
    cases h
    exact hinv
  | cons op ops ih =>
    unfold runOps at h
    split at h
    · exact Option.noConfusion h
    · next r hr => exact ih r.state h (Op.apply_exclusive s op r hr hinv)

/-- C1 (mutual exclusion of phases): after any finite sequence of start/accept
commands, opt-in expiries and game expiries applied to the initial state, in any
order and with any clock readings, client tables, iteration orders and random
draws, `optInActive` and `gameActive` are not both true. -/
theorem phases_mutually_exclusive (ops : List Op) (s : hotPotatoState)
    (h : runOps hotPotato ops = some s) :
    ¬(s.optInActive = true ∧ s.gameActive = true) :=
  runOps_exclusive ops hotPotato s h (fun hc => Bool.noConfusion hc.1)

/-- C1, along a whole game: a start, two players joining, the opt-in expiry that
makes uid 2 the carrier, a start attempt during the game, and the game expiry. -/
theorem phases_mutually_exclusive_witness :
    runOps hotPotato
      [Op.cmdHotPotato 63900000000000000000 sampleClient1 [],
       Op.hotPotatoAccept sampleClient1,
       Op.cmdHotPotato 63900000010000000000 sampleClient2 ["accept"],
       Op.hotPotatoOptInTimer 63900000060000000000 sampleTable [2, 1] 0,
       Op.cmdHotPotato 63900000070000000000 sampleClient1 [],
       Op.hotPotatoGameTimer 63900000360000000000 2 sampleTable [1, 2] (fun _ => 3)]
      = some ⟨false, false, (Finmap.singleton 1 true).insert 2 true, 2, 63900000360000000000⟩ ∧
    ¬((false = true) ∧ (false = true)) :=
  ⟨rfl, phases_mutually_exclusive
    [Op.cmdHotPotato 63900000000000000000 sampleClient1 [],
     Op.hotPotatoAccept sampleClient1,
     Op.cmdHotPotato 63900000010000000000 sampleClient2 ["accept"],
     Op.hotPotatoOptInTimer 63900000060000000000 sampleTable [2, 1] 0,
     Op.cmdHotPotato 63900000070000000000 sampleClient1 [],
     Op.hotPotatoGameTimer 63900000360000000000 2 sampleTable [1, 2] (fun _ => 3)]
    ⟨false, false, (Finmap.singleton 1 true).insert 2 true, 2, 63900000360000000000⟩
    (by rfl)⟩

/-! ## Opt-in expiry -/

/-- Along a valid iteration order, the uids kept in `validUIDs` are the
connected participants. -/
theorem mem_validUIDs (m : IntBoolMap) (getClientByUid : ClientTable) (order : List Int)
    (horder : IsRangeOrder m order) (uid : Int) :
    uid ∈ order.filter (fun uid => (getClientByUid uid).isSome) ↔
      uid ∈ connectedParticipants m getClientByUid := by
  unfold connectedParticipants
  rw [List.mem_filter, Finset.mem_filter, ← horder.2, List.mem_toFinset]

/-- Along a valid iteration order, `len(validUIDs)` is the number of connected
participants. -/
theorem length_validUIDs (m : IntBoolMap) (getClientByUid : ClientTable) (order : List Int)
    (horder : IsRangeOrder m order) :
    (order.filter (fun uid => (getClientByUid uid).isSome)).length =
      (connectedParticipants m getClientByUid).card := by
  have hnd : (order.filter (fun uid => (getClientByUid uid).isSome)).Nodup :=
    horder.1.filter _
  rw [← List.toFinset_card_of_nodup hnd]
  congr 1
  ext uid
  rw [List.mem_toFinset]
  exact mem_validUIDs m getClientByUid order horder uid

/-- With too few connected participants the opt-in expiry cancels the game. -/
theorem hotPotatoOptInTimer_cancel (s : hotPotatoState) (now : Int)
    (getClientByUid : ClientTable) (order : List Int) (intn : Nat)
    (hopt : s.optInActive = true)
    (hfew : (order.filter (fun uid => (getClientByUid uid).isSome)).length
      < hotPotatoMinParticipants) :
    hotPotatoOptInTimer s now getClientByUid order intn =
      some ⟨⟨false, s.gameActive, s.participants, s.carrierUID, now⟩,
            [Event.lock, Event.unlock,
             Event.writeToAll (Msg.cancelled
               (order.filter (fun uid => (getClientByUid uid).isSome)).length
               hotPotatoMinParticipants)], ()⟩ := by
  unfold hotPotatoOptInTimer
  rw [if_neg (by simp [hopt])]
  dsimp only
  rw [if_pos hfew]

/-- With enough connected participants and the draw in range the opt-in expiry
promotes the game, with the drawn entry of `validUIDs` as carrier. -/
theorem hotPotatoOptInTimer_promote (s : hotPotatoState) (now : Int)
    (getClientByUid : ClientTable) (order : List Int) (intn : Nat) (carrierUID : Int)
    (hopt : s.optInActive = true)
    (henough : ¬ (order.filter (fun uid => (getClientByUid uid).isSome)).length
      < hotPotatoMinParticipants)
    (hdraw : (order.filter (fun uid => (getClientByUid uid).isSome))[intn]? = some carrierUID) :
    hotPotatoOptInTimer s now getClientByUid order intn =
      some ⟨⟨false, true, s.participants, carrierUID, s.lastGameEnd⟩,
            [Event.lock, Event.unlock,
             Event.writeToAll (Msg.begun
               (order.filter (fun uid => (getClientByUid uid).isSome)).length)]
              ++ (match getClientByUid carrierUID with
                  | some carrierClient => [Event.sendServerMessage carrierClient Msg.youCarry]
                  | none => [])
              ++ [Event.goGameTimer carrierUID], ()⟩ := by
  unfold hotPotatoOptInTimer
  rw [if_neg (by simp [hopt])]
  dsimp only
  rw [if_neg henough, hdraw]

/-- C11 (promotion at opt-in expiry): in every game state with `optInActive`
true in which at least 2 participant IDs resolve to connected clients, for every
draw that `rand.Intn` can return `hotPotatoOptInTimer` runs to its end (no index
out of range), makes one of the connected participant IDs the carrier, sets
`gameActive = true` and `optInActive = false`, leaves `lastGameEnd` as it was
and announces a player count equal to the number of connected participants;
and every connected participant is the carrier for some draw. -/
theorem opt_in_expiry_promotes (s : hotPotatoState) (now : Int)
    (getClientByUid : ClientTable) (order : List Int)
    (hopt : s.optInActive = true) (horder : IsRangeOrder s.participants order)
    (henough : 2 ≤ (connectedParticipants s.participants getClientByUid).card) :
    (∀ intn, intn < (connectedParticipants s.participants getClientByUid).card →
      ∃ r, hotPotatoOptInTimer s now getClientByUid order intn = some r ∧
        r.state.carrierUID ∈ connectedParticipants s.participants getClientByUid ∧
        r.state.gameActive = true ∧ r.state.optInActive = false ∧
        r.state.lastGameEnd = s.lastGameEnd ∧
        Event.writeToAll
          (Msg.begun (connectedParticipants s.participants getClientByUid).card) ∈ r.events) ∧
    (∀ uid ∈ connectedParticipants s.participants getClientByUid,
      ∃ intn, intn < (connectedParticipants s.participants getClientByUid).card ∧
        ∃ r, hotPotatoOptInTimer s now getClientByUid order intn = some r ∧
          r.state.carrierUID = uid) := by
  have hlen := length_validUIDs s.participants getClientByUid order horder
  have hmem := mem_validUIDs s.participants getClientByUid order horder
  have hge : ¬ (order.filter (fun uid => (getClientByUid uid).isSome)).length
      < hotPotatoMinParticipants := by
    rw [hlen]
    exact not_lt.mpr henough
  constructor
  · intro intn hi
    rw [← hlen] at hi
    have hget := List.getElem?_eq_getElem hi
    refine ⟨_, hotPotatoOptInTimer_promote s now getClientByUid order intn _ hopt hge hget,
      ?_, rfl, rfl, rfl, ?_⟩
    · exact (hmem _).mp (List.getElem_mem hi)
    · rw [← hlen]
      simp
  · intro uid huid
    obtain ⟨intn, hi, hget⟩ := List.getElem_of_mem ((hmem uid).mpr huid)
    refine ⟨intn, by rw [← hlen]; exact hi, _,
      hotPotatoOptInTimer_promote s now getClientByUid order intn uid hopt hge ?_, rfl⟩
    rw [List.getElem?_eq_getElem hi, hget]

/-- C11, with the two sample players connected and a third participant gone:
the draw 1 makes uid 1 the carrier of a game announced with 2 players. -/
theorem opt_in_expiry_promotes_witness :
    ∃ r, hotPotatoOptInTimer
        ⟨true, false, ((Finmap.singleton 1 true).insert 2 true).insert 3 true, -1, 0⟩
        63900000060000000000 sampleTable [3, 2, 1] 1 = some r ∧
      r.state.carrierUID ∈ connectedParticipants
        (((Finmap.singleton 1 true).insert 2 true).insert 3 true) sampleTable ∧
      r.state.gameActive = true :=
  have h := (opt_in_expiry_promotes
    ⟨true, false, ((Finmap.singleton 1 true).insert 2 true).insert 3 true, -1, 0⟩
    63900000060000000000 sampleTable [3, 2, 1] rfl (by decide) (by decide)).1 1 (by decide)
  h.elim fun r hr => ⟨r, hr.1, hr.2.1, hr.2.2.1⟩

/-- A property of the game state that every operation preserves holds after
every run that starts in a state with the property. -/
theorem runOps_invariant (P : hotPotatoState → Prop)
    (hstep : ∀ (s : hotPotatoState) (op : Op) (r : Run Unit),
      P s → op.apply s = some r → P r.state)
    (ops : List Op) (s t : hotPotatoState) (hs : P s) (h : runOps s ops = some t) : P t := by
  induction ops generalizing s with
  | nil =>
    cases h
    exact hs
  | cons op ops ih =>
    unfold runOps at h
    split at h
    · exact Option.noConfusion h
    · next r hr => exact ih r.state (hstep s op r hs hr) h

/-- While the opt-in phase is open no game runs and no carrier is set. -/
theorem apply_optIn_idle (s : hotPotatoState) (op : Op) (r : Run Unit)
    (hs : s.optInActive = true → s.gameActive = false ∧ s.carrierUID = -1)
    (h : op.apply s = some r) :
    r.state.optInActive = true → r.state.gameActive = false ∧ r.state.carrierUID = -1 := by
  cases op with
  | cmdHotPotato now client args =>
    cases h
    show (cmdHotPotato s now client args).state.optInActive = true → _ ∧ _
    unfold cmdHotPotato hotPotatoAccept
    split_ifs <;> first | exact hs | exact fun _ => ⟨rfl, rfl⟩
  | hotPotatoAccept client =>
    cases h
    show (hotPotatoAccept s client).state.optInActive = true → _ ∧ _
    unfold hotPotatoAccept
    split_ifs <;> exact hs
  | hotPotatoOptInTimer now tbl order intn =>
    change hotPotatoOptInTimer s now tbl order intn = some r at h
    unfold hotPotatoOptInTimer at h
    split at h
    · cases h
      exact hs
    · dsimp only at h
      split at h
      · cases h
        exact fun hc => Bool.noConfusion hc
      · split at h
        · exact Option.noConfusion h
        · cases h
          exact fun hc => Bool.noConfusion hc
  | hotPotatoGameTimer now carrierUID tbl orderCopy intn =>
    change hotPotatoGameTimer s now carrierUID tbl orderCopy intn = some r at h
    unfold hotPotatoGameTimer at h
    split at h
    · cases h
      exact hs
    · split at h
      · exact Option.noConfusion h
      · cases h
        exact fun hc => Bool.noConfusion hc

/-- In every state the system reaches, an open opt-in phase has no game
running and no carrier. -/
theorem runOps_optIn_idle (ops : List Op) (s : hotPotatoState)
    (h : runOps hotPotato ops = some s) (hopt : s.optInActive = true) :
    s.gameActive = false ∧ s.carrierUID = -1 :=
  runOps_invariant
    (fun s => s.optInActive = true → s.gameActive = false ∧ s.carrierUID = -1)
    (fun s op r hs hr => apply_optIn_idle s op r hs hr)
    ops hotPotato s (fun hc => Bool.noConfusion hc) h hopt

/-- C12 (cancellation at opt-in expiry): in every game state the system reaches
with `optInActive` true in which fewer than 2 participant IDs resolve to
connected clients, `hotPotatoOptInTimer` ends with `optInActive = false`,
`gameActive = false`, `lastGameEnd` the current time and the carrier still
absent (`-1`); it announces the cancellation with the number of connected
participants, and from then on the cooldown gate reports active until 5 minutes
have passed. -/
theorem opt_in_expiry_cancels (ops : List Op) (s : hotPotatoState) (now : Int)
    (getClientByUid : ClientTable) (order : List Int) (intn : Nat)
    (hreach : runOps hotPotato ops = some s)
    (hopt : s.optInActive = true) (horder : IsRangeOrder s.participants order)
    (hfew : (connectedParticipants s.participants getClientByUid).card < 2) :
    ∃ r, hotPotatoOptInTimer s now getClientByUid order intn = some r ∧
      r.state.optInActive = false ∧ r.state.gameActive = false ∧
      r.state.lastGameEnd = now ∧ r.state.carrierUID = -1 ∧
      r.events = [Event.lock, Event.unlock,
        Event.writeToAll (Msg.cancelled
          (connectedParticipants s.participants getClientByUid).card 2)] ∧
      (now ≠ 0 → ∀ later, later - now < 5 * Minute →
        (isHotPotatoCoolingDown r.state later).ret.1 = true) := by
  have hlen := length_validUIDs s.participants getClientByUid order horder
  have hidle := runOps_optIn_idle ops s hreach hopt
  refine ⟨_, hotPotatoOptInTimer_cancel s now getClientByUid order intn hopt
    (by rw [hlen]; exact hfew), rfl, hidle.1, rfl, hidle.2, ?_, ?_⟩
  · rw [hlen]
    rfl
  · intro hnow later hlater
    exact (isHotPotatoCoolingDown_active_iff _ later).mpr ⟨hnow, hlater⟩

/-- C12, scenario B: a game is started, only one player accepts, and the opt-in
phase expires. -/
theorem opt_in_expiry_cancels_witness :
    ∃ r, hotPotatoOptInTimer ⟨true, false, Finmap.singleton 1 true, -1, 0⟩
        63900000060000000000 sampleTable [1] 0 = some r ∧
      r.state.optInActive = false ∧ r.state.gameActive = false ∧
      r.state.lastGameEnd = 63900000060000000000 ∧ r.state.carrierUID = -1 :=
  have h := opt_in_expiry_cancels
    [Op.cmdHotPotato 63900000000000000000 sampleClient1 [],
     Op.hotPotatoAccept sampleClient1]
    ⟨true, false, Finmap.singleton 1 true, -1, 0⟩
    63900000060000000000 sampleTable [1] 0 (by rfl) rfl (by decide) (by decide)
  h.elim fun r hr => ⟨r, hr.1, hr.2.1, hr.2.2.1, hr.2.2.2.1, hr.2.2.2.2.1⟩

/-! ## The snapshot and the affected list -/

theorem lookup_foldl_set (m : IntBoolMap) (order : List Int) (acc : IntBoolMap) (x : Int) :
    Finmap.lookup x (order.foldl (fun acc uid => IntBoolMap.set acc uid (IntBoolMap.get m uid)) acc)
      = if x ∈ order then some (IntBoolMap.get m x) else Finmap.lookup x acc := by
  induction order generalizing acc with
  | nil => simp
  | cons a l ih =>
    rw [List.foldl_cons, ih]
    by_cases hx : x ∈ l
    · simp [hx]
    · by_cases hxa : x = a
      · subst hxa
        simp [hx, IntBoolMap.set, Finmap.lookup_insert]
      · simp [hx, hxa, IntBoolMap.set, Finmap.lookup_insert_of_ne _ hxa]

/-- The snapshot loop, run over a valid iteration order, builds a map equal to
the participant map. -/
theorem copyParticipants_eq (m : IntBoolMap) (order : List Int) (horder : IsRangeOrder m order) :
    copyParticipants m order = m := by
  apply Finmap.ext_lookup
  intro x
  unfold copyParticipants
  rw [lookup_foldl_set]
  have hmem : x ∈ order ↔ x ∈ m := by
    rw [← List.mem_toFinset, horder.2, Finmap.mem_keys]
  by_cases hx : x ∈ order
  · rw [if_pos hx]
    obtain ⟨b, hb⟩ := Finmap.mem_iff.mp (hmem.mp hx)
    rw [hb]
    unfold IntBoolMap.get
    rw [hb]
    rfl
  · rw [if_neg hx, Finmap.lookup_empty]
    exact (Finmap.lookup_eq_none.mpr (fun h => hx (hmem.mpr h))).symm

theorem isAffected_iff (getClientByUid : ClientTable) (carrierUID : Int) (carrierArea : Nat)
    (uid : Int) :
    isAffected getClientByUid carrierUID carrierArea uid = true ↔
      uid ≠ carrierUID ∧ ∃ c, getClientByUid uid = some c ∧ c.Area = carrierArea := by
  unfold isAffected
  cases h : getClientByUid uid with
  | none => simp
  | some c => simp

/-- With the carrier unreachable nobody is affected. -/
theorem affectedClients_of_unreachable (getClientByUid : ClientTable) (carrierUID : Int)
    (order : List Int) (h : getClientByUid carrierUID = none) :
    affectedClients getClientByUid carrierUID order = [] := by
  unfold affectedClients
  rw [h]

/-- With the carrier connected, the affected list holds, in the order of the
iteration, what the uids passing the test `isAffected` resolve to. -/
theorem affectedClients_of_carrier (getClientByUid : ClientTable) (carrierUID : Int)
    (order : List Int) (carrierClient : Client)
    (h : getClientByUid carrierUID = some carrierClient) :
    (affectedClients getClientByUid carrierUID order).map some =
      (order.filter (isAffected getClientByUid carrierUID carrierClient.Area)).map
        getClientByUid := by
  unfold affectedClients
  rw [h]
  dsimp only
  induction order with
  | nil => rfl
  | cons a l ih =>
    rw [List.filterMap_cons, List.filter_cons]
    by_cases ha : a = carrierUID
    · have : isAffected getClientByUid carrierUID carrierClient.Area a = false := by
        simp [isAffected, ha]
      rw [this]
      simp only [ha, if_true]
      simpa [ha] using ih
    · cases hc : getClientByUid a with
      | none =>
        have : isAffected getClientByUid carrierUID carrierClient.Area a = false := by
          simp [isAffected, hc]
        rw [this]
        simpa [ha, hc] using ih
      | some c =>
        by_cases harea : c.Area = carrierClient.Area
        · have : isAffected getClientByUid carrierUID carrierClient.Area a = true := by
            simp [isAffected, ha, hc, harea]
          rw [this]
          simpa [ha, hc, harea] using ih
        · have : isAffected getClientByUid carrierUID carrierClient.Area a = false := by
            simp [isAffected, hc, harea]
          rw [this]
          simpa [ha, hc, harea] using ih

theorem map_Uid_of_map_some (getClientByUid : ClientTable) (ids : List Int)
    (cs : List Client) (h : cs.map some = ids.map getClientByUid)
    (hag : tableAgrees getClientByUid ids) : cs.map Client.Uid = ids := by
  induction ids generalizing cs with
  | nil =>
    cases cs with
    | nil => rfl
    | cons c cs => simp at h
  | cons a l ih =>
    cases cs with
    | nil => simp at h
    | cons c cs =>
      rw [List.map_cons, List.map_cons, List.cons.injEq] at h
      have ha : agreesAt getClientByUid a = true := hag a (List.mem_cons_self a l)
      unfold agreesAt at ha
      rw [← h.1] at ha
      rw [List.map_cons, ih cs h.2 (fun uid hu => hag uid (List.mem_cons_of_mem a hu))]
      simp only [decide_eq_true_eq] at ha
      rw [ha]

/-- When the client table honours its contract, the uids of the affected
clients are the uids that pass the test, in the order of the iteration. -/
theorem affectedClients_map_Uid (getClientByUid : ClientTable) (carrierUID : Int)
    (order : List Int) (carrierClient : Client)
    (h : getClientByUid carrierUID = some carrierClient)
    (hag : tableAgrees getClientByUid order) :
    (affectedClients getClientByUid carrierUID order).map Client.Uid =
      order.filter (isAffected getClientByUid carrierUID carrierClient.Area) :=
  map_Uid_of_map_some getClientByUid _ _
    (affectedClients_of_carrier getClientByUid carrierUID order carrierClient h)
    (fun uid hu => hag uid (List.mem_of_mem_filter hu))

/-- C14 (affected set): when the carrier is connected at resolution, the
affected list is made of what the snapshotted participant IDs `p` resolve to for
exactly those `p` that are not the carrier, resolve to a connected client, and
whose client is in the area of the carrier, each such `p` once; the snapshot is
the participant map.  With a client table that honours its contract the uids of
the affected clients are those IDs, no client is listed twice and the carrier is
not listed. -/
theorem affected_set (s : hotPotatoState) (getClientByUid : ClientTable) (carrierUID : Int)
    (carrierClient : Client) (order orderCopy : List Int)
    (hcarrier : getClientByUid carrierUID = some carrierClient)
    (horder : IsRangeOrder s.participants order)
    (hcopy : IsRangeOrder (copyParticipants s.participants order) orderCopy) :
    copyParticipants s.participants order = s.participants ∧
    (affectedClients getClientByUid carrierUID orderCopy).map some =
      (orderCopy.filter (isAffected getClientByUid carrierUID carrierClient.Area)).map
        getClientByUid ∧
    (orderCopy.filter (isAffected getClientByUid carrierUID carrierClient.Area)).Nodup ∧
    (∀ p, p ∈ orderCopy.filter (isAffected getClientByUid carrierUID carrierClient.Area) ↔
      p ∈ s.participants ∧ p ≠ carrierUID ∧
        ∃ c, getClientByUid p = some c ∧ c.Area = carrierClient.Area) ∧
    carrierUID ∉ orderCopy.filter (isAffected getClientByUid carrierUID carrierClient.Area) ∧
    (tableAgrees getClientByUid (carrierUID :: orderCopy) →
      (affectedClients getClientByUid carrierUID orderCopy).map Client.Uid =
        orderCopy.filter (isAffected getClientByUid carrierUID carrierClient.Area) ∧
      (affectedClients getClientByUid carrierUID orderCopy).Nodup ∧
      carrierClient ∉ affectedClients getClientByUid carrierUID orderCopy) := by
  have hsnap := copyParticipants_eq s.participants order horder
  rw [hsnap] at hcopy ⊢
  have hmem : ∀ p, p ∈ orderCopy.filter (isAffected getClientByUid carrierUID carrierClient.Area)
      ↔ p ∈ s.participants ∧ p ≠ carrierUID ∧
        ∃ c, getClientByUid p = some c ∧ c.Area = carrierClient.Area := by
    intro p
    rw [List.mem_filter, isAffected_iff, ← List.mem_toFinset, hcopy.2, Finmap.mem_keys]
  have hnd : (orderCopy.filter (isAffected getClientByUid carrierUID carrierClient.Area)).Nodup :=
    hcopy.1.filter _
  refine ⟨rfl, affectedClients_of_carrier getClientByUid carrierUID orderCopy carrierClient
    hcarrier, hnd, hmem, fun h => ((hmem _).mp h).2.1 rfl, ?_⟩
  intro hag
  have hids := affectedClients_map_Uid getClientByUid carrierUID orderCopy carrierClient hcarrier
    (fun uid hu => hag uid (List.mem_cons_of_mem _ hu))
  refine ⟨hids, ?_, ?_⟩
  · apply List.Nodup.of_map Client.Uid
    rw [hids]
    exact hnd
  · intro hin
    have h1 : carrierClient.Uid ∈
        (affectedClients getClientByUid carrierUID orderCopy).map Client.Uid :=
      List.mem_map_of_mem _ hin
    rw [hids] at h1
    have h2 : agreesAt getClientByUid carrierUID = true := hag carrierUID (List.mem_cons_self _ _)
    unfold agreesAt at h2
    rw [hcarrier] at h2
    simp only [decide_eq_true_eq] at h2
    rw [h2] at h1
    exact ((hmem _).mp h1).2.1 rfl

/-- C14, scenario C: the carrier 1 and player 2 share an area, player 3 is
elsewhere; player 2 alone is affected, the carrier is not. -/
theorem affected_set_witness :
    (affectedClients sampleTable3 1 [3, 2, 1]).map Client.Uid =
      [3, 2, 1].filter (isAffected sampleTable3 1 sampleClient1.Area) ∧
    (affectedClients sampleTable3 1 [3, 2, 1]).Nodup ∧
    sampleClient1 ∉ affectedClients sampleTable3 1 [3, 2, 1] :=
  (affected_set ⟨false, true, ((Finmap.singleton 1 true).insert 2 true).insert 3 true, 1, 0⟩
    sampleTable3 1 sampleClient1 [1, 2, 3] [3, 2, 1] rfl (by decide) (by decide)).2.2.2.2.2
    (by decide)

/-- C13, counterexample: players 1, 2 and 3 opted in; at opt-in expiry player 3
does not resolve and player 1 becomes the carrier.  The participant map of the
promoted game still holds uid 3, and when uid 3 resolves again at resolution, in
the area of the carrier, its client is in the affected list and is punished. -/
theorem disconnect_safety_counterexample :
    sampleTable 3 = none ∧
    (hotPotatoOptInTimer
      ⟨true, false, ((Finmap.singleton 1 true).insert 2 true).insert 3 true, -1, 0⟩
      63900000060000000000 sampleTable [1, 2, 3] 0).map (fun r => r.state) =
      some ⟨false, true, ((Finmap.singleton 1 true).insert 2 true).insert 3 true, 1, 0⟩ ∧
    (3 : Int) ∈ (((Finmap.singleton 1 true).insert 2 true).insert 3 true : IntBoolMap) ∧
    sampleClient3Back ∈ affectedClients sampleTableBack 1 [1, 2, 3] ∧
    (hotPotatoGameTimer
      ⟨false, true, ((Finmap.singleton 1 true).insert 2 true).insert 3 true, 1, 0⟩
      63900000360000000000 1 sampleTableBack [1, 2, 3] (fun _ => 0)).map
        (fun r => (punishments r.events).map (fun x => x.1.Uid)) = some [2, 3] := by
  refine ⟨rfl, by rfl, by decide, by decide, by rfl⟩

/-! ## Resolution -/

theorem hotPotatoPunishmentDuration_eq : hotPotatoPunishmentDuration = 10 * Minute := rfl

/-- A draw that `rand.Intn(len(pool))` can return picks an entry of the pool. -/
theorem randomHotPotatoPunishment_of_lt (intn : Nat) (h : intn < pool.length) :
    ∃ pType, randomHotPotatoPunishment intn = some pType ∧ pType ∈ pool :=
  ⟨pool[intn], List.getElem?_eq_getElem h, List.getElem_mem h⟩

theorem punishments_kickAll (cs : List Client) : punishments (kickAll cs) = [] := by
  induction cs with
  | nil => rfl
  | cons c cs ih =>
    unfold punishments at ih ⊢
    simpa [kickAll] using ih

theorem disconnects_kickAll (cs : List Client) : disconnects (kickAll cs) = cs := by
  induction cs with
  | nil => rfl
  | cons c cs ih =>
    unfold disconnects at ih ⊢
    simpa [kickAll] using ih

theorem outcomes_kickAll (cs : List Client) : outcomes (kickAll cs) = [] := by
  induction cs with
  | nil => rfl
  | cons c cs ih =>
    unfold outcomes at ih ⊢
    simpa [kickAll] using ih

/-- The mass-punish loop, with every draw in range: one punishment per client
of the list, in order, the `j`-th of the kind its own draw picks, each for the
fixed duration; nobody is disconnected and nothing is announced. -/
theorem punishAll_spec (carrier : Option Client) (intn : Nat → Nat) (cs : List Client) (k : Nat)
    (hdraw : ∀ j, j < cs.length → intn (k + j) < pool.length) :
    ∃ evs, punishAll carrier intn k cs = some evs ∧
      (punishments evs).map (fun x => x.1) = cs ∧
      (punishments evs).map (fun x => some x.2.1) =
        (List.range cs.length).map (fun j => randomHotPotatoPunishment (intn (k + j))) ∧
      (∀ x ∈ punishments evs, x.2.2 = hotPotatoPunishmentDuration ∧ x.2.1 ∈ pool) ∧
      disconnects evs = [] ∧ outcomes evs = [] := by
  induction cs generalizing k with
  | nil => exact ⟨[], rfl, rfl, rfl, fun x hx => absurd hx (List.not_mem_nil x), rfl, rfl⟩
  | cons c cs ih =>
    obtain ⟨pType, hp, hpool⟩ := randomHotPotatoPunishment_of_lt (intn k)
      (by simpa using hdraw 0 (Nat.succ_pos _))
    obtain ⟨rest, hrest, h1, h2, h3, h4, h5⟩ := ih (k + 1) (fun j hj => by
      have := hdraw (j + 1) (Nat.succ_lt_succ hj)
      rwa [Nat.add_assoc, Nat.add_comm 1 j])
    have h2k : (List.range cs.length).map
        (fun j => randomHotPotatoPunishment (intn (k + 1 + j))) =
        (List.range cs.length).map
          ((fun j => randomHotPotatoPunishment (intn (k + j))) ∘ Nat.succ) := by
      apply List.map_congr_left
      intro j _
      show randomHotPotatoPunishment (intn (k + 1 + j))
        = randomHotPotatoPunishment (intn (k + Nat.succ j))
      rw [Nat.add_assoc, Nat.add_comm 1 j]
    unfold punishAll
    rw [hp, hrest]
    refine ⟨_, rfl, ?_, ?_, ?_, ?_, ?_⟩
    · unfold punishments at h1 ⊢
      cases carrier <;> simpa using h1
    · rw [List.length_cons, List.range_succ_eq_map, List.map_cons, List.map_map, ← h2k, ← h2]
      unfold punishments
      cases carrier <;> simp [hp]
    · intro x hx
      unfold punishments at h3 hx
      cases carrier <;>
        · simp at hx
          rcases hx with hx | hx
          · rw [hx]
            exact ⟨rfl, hpool⟩
          · exact h3 x (by simpa using hx)
    · unfold disconnects at h4 ⊢
      cases carrier <;> simpa using h4
    · unfold outcomes at h5 ⊢
      cases carrier <;> simpa using h5

/-- A game timer that finds a game running ends it and adds the events of the
resolution after releasing the lock. -/
theorem hotPotatoGameTimer_active (s : hotPotatoState) (now : Int) (carrierUID : Int)
    (getClientByUid : ClientTable) (orderCopy : List Int) (intn : Nat → Nat)
    (evs : List Event) (hgame : s.gameActive = true)
    (h : resolveGame getClientByUid carrierUID orderCopy intn = some evs) :
    hotPotatoGameTimer s now carrierUID getClientByUid orderCopy intn =
      some ⟨⟨false, false, s.participants, s.carrierUID, now⟩,
            Event.lock :: Event.unlock :: evs, ()⟩ := by
  unfold hotPotatoGameTimer
  rw [if_neg (by simp [hgame]), h]

theorem resolveGame_unreachable (getClientByUid : ClientTable) (carrierUID : Int)
    (order : List Int) (intn : Nat → Nat) (h : getClientByUid carrierUID = none) :
    resolveGame getClientByUid carrierUID order intn =
      some [Event.writeToAll Msg.expiredAlone] := by
  unfold resolveGame
  rw [affectedClients_of_unreachable getClientByUid carrierUID order h]
  simp [h]

theorem resolveGame_alone (getClientByUid : ClientTable) (carrierUID : Int)
    (order : List Int) (intn : Nat → Nat) (carrierClient : Client) (pType : PunishmentType)
    (h : getClientByUid carrierUID = some carrierClient)
    (ha : affectedClients getClientByUid carrierUID order = [])
    (hp : randomHotPotatoPunishment (intn 0) = some pType) :
    resolveGame getClientByUid carrierUID order intn =
      some [Event.writeToAll Msg.expiredAlone,
            Event.addPunishment carrierClient pType hotPotatoPunishmentDuration
              Reason.soloCarrier,
            Event.sendServerMessage carrierClient (Msg.selfPunished pType),
            Event.addToBuffer carrierClient (LogMsg.carrierSelfPunished pType)] := by
  unfold resolveGame
  rw [ha]
  simp [h, hp]

theorem resolveGame_kick (getClientByUid : ClientTable) (carrierUID : Int)
    (order : List Int) (intn : Nat → Nat) (carrierClient : Client)
    (h : getClientByUid carrierUID = some carrierClient)
    (ha : affectedClients getClientByUid carrierUID order ≠ [])
    (hauth : carrierClient.Authenticated = true) :
    resolveGame getClientByUid carrierUID order intn =
      some ([Event.writeToAll
              (Msg.expiredKick (affectedClients getClientByUid carrierUID order).length)]
            ++ kickAll (affectedClients getClientByUid carrierUID order)
            ++ [Event.addToBuffer carrierClient
              (LogMsg.modKicked (affectedClients getClientByUid carrierUID order).length)]) := by
  unfold resolveGame
  dsimp only
  rw [if_neg (by simpa using ha)]
  simp [h, hauth]

theorem resolveGame_punish (getClientByUid : ClientTable) (carrierUID : Int)
    (order : List Int) (intn : Nat → Nat) (carrierClient : Client) (evs : List Event)
    (h : getClientByUid carrierUID = some carrierClient)
    (ha : affectedClients getClientByUid carrierUID order ≠ [])
    (hauth : carrierClient.Authenticated = false)
    (hp : punishAll (some carrierClient) intn 0
      (affectedClients getClientByUid carrierUID order) = some evs) :
    resolveGame getClientByUid carrierUID order intn =
      some (Event.writeToAll
              (Msg.expiredPunish (affectedClients getClientByUid carrierUID order).length)
            :: evs) := by
  unfold resolveGame
  dsimp only
  rw [if_neg (by simpa using ha)]
  simp [h, hauth, hp]

/-- With nobody affected, or with the carrier unreachable, the carrier is no
moderator as far as resolution sees. -/
theorem isMod_eq (getClientByUid : ClientTable) (carrierUID : Int) (carrierClient : Client)
    (h : getClientByUid carrierUID = some carrierClient) :
    isMod getClientByUid carrierUID = carrierClient.Authenticated := by
  unfold isMod
  rw [h]

/-- Somebody can be affected only if the carrier is connected. -/
theorem carrier_of_affected (getClientByUid : ClientTable) (carrierUID : Int)
    (order : List Int) (ha : affectedClients getClientByUid carrierUID order ≠ []) :
    ∃ carrierClient, getClientByUid carrierUID = some carrierClient := by
  cases h : getClientByUid carrierUID with
  | none => exact absurd (affectedClients_of_unreachable getClientByUid carrierUID order h) ha
  | some carrierClient => exact ⟨carrierClient, rfl⟩

theorem punishments_append (l₁ l₂ : List Event) :
    punishments (l₁ ++ l₂) = punishments l₁ ++ punishments l₂ :=
  List.filterMap_append _ _ _

theorem disconnects_append (l₁ l₂ : List Event) :
    disconnects (l₁ ++ l₂) = disconnects l₁ ++ disconnects l₂ :=
  List.filterMap_append _ _ _

theorem outcomes_append (l₁ l₂ : List Event) :
    outcomes (l₁ ++ l₂) = outcomes l₁ ++ outcomes l₂ :=
  List.filterMap_append _ _ _

/-- A client is in the affected list exactly when some uid of the iteration,
other than the carrier, resolves to it and it is in the area of the carrier. -/
theorem mem_affectedClients (getClientByUid : ClientTable) (carrierUID : Int)
    (order : List Int) (carrierClient : Client)
    (h : getClientByUid carrierUID = some carrierClient) (c : Client) :
    c ∈ affectedClients getClientByUid carrierUID order ↔
      ∃ uid ∈ order, uid ≠ carrierUID ∧ getClientByUid uid = some c ∧
        c.Area = carrierClient.Area := by
  have hmap := affectedClients_of_carrier getClientByUid carrierUID order carrierClient h
  have h1 : c ∈ affectedClients getClientByUid carrierUID order ↔
      some c ∈ (affectedClients getClientByUid carrierUID order).map some := by
    rw [List.mem_map]
    constructor
    · intro hc
      exact ⟨c, hc, rfl⟩
    · rintro ⟨c', hc', heq⟩
      cases heq
      exact hc'
  rw [h1, hmap, List.mem_map]
  constructor
  · rintro ⟨uid, hu, hc⟩
    rw [List.mem_filter, isAffected_iff] at hu
    obtain ⟨hin, hne, c', hc', harea⟩ := hu
    rw [hc] at hc'
    cases hc'
    exact ⟨uid, hin, hne, hc, harea⟩
  · rintro ⟨uid, hin, hne, hc, harea⟩
    refine ⟨uid, ?_, hc⟩
    rw [List.mem_filter, isAffected_iff]
    exact ⟨hin, hne, c, hc, harea⟩

/-- With every draw in range the resolution runs to its end. -/
theorem resolveGame_total (getClientByUid : ClientTable) (carrierUID : Int)
    (order : List Int) (intn : Nat → Nat) (hdraw : ∀ k, intn k < pool.length) :
    ∃ evs, resolveGame getClientByUid carrierUID order intn = some evs := by
  by_cases ha : affectedClients getClientByUid carrierUID order = []
  · cases h : getClientByUid carrierUID with
    | none => exact ⟨_, resolveGame_unreachable getClientByUid carrierUID order intn h⟩
    | some carrierClient =>
      obtain ⟨pType, hp, -⟩ := randomHotPotatoPunishment_of_lt (intn 0) (hdraw 0)
      exact ⟨_, resolveGame_alone getClientByUid carrierUID order intn carrierClient pType h ha hp⟩
  · obtain ⟨carrierClient, h⟩ := carrier_of_affected getClientByUid carrierUID order ha
    cases hauth : carrierClient.Authenticated with
    | true =>
      exact ⟨_, resolveGame_kick getClientByUid carrierUID order intn carrierClient h ha hauth⟩
    | false =>
      obtain ⟨evs, hevs, -⟩ := punishAll_spec (some carrierClient) intn
        (affectedClients getClientByUid carrierUID order) 0 (fun j _ => hdraw (0 + j))
      exact ⟨_, resolveGame_punish getClientByUid carrierUID order intn carrierClient evs h ha
        hauth hevs⟩

/-- C20 (resolution state transition): in every game state with `gameActive`
true, `hotPotatoGameTimer` (with draws `rand.Intn` can return) runs to its end
and leaves `gameActive = false`, `optInActive = false` and `lastGameEnd` the
current time, so that from then on the cooldown gate reports active until 5
minutes have passed; the participant map in the game state is as before, and
the snapshot the resolution works on is a copy equal to it. -/
theorem resolution_transition (s : hotPotatoState) (now : Int) (carrierUID : Int)
    (getClientByUid : ClientTable) (orderCopy : List Int) (intn : Nat → Nat)
    (hgame : s.gameActive = true) (hdraw : ∀ k, intn k < pool.length) :
    ∃ r, hotPotatoGameTimer s now carrierUID getClientByUid orderCopy intn = some r ∧
      r.state.gameActive = false ∧ r.state.optInActive = false ∧
      r.state.lastGameEnd = now ∧
      r.state.participants = s.participants ∧
      (∀ order, IsRangeOrder s.participants order →
        copyParticipants s.participants order = s.participants) ∧
      (now ≠ 0 → ∀ later, later - now < 5 * Minute →
        (isHotPotatoCoolingDown r.state later).ret.1 = true) := by
  obtain ⟨evs, hevs⟩ := resolveGame_total getClientByUid carrierUID orderCopy intn hdraw
  refine ⟨_, hotPotatoGameTimer_active s now carrierUID getClientByUid orderCopy intn evs hgame
    hevs, rfl, rfl, rfl, rfl, fun order horder => copyParticipants_eq _ order horder, ?_⟩
  intro hnow later hlater
  exact (isHotPotatoCoolingDown_active_iff _ later).mpr ⟨hnow, hlater⟩

/-- C20, at a running game of three players with carrier 1. -/
theorem resolution_transition_witness :
    ∃ r, hotPotatoGameTimer
        ⟨false, true, ((Finmap.singleton 1 true).insert 2 true).insert 3 true, 1, 0⟩
        63900000360000000000 1 sampleTable3 [3, 2, 1] (fun _ => 3) = some r ∧
      r.state.gameActive = false ∧ r.state.optInActive = false ∧
      r.state.lastGameEnd = 63900000360000000000 :=
  have h := resolution_transition
    ⟨false, true, ((Finmap.singleton 1 true).insert 2 true).insert 3 true, 1, 0⟩
    63900000360000000000 1 sampleTable3 [3, 2, 1] (fun _ => 3) rfl
    (fun _ => (by decide : 3 < pool.length))
  h.elim fun r hr => ⟨r, hr.1, hr.2.1, hr.2.2.1, hr.2.2.2.1⟩

/-- C15 (outcome exclusivity): every run of `hotPotatoGameTimer` that finds
`gameActive` true (with draws `rand.Intn` can return) runs to its end and
announces exactly one outcome: carrier-self-punish if and only if the affected
list is empty, mass-eject if and only if it is non-empty and the carrier holds
authority, mass-punish if and only if it is non-empty and the carrier does not. -/
theorem exactly_one_outcome (s : hotPotatoState) (now : Int) (carrierUID : Int)
    (getClientByUid : ClientTable) (orderCopy : List Int) (intn : Nat → Nat)
    (hgame : s.gameActive = true) (hdraw : ∀ k, intn k < pool.length) :
    ∃ r, hotPotatoGameTimer s now carrierUID getClientByUid orderCopy intn = some r ∧
      ∃ o, outcomes r.events = [o] ∧
        (o = Outcome.carrierSelfPunish ↔
          affectedClients getClientByUid carrierUID orderCopy = []) ∧
        (o = Outcome.massEject ↔
          affectedClients getClientByUid carrierUID orderCopy ≠ [] ∧
            isMod getClientByUid carrierUID = true) ∧
        (o = Outcome.massPunish ↔
          affectedClients getClientByUid carrierUID orderCopy ≠ [] ∧
            isMod getClientByUid carrierUID = false) := by
  by_cases ha : affectedClients getClientByUid carrierUID orderCopy = []
  · have hsome : ∃ evs, resolveGame getClientByUid carrierUID orderCopy intn = some evs ∧
        outcomes (Event.lock :: Event.unlock :: evs) = [Outcome.carrierSelfPunish] := by
      cases h : getClientByUid carrierUID with
      | none =>
        exact ⟨_, resolveGame_unreachable getClientByUid carrierUID orderCopy intn h, rfl⟩
      | some carrierClient =>
        obtain ⟨pType, hp, -⟩ := randomHotPotatoPunishment_of_lt (intn 0) (hdraw 0)
        exact ⟨_, resolveGame_alone getClientByUid carrierUID orderCopy intn carrierClient
          pType h ha hp, rfl⟩
    obtain ⟨evs, hevs, hout⟩ := hsome
    refine ⟨_, hotPotatoGameTimer_active s now carrierUID getClientByUid orderCopy intn evs
      hgame hevs, Outcome.carrierSelfPunish, hout, ?_, ?_, ?_⟩
    · exact ⟨fun _ => ha, fun _ => rfl⟩
    · exact ⟨fun h => Outcome.noConfusion h, fun h => absurd ha h.1⟩
    · exact ⟨fun h => Outcome.noConfusion h, fun h => absurd ha h.1⟩
  · obtain ⟨carrierClient, h⟩ := carrier_of_affected getClientByUid carrierUID orderCopy ha
    have hmod := isMod_eq getClientByUid carrierUID carrierClient h
    cases hauth : carrierClient.Authenticated with
    | true =>
      rw [hauth] at hmod
      refine ⟨_, hotPotatoGameTimer_active s now carrierUID getClientByUid orderCopy intn _
        hgame (resolveGame_kick getClientByUid carrierUID orderCopy intn carrierClient h ha
          hauth), Outcome.massEject, ?_, ?_, ?_, ?_⟩
      · show outcomes ([Event.lock, Event.unlock] ++ (([Event.writeToAll _] ++ kickAll _)
          ++ [Event.addToBuffer _ _])) = _
        rw [outcomes_append, outcomes_append, outcomes_append, outcomes_kickAll]
        rfl
      · exact ⟨fun h => Outcome.noConfusion h, fun h => absurd h ha⟩
      · exact ⟨fun _ => ⟨ha, hmod⟩, fun _ => rfl⟩
      · constructor
        · intro h
          exact Outcome.noConfusion h
        · intro h
          rw [hmod] at h
          exact Bool.noConfusion h.2
    | false =>
      rw [hauth] at hmod
      obtain ⟨evs, hevs, -, -, -, -, hout⟩ := punishAll_spec (some carrierClient) intn
        (affectedClients getClientByUid carrierUID orderCopy) 0 (fun j _ => hdraw (0 + j))
      refine ⟨_, hotPotatoGameTimer_active s now carrierUID getClientByUid orderCopy intn _
        hgame (resolveGame_punish getClientByUid carrierUID orderCopy intn carrierClient evs h
          ha hauth hevs), Outcome.massPunish, ?_, ?_, ?_, ?_⟩
      · show outcomes ([Event.lock, Event.unlock, Event.writeToAll _] ++ evs) = _
        rw [outcomes_append, hout]
        rfl
      · exact ⟨fun h => Outcome.noConfusion h, fun h => absurd h ha⟩
      · constructor
        · intro h
          exact Outcome.noConfusion h
        · intro h
          rw [hmod] at h
          exact Bool.noConfusion h.2
      · exact ⟨fun _ => ⟨ha, hmod⟩, fun _ => rfl⟩

/-- C15, scenario D: a moderator carrier with two participants in its area;
the one outcome is the mass ejection. -/
theorem exactly_one_outcome_witness :
    ∃ r, hotPotatoGameTimer
        ⟨false, true, ((Finmap.singleton 1 true).insert 2 true).insert 3 true, 1, 0⟩
        63900000360000000000 1 sampleTableMod [3, 2, 1] (fun _ => 3) = some r ∧
      ∃ o, outcomes r.events = [o] ∧
        (o = Outcome.massEject ↔
          affectedClients sampleTableMod 1 [3, 2, 1] ≠ [] ∧ isMod sampleTableMod 1 = true) :=
  have h := exactly_one_outcome
    ⟨false, true, ((Finmap.singleton 1 true).insert 2 true).insert 3 true, 1, 0⟩
    63900000360000000000 1 sampleTableMod [3, 2, 1] (fun _ => 3) rfl
    (fun _ => (by decide : 3 < pool.length))
  h.elim fun r hr => ⟨r, hr.1, hr.2.elim fun o ho => ⟨o, ho.1, ho.2.2.1⟩⟩

/-- C16 (empty affected set, carrier unreachable): if the carrier does not
resolve to a connected client at resolution, the affected list is empty whatever
the other participants resolve to, and the resolution punishes nobody and
disconnects nobody; if the carrier is connected and the affected list is empty,
the carrier receives exactly one punishment, of a kind of the pool and for 10
minutes, and nobody else is punished and nobody is disconnected. -/
theorem carrier_alone (s : hotPotatoState) (now : Int) (carrierUID : Int)
    (getClientByUid : ClientTable) (orderCopy : List Int) (intn : Nat → Nat)
    (hgame : s.gameActive = true) :
    (getClientByUid carrierUID = none →
      affectedClients getClientByUid carrierUID orderCopy = [] ∧
      ∃ r, hotPotatoGameTimer s now carrierUID getClientByUid orderCopy intn = some r ∧
        outcomes r.events = [Outcome.carrierSelfPunish] ∧
        punishments r.events = [] ∧ disconnects r.events = []) ∧
    (∀ carrierClient, getClientByUid carrierUID = some carrierClient →
      affectedClients getClientByUid carrierUID orderCopy = [] →
      intn 0 < pool.length →
      ∃ r pType, hotPotatoGameTimer s now carrierUID getClientByUid orderCopy intn = some r ∧
        randomHotPotatoPunishment (intn 0) = some pType ∧ pType ∈ pool ∧
        punishments r.events = [(carrierClient, pType, 10 * Minute)] ∧
        disconnects r.events = []) := by
  constructor
  · intro h
    exact ⟨affectedClients_of_unreachable getClientByUid carrierUID orderCopy h, _,
      hotPotatoGameTimer_active s now carrierUID getClientByUid orderCopy intn _ hgame
        (resolveGame_unreachable getClientByUid carrierUID orderCopy intn h), rfl, rfl, rfl⟩
  · intro carrierClient h ha hdraw
    obtain ⟨pType, hp, hpool⟩ := randomHotPotatoPunishment_of_lt (intn 0) hdraw
    exact ⟨_, pType, hotPotatoGameTimer_active s now carrierUID getClientByUid orderCopy intn
      _ hgame (resolveGame_alone getClientByUid carrierUID orderCopy intn carrierClient pType
        h ha hp), hp, hpool, rfl, rfl⟩

/-- C16, with the carrier 1 gone at resolution while player 2 is connected:
nobody is punished, nobody is disconnected. -/
theorem carrier_alone_witness :
    affectedClients sampleTableGone 1 [3, 2, 1] = [] ∧
    ∃ r, hotPotatoGameTimer
        ⟨false, true, ((Finmap.singleton 1 true).insert 2 true).insert 3 true, 1, 0⟩
        63900000360000000000 1 sampleTableGone [3, 2, 1] (fun _ => 3) = some r ∧
      outcomes r.events = [Outcome.carrierSelfPunish] ∧
      punishments r.events = [] ∧ disconnects r.events = [] :=
  (carrier_alone ⟨false, true, ((Finmap.singleton 1 true).insert 2 true).insert 3 true, 1, 0⟩
    63900000360000000000 1 sampleTableGone [3, 2, 1] (fun _ => 3) rfl).1 rfl

/-- C17 (mass ejection): when the affected list is non-empty and the carrier
holds authority at resolution, the clients disconnected are the affected
clients, each once and nobody else, each after the kick packet; the count
announced is the length of the affected list; and no punishment is applied to
anyone. -/
theorem mass_ejection (s : hotPotatoState) (now : Int) (carrierUID : Int)
    (getClientByUid : ClientTable) (orderCopy : List Int) (intn : Nat → Nat)
    (carrierClient : Client) (hgame : s.gameActive = true)
    (hcarrier : getClientByUid carrierUID = some carrierClient)
    (hauth : carrierClient.Authenticated = true)
    (ha : affectedClients getClientByUid carrierUID orderCopy ≠ []) :
    ∃ r, hotPotatoGameTimer s now carrierUID getClientByUid orderCopy intn = some r ∧
      disconnects r.events = affectedClients getClientByUid carrierUID orderCopy ∧
      r.events = [Event.lock, Event.unlock,
          Event.writeToAll
            (Msg.expiredKick (affectedClients getClientByUid carrierUID orderCopy).length)]
        ++ kickAll (affectedClients getClientByUid carrierUID orderCopy)
        ++ [Event.addToBuffer carrierClient
          (LogMsg.modKicked (affectedClients getClientByUid carrierUID orderCopy).length)] ∧
      punishments r.events = [] := by
  refine ⟨_, hotPotatoGameTimer_active s now carrierUID getClientByUid orderCopy intn _ hgame
    (resolveGame_kick getClientByUid carrierUID orderCopy intn carrierClient hcarrier ha hauth),
    ?_, ?_, ?_⟩
  · show disconnects ([Event.lock, Event.unlock] ++ (([Event.writeToAll _] ++ kickAll _)
      ++ [Event.addToBuffer _ _])) = _
    rw [disconnects_append, disconnects_append, disconnects_append, disconnects_kickAll]
    simp [disconnects]
  · simp
  · show punishments ([Event.lock, Event.unlock] ++ (([Event.writeToAll _] ++ kickAll _)
      ++ [Event.addToBuffer _ _])) = _
    rw [punishments_append, punishments_append, punishments_append, punishments_kickAll]
    rfl

/-- C17, scenario D: the moderator carrier 1 with players 2 and 3 in its area;
both are disconnected and nobody is punished. -/
theorem mass_ejection_witness :
    ∃ r, hotPotatoGameTimer
        ⟨false, true, ((Finmap.singleton 1 true).insert 2 true).insert 3 true, 1, 0⟩
        63900000360000000000 1 sampleTableMod [3, 2, 1] (fun _ => 3) = some r ∧
      disconnects r.events = affectedClients sampleTableMod 1 [3, 2, 1] ∧
      punishments r.events = [] :=
  have h := mass_ejection
    ⟨false, true, ((Finmap.singleton 1 true).insert 2 true).insert 3 true, 1, 0⟩
    63900000360000000000 1 sampleTableMod [3, 2, 1] (fun _ => 3) sampleMod rfl rfl rfl
    (by decide)
  h.elim fun r hr => ⟨r, hr.1, hr.2.1, hr.2.2.2⟩

/-- C18 (mass punishment): when the affected list is non-empty and the carrier
does not hold authority at resolution, there is one punishment per entry of the
affected list, in order, the `j`-th of the kind that the `j`-th call of
`randomHotPotatoPunishment` draws, each of a kind of the pool and for exactly 10
minutes; every punished client is resolved from a uid other than the carrier
and is in the area of the carrier; nobody is disconnected; and with a client
table that honours its contract no client is punished twice and the carrier is
not punished. -/
theorem mass_punishment (s : hotPotatoState) (now : Int) (carrierUID : Int)
    (getClientByUid : ClientTable) (orderCopy : List Int) (intn : Nat → Nat)
    (carrierClient : Client) (hgame : s.gameActive = true)
    (hcarrier : getClientByUid carrierUID = some carrierClient)
    (hauth : carrierClient.Authenticated = false)
    (ha : affectedClients getClientByUid carrierUID orderCopy ≠ [])
    (hdraw : ∀ j, j < (affectedClients getClientByUid carrierUID orderCopy).length →
      intn j < pool.length) :
    ∃ r, hotPotatoGameTimer s now carrierUID getClientByUid orderCopy intn = some r ∧
      (punishments r.events).map (fun x => x.1) =
        affectedClients getClientByUid carrierUID orderCopy ∧
      (punishments r.events).map (fun x => some x.2.1) =
        (List.range (affectedClients getClientByUid carrierUID orderCopy).length).map
          (fun j => randomHotPotatoPunishment (intn j)) ∧
      (∀ x ∈ punishments r.events, x.2.2 = 10 * Minute ∧ x.2.1 ∈ pool) ∧
      (∀ x ∈ punishments r.events, ∃ uid ∈ orderCopy, uid ≠ carrierUID ∧
        getClientByUid uid = some x.1 ∧ x.1.Area = carrierClient.Area) ∧
      disconnects r.events = [] ∧
      Event.writeToAll
        (Msg.expiredPunish (affectedClients getClientByUid carrierUID orderCopy).length)
        ∈ r.events ∧
      (orderCopy.Nodup → tableAgrees getClientByUid (carrierUID :: orderCopy) →
        ((punishments r.events).map (fun x => x.1)).Nodup ∧
        carrierClient ∉ (punishments r.events).map (fun x => x.1)) := by
  obtain ⟨evs, hevs, h1, h2, h3, h4, -⟩ := punishAll_spec (some carrierClient) intn
    (affectedClients getClientByUid carrierUID orderCopy) 0
    (fun j hj => by rw [Nat.zero_add]; exact hdraw j hj)
  have hp : punishments ([Event.lock, Event.unlock, Event.writeToAll (Msg.expiredPunish
      (affectedClients getClientByUid carrierUID orderCopy).length)] ++ evs)
      = punishments evs := by
    rw [punishments_append]
    rfl
  have hd : disconnects ([Event.lock, Event.unlock, Event.writeToAll (Msg.expiredPunish
      (affectedClients getClientByUid carrierUID orderCopy).length)] ++ evs)
      = disconnects evs := by
    rw [disconnects_append]
    rfl
  have hclients : (punishments ([Event.lock, Event.unlock, Event.writeToAll (Msg.expiredPunish
      (affectedClients getClientByUid carrierUID orderCopy).length)] ++ evs)).map (fun x => x.1)
      = affectedClients getClientByUid carrierUID orderCopy := by
    rw [hp, h1]
  refine ⟨_, hotPotatoGameTimer_active s now carrierUID getClientByUid orderCopy intn _ hgame
    (resolveGame_punish getClientByUid carrierUID orderCopy intn carrierClient evs hcarrier ha
      hauth hevs), hclients, ?_, ?_, ?_, ?_, ?_, ?_⟩
  · show (punishments ([Event.lock, Event.unlock, Event.writeToAll _] ++ evs)).map _ = _
    rw [hp, h2]
    apply List.map_congr_left
    intro j _
    rw [Nat.zero_add]
  · intro x hx
    exact h3 x (by rw [← hp]; exact hx)
  · intro x hx
    have hx1 : x.1 ∈ affectedClients getClientByUid carrierUID orderCopy := by
      rw [← hclients]
      exact List.mem_map_of_mem _ hx
    exact (mem_affectedClients getClientByUid carrierUID orderCopy carrierClient hcarrier
      x.1).mp hx1
  · show disconnects ([Event.lock, Event.unlock, Event.writeToAll _] ++ evs) = _
    rw [hd, h4]
  · simp
  · intro hnd hag
    have hids := affectedClients_map_Uid getClientByUid carrierUID orderCopy carrierClient
      hcarrier (fun uid hu => hag uid (List.mem_cons_of_mem _ hu))
    show ((punishments ([Event.lock, Event.unlock, Event.writeToAll _] ++ evs)).map _).Nodup ∧
      carrierClient ∉ (punishments ([Event.lock, Event.unlock, Event.writeToAll _] ++ evs)).map _
    rw [hclients]
    constructor
    · apply List.Nodup.of_map Client.Uid
      rw [hids]
      exact hnd.filter _
    · intro hin
      obtain ⟨uid, huid, hne, hu, -⟩ := (mem_affectedClients getClientByUid carrierUID
        orderCopy carrierClient hcarrier carrierClient).mp hin
      have h5 : agreesAt getClientByUid carrierUID = true :=
        hag carrierUID (List.mem_cons_self _ _)
      have h6 : agreesAt getClientByUid uid = true :=
        hag uid (List.mem_cons_of_mem _ huid)
      unfold agreesAt at h5 h6
      rw [hcarrier] at h5
      rw [hu] at h6
      simp only [decide_eq_true_eq] at h5 h6
      exact hne (h6.symm.trans h5)

/-- C18, scenario C: the carrier 1 (no authority) and player 2 share an area,
player 3 is elsewhere; the affected player is punished and nobody else. -/
theorem mass_punishment_witness :
    ∃ r, hotPotatoGameTimer
        ⟨false, true, ((Finmap.singleton 1 true).insert 2 true).insert 3 true, 1, 0⟩
        63900000360000000000 1 sampleTable3 [3, 2, 1] (fun _ => 3) = some r ∧
      (punishments r.events).map (fun x => x.1) = affectedClients sampleTable3 1 [3, 2, 1] ∧
      disconnects r.events = [] :=
  have h := mass_punishment
    ⟨false, true, ((Finmap.singleton 1 true).insert 2 true).insert 3 true, 1, 0⟩
    63900000360000000000 1 sampleTable3 [3, 2, 1] (fun _ => 3) sampleClient1 rfl rfl rfl
    (by decide) (fun _ _ => (by decide : 3 < pool.length))
  h.elim fun r hr => ⟨r, hr.1, hr.2.1, hr.2.2.2.2.2.1⟩

/-! ## Runs of the system with its timers -/

/-- The mass-punish loop, if it runs to its end, punishes the clients of the
list, in order, and disconnects nobody. -/
theorem punishAll_clients (carrier : Option Client) (intn : Nat → Nat) (cs : List Client)
    (k : Nat) (evs : List Event) (h : punishAll carrier intn k cs = some evs) :
    (punishments evs).map (fun x => x.1) = cs ∧ disconnects evs = [] := by
  induction cs generalizing k evs with
  | nil =>
    cases h
    exact ⟨rfl, rfl⟩
  | cons c cs ih =>
    unfold punishAll at h
    split at h
    · next pType rest hp hrest =>
      cases h
      obtain ⟨h1, h2⟩ := ih (k + 1) rest hrest
      constructor
      · unfold punishments at h1 ⊢
        cases carrier <;> simpa using h1
      · unfold disconnects at h2 ⊢
        cases carrier <;> simpa using h2
    · exact Option.noConfusion h

/-- Whoever a resolution punishes or disconnects is the carrier, as resolved, or
one of the affected clients. -/
theorem resolveGame_targets (getClientByUid : ClientTable) (carrierUID : Int)
    (order : List Int) (intn : Nat → Nat) (evs : List Event)
    (h : resolveGame getClientByUid carrierUID order intn = some evs) (c : Client)
    (hc : c ∈ (punishments evs).map (fun x => x.1) ∨ c ∈ disconnects evs) :
    getClientByUid carrierUID = some c ∨ c ∈ affectedClients getClientByUid carrierUID order := by
  by_cases ha : affectedClients getClientByUid carrierUID order = []
  · cases hcar : getClientByUid carrierUID with
    | none =>
      rw [resolveGame_unreachable getClientByUid carrierUID order intn hcar] at h
      cases h
      rcases hc with hc | hc
      · simp [punishments] at hc
      · simp [disconnects] at hc
    | some carrierClient =>
      cases hp : randomHotPotatoPunishment (intn 0) with
      | none =>
        unfold resolveGame at h
        rw [ha] at h
        simp [hcar, hp] at h
      | some pType =>
        rw [resolveGame_alone getClientByUid carrierUID order intn carrierClient pType hcar ha
          hp] at h
        cases h
        rcases hc with hc | hc
        · simp [punishments] at hc
          left
          rw [hc]
        · simp [disconnects] at hc
  · right
    obtain ⟨carrierClient, hcar⟩ := carrier_of_affected getClientByUid carrierUID order ha
    cases hauth : carrierClient.Authenticated with
    | true =>
      rw [resolveGame_kick getClientByUid carrierUID order intn carrierClient hcar ha hauth] at h
      cases h
      rcases hc with hc | hc
      · rw [punishments_append, punishments_append, punishments_kickAll] at hc
        simp [punishments] at hc
      · rw [disconnects_append, disconnects_append, disconnects_kickAll] at hc
        simpa [disconnects] using hc
    | false =>
      cases hpa : punishAll (some carrierClient) intn 0
          (affectedClients getClientByUid carrierUID order) with
      | none =>
        unfold resolveGame at h
        dsimp only at h
        rw [if_neg (by simpa using ha)] at h
        simp [hcar, hauth, hpa] at h
      | some evs' =>
        rw [resolveGame_punish getClientByUid carrierUID order intn carrierClient evs' hcar ha
          hauth hpa] at h
        cases h
        obtain ⟨h1, h2⟩ := punishAll_clients _ intn _ 0 evs' hpa
        have hp : punishments (Event.writeToAll (Msg.expiredPunish
            (affectedClients getClientByUid carrierUID order).length) :: evs')
            = punishments evs' := rfl
        have hd : disconnects (Event.writeToAll (Msg.expiredPunish
            (affectedClients getClientByUid carrierUID order).length) :: evs')
            = disconnects evs' := rfl
        rw [hp, hd, h1, h2] at hc
        rcases hc with hc | hc
        · exact hc
        · exact absurd hc (List.not_mem_nil c)

theorem SystemInv_initial : SystemInv initialSystem := by
  refine ⟨fun uid => ?_, fun c hc => absurd hc (List.not_mem_nil c), fun _ => rfl,
    fun h => Bool.noConfusion h, Nat.zero_le _⟩
  exact ⟨fun h => absurd h (Finmap.not_mem_empty), fun h => absurd h (List.not_mem_nil uid)⟩

theorem SystemInv_afterAccept (σ : System) (client : Client) (hinv : SystemInv σ) :
    SystemInv (σ.afterCommand (hotPotatoAccept σ.state client)) := by
  obtain ⟨ha, hb, hc, hd, he⟩ := hinv
  unfold hotPotatoAccept
  split_ifs with h1 h2
  · exact ⟨ha, hb, hc, hd, he⟩
  · exact ⟨ha, hb, hc, hd, he⟩
  · refine ⟨fun uid => ?_, fun c hcin => ?_, hc, hd, he⟩
    · show uid ∈ IntBoolMap.set σ.state.participants client.Uid true ↔
        uid ∈ client.Uid :: σ.accepted
      unfold IntBoolMap.set
      rw [Finmap.mem_insert, List.mem_cons, ha uid]
    · show c ∈ IntBoolMap.set σ.state.participants client.Uid true
      unfold IntBoolMap.set
      rw [Finmap.mem_insert]
      exact Or.inr (hb c hcin)

theorem SystemInv_afterCmd (σ : System) (now : Int) (client : Client) (args : List String)
    (hinv : SystemInv σ) :
    SystemInv (σ.afterCommand (cmdHotPotato σ.state now client args)) := by
  unfold cmdHotPotato
  split_ifs with h1 h2 h3
  · exact SystemInv_afterAccept σ client hinv
  · exact hinv
  · exact hinv
  · obtain ⟨ha, hb, hc, hd, he⟩ := hinv
    have hgame : σ.state.gameActive = false := by
      cases hg : σ.state.gameActive with
      | false => rfl
      | true => exact absurd (by simp [hg]) h2
    have htimers := hc hgame
    refine ⟨fun uid => ?_, fun c hcin => ?_, fun _ => ?_, fun _ => rfl, ?_⟩
    · exact ⟨fun h => absurd h (Finmap.not_mem_empty), fun h => absurd h (List.not_mem_nil uid)⟩
    · have : c ∈ σ.gameTimers := hcin
      rw [htimers] at this
      exact absurd this (List.not_mem_nil c)
    · exact htimers
    · exact he

theorem launchedGameTimers_promote (getClientByUid : ClientTable) (carrierUID : Int) (n : Nat) :
    launchedGameTimers
      ([Event.lock, Event.unlock, Event.writeToAll (Msg.begun n)]
        ++ (match getClientByUid carrierUID with
            | some carrierClient => [Event.sendServerMessage carrierClient Msg.youCarry]
            | none => [])
        ++ [Event.goGameTimer carrierUID]) = [carrierUID] := by
  unfold launchedGameTimers
  cases getClientByUid carrierUID <;> rfl

/-- Every step of the system keeps `SystemInv`. -/
theorem SystemInv_step (σ : System) (op : Op) (next : System × List Event)
    (hinv : SystemInv σ) (h : σ.step op = some next) : SystemInv next.1 := by
  cases op with
  | cmdHotPotato now client args =>
    cases h
    exact SystemInv_afterCmd σ now client args hinv
  | hotPotatoAccept client =>
    cases h
    exact SystemInv_afterAccept σ client hinv
  | hotPotatoOptInTimer now tbl order intn =>
    dsimp only [System.step] at h
    split_ifs at h with hok
    obtain ⟨ha, hb, hc, hd, he⟩ := hinv
    cases hopt : σ.state.optInActive with
    | false =>
      unfold hotPotatoOptInTimer at h
      rw [if_pos (by simp [hopt])] at h
      cases h
      exact ⟨ha, hb, hc, hd, he⟩
    | true =>
      have htimers := hc (hd hopt)
      by_cases hfew : (order.filter (fun uid => (tbl uid).isSome)).length
          < hotPotatoMinParticipants
      · rw [hotPotatoOptInTimer_cancel σ.state now tbl order intn hopt hfew] at h
        cases h
        exact ⟨ha, hb, fun _ => htimers, fun hc' => Bool.noConfusion hc', he⟩
      · cases hget : (order.filter (fun uid => (tbl uid).isSome))[intn]? with
        | none =>
          unfold hotPotatoOptInTimer at h
          rw [if_neg (by simp [hopt])] at h
          dsimp only at h
          rw [if_neg hfew, hget] at h
          exact Option.noConfusion h
        | some carrierUID =>
          rw [hotPotatoOptInTimer_promote σ.state now tbl order intn carrierUID hopt hfew
            hget] at h
          cases h
          have hmem : carrierUID ∈ σ.state.participants := by
            have h1 : carrierUID ∈ order.filter (fun uid => (tbl uid).isSome) :=
              List.getElem?_mem hget
            have h2 : carrierUID ∈ order := List.mem_of_mem_filter h1
            rw [← List.mem_toFinset, hok.2.2, Finmap.mem_keys] at h2
            exact h2
          have hl : launchedGameTimers
              ([Event.lock, Event.unlock, Event.writeToAll (Msg.begun
                (order.filter (fun uid => (tbl uid).isSome)).length)]
                ++ (match tbl carrierUID with
                    | some carrierClient => [Event.sendServerMessage carrierClient Msg.youCarry]
                    | none => [])
                ++ [Event.goGameTimer carrierUID]) ++ σ.gameTimers = [carrierUID] := by
            rw [launchedGameTimers_promote, htimers]
            rfl
          refine ⟨ha, fun c hcin => ?_, fun hc' => Bool.noConfusion hc',
            fun hc' => Bool.noConfusion hc', ?_⟩
          · have : c ∈ [carrierUID] := by
              rw [← hl]
              exact hcin
            rw [List.mem_singleton] at this
            rw [this]
            exact hmem
          · show (launchedGameTimers _ ++ σ.gameTimers).length ≤ 1
            rw [hl]
            exact Nat.le_refl 1
  | hotPotatoGameTimer now carrierUID tbl orderCopy intn =>
    dsimp only [System.step] at h
    split_ifs at h with hok
    obtain ⟨ha, hb, hc, hd, he⟩ := hinv
    cases hgame : σ.state.gameActive with
    | false =>
      have := hc hgame
      rw [this] at hok
      exact absurd hok.1 (List.not_mem_nil carrierUID)
    | true =>
      cases hres : resolveGame tbl carrierUID orderCopy intn with
      | none =>
        unfold hotPotatoGameTimer at h
        simp [hgame, hres] at h
      | some evs =>
        rw [hotPotatoGameTimer_active σ.state now carrierUID tbl orderCopy intn evs hgame
          hres] at h
        cases h
        have herase : σ.gameTimers.erase carrierUID = [] := by
          have hlen : (σ.gameTimers.erase carrierUID).length = σ.gameTimers.length - 1 :=
            List.length_erase_of_mem hok.1
          apply List.eq_nil_of_length_eq_zero
          omega
        refine ⟨ha, fun c hcin => ?_, fun _ => herase, fun hc' => Bool.noConfusion hc', ?_⟩
        · have : c ∈ σ.gameTimers.erase carrierUID := hcin
          rw [herase] at this
          exact absurd this (List.not_mem_nil c)
        · show (σ.gameTimers.erase carrierUID).length ≤ 1
          rw [herase]
          exact Nat.zero_le 1

/-- Every configuration the system reaches satisfies `SystemInv`. -/
theorem SystemInv_run (ops : List Op) (σ τ : System) (hinv : SystemInv σ)
    (h : runSystem σ ops = some τ) : SystemInv τ := by
  induction ops generalizing σ with
  | nil =>
    cases h
    exact hinv
  | cons op ops ih =>
    unfold runSystem at h
    split at h
    · exact Option.noConfusion h
    · next next hnext => exact ih next.1 (SystemInv_step σ op next hinv hnext) h

/-- C19 (players who did not opt in are unaffected): in every run of the system
from its initial configuration, made of commands (start, accept) and of timers
that fire only after they were launched, the game timer with the carrier chosen
at promotion, every client that a resolution punishes or disconnects, the
carrier in the self-punish outcome included, has a uid whose accept was
acknowledged during the opt-in phase of that game. -/
theorem only_accepted_players_targeted (ops : List Op) (σ : System)
    (now : Int) (carrierUID : Int) (getClientByUid : ClientTable) (orderCopy : List Int)
    (intn : Nat → Nat) (next : System × List Event)
    (hrun : runSystem initialSystem ops = some σ)
    (hstep : σ.step (Op.hotPotatoGameTimer now carrierUID getClientByUid orderCopy intn)
      = some next) :
    (∀ x ∈ punishments next.2, x.1.Uid ∈ σ.accepted) ∧
    (∀ c ∈ disconnects next.2, c.Uid ∈ σ.accepted) := by
  obtain ⟨ha, hb, hc, -, -⟩ := SystemInv_run ops initialSystem σ SystemInv_initial hrun
  dsimp only [System.step] at hstep
  split_ifs at hstep with hok
  obtain ⟨htimer, horder, hag⟩ := hok
  have key : ∀ c : Client,
      (c ∈ (punishments next.2).map (fun x => x.1) ∨ c ∈ disconnects next.2) →
      c.Uid ∈ σ.accepted := by
    intro c hcin
    cases hgame : σ.state.gameActive with
    | false =>
      rw [hc hgame] at htimer
      exact absurd htimer (List.not_mem_nil carrierUID)
    | true =>
      cases hres : resolveGame getClientByUid carrierUID orderCopy intn with
      | none =>
        unfold hotPotatoGameTimer at hstep
        simp [hgame, hres] at hstep
      | some evs =>
        rw [hotPotatoGameTimer_active σ.state now carrierUID getClientByUid orderCopy intn evs
          hgame hres] at hstep
        cases hstep
        have hcin' : c ∈ (punishments evs).map (fun x => x.1) ∨ c ∈ disconnects evs := hcin
        rcases resolveGame_targets getClientByUid carrierUID orderCopy intn evs hres c hcin'
          with hcar | haff
        · have h1 : agreesAt getClientByUid carrierUID = true :=
            hag carrierUID (List.mem_cons_self _ _)
          unfold agreesAt at h1
          rw [hcar] at h1
          simp only [decide_eq_true_eq] at h1
          rw [h1]
          exact (ha carrierUID).mp (hb carrierUID htimer)
        · obtain ⟨carrierClient, hcar⟩ := carrier_of_affected getClientByUid carrierUID
            orderCopy (List.ne_nil_of_mem haff)
          obtain ⟨uid, huid, -, hu, -⟩ := (mem_affectedClients getClientByUid carrierUID
            orderCopy carrierClient hcar c).mp haff
          have h1 : agreesAt getClientByUid uid = true :=
            hag uid (List.mem_cons_of_mem _ huid)
          unfold agreesAt at h1
          rw [hu] at h1
          simp only [decide_eq_true_eq] at h1
          rw [h1]
          apply (ha uid).mp
          rw [← Finmap.mem_keys, ← horder.2, List.mem_toFinset]
          exact huid
  exact ⟨fun x hx => key x.1 (Or.inl (List.mem_map_of_mem _ hx)),
    fun c hcd => key c (Or.inr hcd)⟩

/-- C19, along a game: players 1 and 2 accept, player 2 becomes the carrier, and
at resolution player 1, in the area of the carrier, is punished; uid 1 is among
the accepted uids. -/
theorem only_accepted_players_targeted_witness :
    ∃ σ next,
      runSystem initialSystem
        [Op.cmdHotPotato 63900000000000000000 sampleClient1 [],
         Op.hotPotatoAccept sampleClient1,
         Op.cmdHotPotato 63900000010000000000 sampleClient2 ["accept"],
         Op.hotPotatoOptInTimer 63900000060000000000 sampleTable [2, 1] 0] = some σ ∧
      σ.step (Op.hotPotatoGameTimer 63900000360000000000 2 sampleTable [1, 2] (fun _ => 3))
        = some next ∧
      (punishments next.2).map (fun x => x.1.Uid) = [1] ∧
      σ.accepted = [2, 1] ∧
      ∀ x ∈ punishments next.2, x.1.Uid ∈ σ.accepted :=
  ⟨_, _, rfl, rfl, rfl, rfl,
    (only_accepted_players_targeted
      [Op.cmdHotPotato 63900000000000000000 sampleClient1 [],
       Op.hotPotatoAccept sampleClient1,
       Op.cmdHotPotato 63900000010000000000 sampleClient2 ["accept"],
       Op.hotPotatoOptInTimer 63900000060000000000 sampleTable [2, 1] 0]
      _ 63900000360000000000 2 sampleTable [1, 2] (fun _ => 3) _ rfl rfl).1⟩

/-! ## The punishment catalog -/

/-- C23 (punishment catalog): the pool of `randomHotPotatoPunishment` is a list
of 16 pairwise distinct kinds (at least 12); for every index that `rand.Intn(16)`
can return the function returns the pool entry at that index, with no index out
of range, so every result is a kind of the pool; every kind of the pool is
returned for exactly one index; and the result depends on the index alone (the
function takes no game state and returns none). -/
theorem punishment_catalog :
    pool.length = 16 ∧ 12 ≤ pool.length ∧ pool.Nodup ∧
    (∀ i, i < 16 → ∃ pType, randomHotPotatoPunishment i = some pType ∧
      pool[i]? = some pType ∧ pType ∈ pool) ∧
    (∀ pType ∈ pool, ∃ i, i < 16 ∧ randomHotPotatoPunishment i = some pType ∧
      ∀ j, j < 16 → randomHotPotatoPunishment j = some pType → j = i) := by
  have hlen : pool.length = 16 := rfl
  have hnd : pool.Nodup := by decide
  refine ⟨hlen, by decide, hnd, ?_, ?_⟩
  · intro i hi
    have hi' : i < pool.length := by rw [hlen]; exact hi
    exact ⟨pool[i], List.getElem?_eq_getElem hi', List.getElem?_eq_getElem hi',
      List.getElem_mem hi'⟩
  · intro pType hp
    obtain ⟨i, hi, hget⟩ := List.getElem_of_mem hp
    refine ⟨i, by rw [← hlen]; exact hi, ?_, ?_⟩
    · unfold randomHotPotatoPunishment
      rw [List.getElem?_eq_getElem hi, hget]
    · intro j hj hjp
      have hj' : j < pool.length := by rw [hlen]; exact hj
      unfold randomHotPotatoPunishment at hjp
      rw [List.getElem?_eq_getElem hj'] at hjp
      have hjp' : pool[j] = pool[i] := by rw [hget]; exact Option.some.inj hjp
      exact (List.Nodup.getElem_inj_iff hnd).mp hjp'

/-- C23, at the last index: the sixteenth kind. -/
theorem punishment_catalog_witness :
    ∃ pType, randomHotPotatoPunishment 15 = some pType ∧
      pool[15]? = some pType ∧ pType ∈ pool :=
  punishment_catalog.2.2.2.1 15 (by decide)

/-! ## Timers that find their phase over -/

/-- C24 (deferred-task no-op): in every game state with `optInActive` false,
`hotPotatoOptInTimer` returns with every field of the game state as it was, and
does nothing but take and release the lock: no broadcast, no private message,
no game timer; in every game state with `gameActive` false,
`hotPotatoGameTimer` does the same: no message, no punishment, no disconnect. -/
theorem timers_no_op (s : hotPotatoState) (now : Int) (getClientByUid : ClientTable)
    (order : List Int) (intn : Nat) (carrierUID : Int) (orderCopy : List Int)
    (draws : Nat → Nat) :
    (s.optInActive = false →
      ∃ r, hotPotatoOptInTimer s now getClientByUid order intn = some r ∧
        r.state = s ∧ r.events = [Event.lock, Event.unlock] ∧
        messages r.events = [] ∧ launchedGameTimers r.events = []) ∧
    (s.gameActive = false →
      ∃ r, hotPotatoGameTimer s now carrierUID getClientByUid orderCopy draws = some r ∧
        r.state = s ∧ r.events = [Event.lock, Event.unlock] ∧
        messages r.events = [] ∧ punishments r.events = [] ∧ disconnects r.events = []) := by
  constructor
  · intro hopt
    refine ⟨⟨s, [Event.lock, Event.unlock], ()⟩, ?_, rfl, rfl, rfl, rfl⟩
    unfold hotPotatoOptInTimer
    rw [if_pos (by simp [hopt])]
  · intro hgame
    refine ⟨⟨s, [Event.lock, Event.unlock], ()⟩, ?_, rfl, rfl, rfl, rfl, rfl⟩
    unfold hotPotatoGameTimer
    rw [if_pos (by simp [hgame])]

/-- C24, after an external reset: both timers leave the idle state alone. -/
theorem timers_no_op_witness :
    (∃ r, hotPotatoOptInTimer ⟨false, false, ∅, -1, 0⟩ 63900000060000000000 sampleTable [] 0
        = some r ∧ r.state = ⟨false, false, ∅, -1, 0⟩) ∧
    (∃ r, hotPotatoGameTimer ⟨false, false, ∅, -1, 0⟩ 63900000060000000000 2 sampleTable []
        (fun _ => 3) = some r ∧ r.state = ⟨false, false, ∅, -1, 0⟩) :=
  have h := timers_no_op ⟨false, false, ∅, -1, 0⟩ 63900000060000000000 sampleTable [] 0 2 []
    (fun _ => 3)
  ⟨(h.1 rfl).elim fun r hr => ⟨r, hr.1, hr.2.1⟩,
   (h.2 rfl).elim fun r hr => ⟨r, hr.1, hr.2.1⟩⟩

/-! ## Lock discipline -/

/-- C25, counterexample: a player joins during the opt-in phase; the private
acknowledgement and the broadcast are both emitted while the lock is held
(`hotPotatoAccept` releases it by `defer`, at its end). -/
theorem lock_discipline_counterexample :
    (hotPotatoAccept ⟨true, false, ∅, -1, 0⟩ sampleClient1).events =
      [Event.lock, Event.sendServerMessage sampleClient1 (Msg.joined 1),
       Event.writeToAll (Msg.joinedAnnounce "alice" 1), Event.unlock] ∧
    messagesWhileLocked false (hotPotatoAccept ⟨true, false, ∅, -1, 0⟩ sampleClient1).events =
      [Event.sendServerMessage sampleClient1 (Msg.joined 1),
       Event.writeToAll (Msg.joinedAnnounce "alice" 1)] := by
  constructor <;> rfl

/-- The on-cooldown rejection of `cmdHotPotato` sends its notice before it
releases the lock. -/
theorem cooldown_notice_while_locked (s : hotPotatoState) (now : Int) (client : Client)
    (args : List String) (hstart : args.head? ≠ some "accept")
    (hopt : s.optInActive = false) (hgame : s.gameActive = false)
    (hcd : s.lastGameEnd ≠ 0 ∧ now - s.lastGameEnd < hotPotatoCooldown) :
    messagesWhileLocked false (cmdHotPotato s now client args).events =
      [Event.sendServerMessage client
        (Msg.onCooldown (remainingSeconds (timeSince now s.lastGameEnd)))] := by
  rw [cmdHotPotato_start s now client args hstart, if_neg (by simp [hopt, hgame]), if_pos hcd]
  rfl

/-- C25, amended: in the start operation, on the already-running rejection and
on a successful start, every private message and broadcast is emitted after the
lock has been released; `hotPotatoAccept` keeps the lock until it returns, so
on each of its paths every message it sends (there is at least one) is emitted
between acquiring and releasing the lock. -/
theorem lock_discipline (s : hotPotatoState) (now : Int) (client : Client)
    (args : List String) (hstart : args.head? ≠ some "accept") :
    ((s.optInActive = true ∨ s.gameActive = true ∨
        ¬(s.lastGameEnd ≠ 0 ∧ now - s.lastGameEnd < hotPotatoCooldown)) →
      messagesWhileLocked false (cmdHotPotato s now client args).events = []) ∧
    messagesWhileLocked false (hotPotatoAccept s client).events
      = messages (hotPotatoAccept s client).events ∧
    messages (hotPotatoAccept s client).events ≠ [] := by
  refine ⟨?_, ?_, ?_⟩
  · intro h
    rw [cmdHotPotato_start s now client args hstart]
    by_cases hrun : s.optInActive = true ∨ s.gameActive = true
    · rw [if_pos hrun]
      rfl
    · rw [if_neg hrun, if_neg]
      · rfl
      · rcases h with h | h | h
        · exact absurd (Or.inl h) hrun
        · exact absurd (Or.inr h) hrun
        · exact h
  · unfold hotPotatoAccept
    split_ifs <;> rfl
  · unfold hotPotatoAccept
    split_ifs <;> simp [messages]

/-- C25 amended, at a start while a game runs and an accept with no opt-in
phase open. -/
theorem lock_discipline_witness :
    messagesWhileLocked false
      (cmdHotPotato ⟨false, true, ∅, 2, 0⟩ 63900000070000000000 sampleClient1 []).events = [] ∧
    messagesWhileLocked false (hotPotatoAccept ⟨false, true, ∅, 2, 0⟩ sampleClient1).events
      = messages (hotPotatoAccept ⟨false, true, ∅, 2, 0⟩ sampleClient1).events :=
  have h := lock_discipline ⟨false, true, ∅, 2, 0⟩ 63900000070000000000 sampleClient1 []
    (by decide)
  ⟨h.1 (Or.inr (Or.inl rfl)), h.2.1⟩

/-! ## One live timer per phase -/

theorem TimerInv_initial : TimerInv initialSystem := ⟨rfl, rfl⟩

theorem TimerInv_afterAccept (σ : System) (client : Client) (ht : TimerInv σ) :
    TimerInv (σ.afterCommand (hotPotatoAccept σ.state client)) := by
  unfold hotPotatoAccept
  split_ifs <;> exact ht

theorem TimerInv_afterCmd (σ : System) (now : Int) (client : Client) (args : List String)
    (ht : TimerInv σ) :
    TimerInv (σ.afterCommand (cmdHotPotato σ.state now client args)) := by
  unfold cmdHotPotato
  split_ifs with h1 h2 h3
  · exact TimerInv_afterAccept σ client ht
  · exact ht
  · exact ht
  · have hopt : σ.state.optInActive = false := by
      cases ho : σ.state.optInActive with
      | false => rfl
      | true => exact absurd (by simp [ho]) h2
    have hgame : σ.state.gameActive = false := by
      cases hg : σ.state.gameActive with
      | false => rfl
      | true => exact absurd (by simp [hg]) h2
    obtain ⟨h4, h5⟩ := ht
    rw [hopt] at h4
    rw [hgame] at h5
    constructor
    · show σ.optInTimers + 1 = 1
      rw [h4]
      rfl
    · show σ.gameTimers.length = 0
      rw [h5]
      rfl

/-- Every step of the system keeps the timers matched to the phase flags. -/
theorem TimerInv_step (σ : System) (op : Op) (next : System × List Event)
    (hinv : SystemInv σ) (ht : TimerInv σ) (h : σ.step op = some next) : TimerInv next.1 := by
  cases op with
  | cmdHotPotato now client args =>
    cases h
    exact TimerInv_afterCmd σ now client args ht
  | hotPotatoAccept client =>
    cases h
    exact TimerInv_afterAccept σ client ht
  | hotPotatoOptInTimer now tbl order intn =>
    dsimp only [System.step] at h
    split_ifs at h with hok
    obtain ⟨-, -, -, hd, -⟩ := hinv
    obtain ⟨h4, h5⟩ := ht
    cases hopt : σ.state.optInActive with
    | false =>
      rw [hopt] at h4
      have := hok.1
      rw [h4] at this
      exact absurd this (by decide)
    | true =>
      rw [hopt] at h4
      have hgame := hd hopt
      rw [hgame] at h5
      have htimers : σ.gameTimers = [] := List.eq_nil_of_length_eq_zero h5
      by_cases hfew : (order.filter (fun uid => (tbl uid).isSome)).length
          < hotPotatoMinParticipants
      · rw [hotPotatoOptInTimer_cancel σ.state now tbl order intn hopt hfew] at h
        cases h
        constructor
        · show σ.optInTimers - 1 = 0
          rw [h4]
          rfl
        · show σ.gameTimers.length = if σ.state.gameActive = true then 1 else 0
          rw [hgame, h5]
      · cases hget : (order.filter (fun uid => (tbl uid).isSome))[intn]? with
        | none =>
          unfold hotPotatoOptInTimer at h
          rw [if_neg (by simp [hopt])] at h
          dsimp only at h
          rw [if_neg hfew, hget] at h
          exact Option.noConfusion h
        | some carrierUID =>
          rw [hotPotatoOptInTimer_promote σ.state now tbl order intn carrierUID hopt hfew
            hget] at h
          cases h
          constructor
          · show σ.optInTimers - 1 = 0
            rw [h4]
            rfl
          · show (launchedGameTimers _ ++ σ.gameTimers).length = 1
            rw [launchedGameTimers_promote, htimers]
            rfl
  | hotPotatoGameTimer now carrierUID tbl orderCopy intn =>
    dsimp only [System.step] at h
    split_ifs at h with hok
    obtain ⟨-, -, hc, hd, -⟩ := hinv
    obtain ⟨h4, h5⟩ := ht
    cases hgame : σ.state.gameActive with
    | false =>
      have := hc hgame
      rw [this] at hok
      exact absurd hok.1 (List.not_mem_nil carrierUID)
    | true =>
      have hopt : σ.state.optInActive = false := by
        cases ho : σ.state.optInActive with
        | false => rfl
        | true =>
          have := hd ho
          rw [hgame] at this
          exact Bool.noConfusion this
      rw [hopt] at h4
      rw [hgame] at h5
      cases hres : resolveGame tbl carrierUID orderCopy intn with
      | none =>
        unfold hotPotatoGameTimer at h
        simp [hgame, hres] at h
      | some evs =>
        rw [hotPotatoGameTimer_active σ.state now carrierUID tbl orderCopy intn evs hgame
          hres] at h
        cases h
        constructor
        · show σ.optInTimers = 0
          exact h4
        · show (σ.gameTimers.erase carrierUID).length = 0
          rw [List.length_erase_of_mem hok.1, h5]
          rfl

/-- Every configuration the system reaches has its timers matched to the phase
flags. -/
theorem TimerInv_run (ops : List Op) (σ τ : System) (hinv : SystemInv σ) (ht : TimerInv σ)
    (h : runSystem σ ops = some τ) : TimerInv τ := by
  induction ops generalizing σ with
  | nil =>
    cases h
    exact ht
  | cons op ops ih =>
    unfold runSystem at h
    split at h
    · exact Option.noConfusion h
    · next next hnext =>
      exact ih next.1 (SystemInv_step σ op next hinv hnext)
        (TimerInv_step σ op next hinv ht hnext) h

/-- C26 (single live timer): in the system whose only operations are start,
accept and the two expiries, with timers launched only by a successful start
and by a promotion, every reachable configuration has at most one sleeping
opt-in timer and at most one sleeping game timer; an opt-in timer sleeps
exactly when `optInActive` is true and a game timer exactly when `gameActive`
is true; so every timer that fires finds its phase flag set. -/
theorem single_live_timer (ops : List Op) (σ : System)
    (hrun : runSystem initialSystem ops = some σ) :
    σ.optInTimers ≤ 1 ∧ σ.gameTimers.length ≤ 1 ∧
    (0 < σ.optInTimers ↔ σ.state.optInActive = true) ∧
    (σ.gameTimers ≠ [] ↔ σ.state.gameActive = true) ∧
    (∀ now tbl order intn next,
      σ.step (Op.hotPotatoOptInTimer now tbl order intn) = some next →
        σ.state.optInActive = true) ∧
    (∀ now carrierUID tbl orderCopy intn next,
      σ.step (Op.hotPotatoGameTimer now carrierUID tbl orderCopy intn) = some next →
        σ.state.gameActive = true) := by
  obtain ⟨h4, h5⟩ := TimerInv_run ops initialSystem σ SystemInv_initial TimerInv_initial hrun
  have hopt : 0 < σ.optInTimers ↔ σ.state.optInActive = true := by
    rw [h4]
    cases σ.state.optInActive <;> simp
  have hgame : σ.gameTimers ≠ [] ↔ σ.state.gameActive = true := by
    rw [← List.length_pos, h5]
    cases σ.state.gameActive <;> simp
  refine ⟨?_, ?_, hopt, hgame, ?_, ?_⟩
  · rw [h4]
    split_ifs <;> decide
  · rw [h5]
    split_ifs <;> decide
  · intro now tbl order intn next hstep
    dsimp only [System.step] at hstep
    split_ifs at hstep with hok
    exact hopt.mp hok.1
  · intro now carrierUID tbl orderCopy intn next hstep
    dsimp only [System.step] at hstep
    split_ifs at hstep with hok
    exact hgame.mp (List.ne_nil_of_mem hok.1)

/-- C26, in the active phase of a game: no opt-in timer and one game timer
sleep. -/
theorem single_live_timer_witness :
    ∃ σ,
      runSystem initialSystem
        [Op.cmdHotPotato 63900000000000000000 sampleClient1 [],
         Op.hotPotatoAccept sampleClient1,
         Op.cmdHotPotato 63900000010000000000 sampleClient2 ["accept"],
         Op.hotPotatoOptInTimer 63900000060000000000 sampleTable [2, 1] 0] = some σ ∧
      σ.optInTimers = 0 ∧ σ.gameTimers = [2] ∧
      (σ.gameTimers ≠ [] ↔ σ.state.gameActive = true) :=
  ⟨_, rfl, rfl, rfl,
    (single_live_timer
      [Op.cmdHotPotato 63900000000000000000 sampleClient1 [],
       Op.hotPotatoAccept sampleClient1,
       Op.cmdHotPotato 63900000010000000000 sampleClient2 ["accept"],
       Op.hotPotatoOptInTimer 63900000060000000000 sampleTable [2, 1] 0]
      _ rfl).2.2.2.1⟩

/-! ## The carrier field -/

theorem CarrierInv_initial : CarrierInv initialSystem :=
  ⟨fun h => Bool.noConfusion h, fun h => Bool.noConfusion h⟩

theorem CarrierInv_afterAccept (σ : System) (client : Client) (hinv : SystemInv σ)
    (hcar : CarrierInv σ) :
    CarrierInv (σ.afterCommand (hotPotatoAccept σ.state client)) := by
  unfold hotPotatoAccept
  split_ifs with h1 h2
  · exact hcar
  · exact hcar
  · refine ⟨hcar.1, fun hgame => ?_⟩
    have hopt : σ.state.optInActive = true := by simpa using h1
    have := hinv.2.2.2.1 hopt
    have hgame' : σ.state.gameActive = true := hgame
    rw [this] at hgame'
    exact Bool.noConfusion hgame'

theorem CarrierInv_afterCmd (σ : System) (now : Int) (client : Client) (args : List String)
    (hinv : SystemInv σ) (hcar : CarrierInv σ) :
    CarrierInv (σ.afterCommand (cmdHotPotato σ.state now client args)) := by
  unfold cmdHotPotato
  split_ifs with h1 h2 h3
  · exact CarrierInv_afterAccept σ client hinv hcar
  · exact hcar
  · exact hcar
  · exact ⟨fun _ => rfl, fun h => Bool.noConfusion h⟩

/-- Every step of the system keeps `CarrierInv`. -/
theorem CarrierInv_step (σ : System) (op : Op) (next : System × List Event)
    (hinv : SystemInv σ) (hcar : CarrierInv σ) (h : σ.step op = some next) :
    CarrierInv next.1 := by
  cases op with
  | cmdHotPotato now client args =>
    cases h
    exact CarrierInv_afterCmd σ now client args hinv hcar
  | hotPotatoAccept client =>
    cases h
    exact CarrierInv_afterAccept σ client hinv hcar
  | hotPotatoOptInTimer now tbl order intn =>
    dsimp only [System.step] at h
    split_ifs at h with hok
    obtain ⟨-, -, hc, hd, -⟩ := hinv
    cases hopt : σ.state.optInActive with
    | false =>
      unfold hotPotatoOptInTimer at h
      rw [if_pos (by simp [hopt])] at h
      cases h
      exact hcar
    | true =>
      have hgame := hd hopt
      have htimers := hc hgame
      by_cases hfew : (order.filter (fun uid => (tbl uid).isSome)).length
          < hotPotatoMinParticipants
      · rw [hotPotatoOptInTimer_cancel σ.state now tbl order intn hopt hfew] at h
        cases h
        refine ⟨fun hc' => Bool.noConfusion hc', fun hg => ?_⟩
        have hg' : σ.state.gameActive = true := hg
        rw [hgame] at hg'
        exact Bool.noConfusion hg'
      · cases hget : (order.filter (fun uid => (tbl uid).isSome))[intn]? with
        | none =>
          unfold hotPotatoOptInTimer at h
          rw [if_neg (by simp [hopt])] at h
          dsimp only at h
          rw [if_neg hfew, hget] at h
          exact Option.noConfusion h
        | some carrierUID =>
          rw [hotPotatoOptInTimer_promote σ.state now tbl order intn carrierUID hopt hfew
            hget] at h
          cases h
          refine ⟨fun hc' => Bool.noConfusion hc', fun _ => ⟨?_, ?_⟩⟩
          · show carrierUID ∈ σ.state.participants
            have h1 : carrierUID ∈ order := List.mem_of_mem_filter (List.getElem?_mem hget)
            rw [← List.mem_toFinset, hok.2.2, Finmap.mem_keys] at h1
            exact h1
          · show launchedGameTimers _ ++ σ.gameTimers = [carrierUID]
            rw [launchedGameTimers_promote, htimers]
            rfl
  | hotPotatoGameTimer now carrierUID tbl orderCopy intn =>
    dsimp only [System.step] at h
    split_ifs at h with hok
    cases hgame : σ.state.gameActive with
    | false =>
      have := hinv.2.2.1 hgame
      rw [this] at hok
      exact absurd hok.1 (List.not_mem_nil carrierUID)
    | true =>
      cases hres : resolveGame tbl carrierUID orderCopy intn with
      | none =>
        unfold hotPotatoGameTimer at h
        simp [hgame, hres] at h
      | some evs =>
        rw [hotPotatoGameTimer_active σ.state now carrierUID tbl orderCopy intn evs hgame
          hres] at h
        cases h
        exact ⟨fun hc' => Bool.noConfusion hc', fun hc' => Bool.noConfusion hc'⟩

/-- Every configuration the system reaches satisfies `CarrierInv`. -/
theorem CarrierInv_run (ops : List Op) (σ τ : System) (hinv : SystemInv σ)
    (hcar : CarrierInv σ) (h : runSystem σ ops = some τ) : CarrierInv τ := by
  induction ops generalizing σ with
  | nil =>
    cases h
    exact hcar
  | cons op ops ih =>
    unfold runSystem at h
    split at h
    · exact Option.noConfusion h
    · next next hnext =>
      exact ih next.1 (SystemInv_step σ op next hinv hnext)
        (CarrierInv_step σ op next hinv hcar hnext) h

/-- C21, the code on a whole game (start, two players join, opt-in expiry makes
uid 2 the carrier, game expiry resolves): in the idle state that follows the
completed resolution no timer sleeps and `gameActive` is false, yet the carrier
field still holds 2, against the invariant and against the comment of the field
("-1 if none"). -/
theorem carrier_stale_after_resolution :
    (runSystem initialSystem
      [Op.cmdHotPotato 63900000000000000000 sampleClient1 [],
       Op.hotPotatoAccept sampleClient1,
       Op.cmdHotPotato 63900000010000000000 sampleClient2 ["accept"],
       Op.hotPotatoOptInTimer 63900000060000000000 sampleTable [2, 1] 0,
       Op.hotPotatoGameTimer 63900000360000000000 2 sampleTable [1, 2] (fun _ => 3)]).map
      (fun σ => (σ.state.optInActive, σ.state.gameActive, σ.state.carrierUID,
        σ.optInTimers, σ.gameTimers))
      = some (false, false, 2, 0, []) ∧
    ¬((2 : Int) ≠ -1 ↔ false = true) := by
  constructor
  · rfl
  · decide

/-- Where the carrier field stands along the runs of the system: it is `-1`
while the opt-in phase is open; while `gameActive` is true it is a participant,
the one the sleeping game timer was launched with; and a game expiry leaves the
field as it was (only the next successful start puts `-1` back). -/
theorem carrier_field_along_runs (ops : List Op) (σ : System)
    (hrun : runSystem initialSystem ops = some σ) :
    (σ.state.optInActive = true → σ.state.carrierUID = -1) ∧
    (σ.state.gameActive = true →
      σ.state.carrierUID ∈ σ.state.participants ∧ σ.gameTimers = [σ.state.carrierUID]) ∧
    (∀ now carrierUID tbl orderCopy intn next,
      σ.step (Op.hotPotatoGameTimer now carrierUID tbl orderCopy intn) = some next →
        carrierUID = σ.state.carrierUID ∧
        next.1.state.carrierUID = σ.state.carrierUID ∧
        next.1.state.gameActive = false ∧ next.1.state.optInActive = false) := by
  have hinv := SystemInv_run ops initialSystem σ SystemInv_initial hrun
  have hcar := CarrierInv_run ops initialSystem σ SystemInv_initial CarrierInv_initial hrun
  refine ⟨hcar.1, hcar.2, ?_⟩
  intro now carrierUID tbl orderCopy intn next hstep
  dsimp only [System.step] at hstep
  split_ifs at hstep with hok
  cases hgame : σ.state.gameActive with
  | false =>
    have := hinv.2.2.1 hgame
    rw [this] at hok
    exact absurd hok.1 (List.not_mem_nil carrierUID)
  | true =>
    have htimers := (hcar.2 hgame).2
    have hc : carrierUID = σ.state.carrierUID := by
      have := hok.1
      rw [htimers, List.mem_singleton] at this
      exact this
    cases hres : resolveGame tbl carrierUID orderCopy intn with
    | none =>
      unfold hotPotatoGameTimer at hstep
      simp [hgame, hres] at hstep
    | some evs =>
      rw [hotPotatoGameTimer_active σ.state now carrierUID tbl orderCopy intn evs hgame
        hres] at hstep
      cases hstep
      exact ⟨hc, rfl, rfl, rfl⟩

/-- In the active phase of the sample game the carrier is the participant 2. -/
theorem carrier_field_along_runs_example :
    ∃ σ,
      runSystem initialSystem
        [Op.cmdHotPotato 63900000000000000000 sampleClient1 [],
         Op.hotPotatoAccept sampleClient1,
         Op.cmdHotPotato 63900000010000000000 sampleClient2 ["accept"],
         Op.hotPotatoOptInTimer 63900000060000000000 sampleTable [2, 1] 0] = some σ ∧
      σ.state.gameActive = true ∧ σ.state.carrierUID = 2 ∧
      (σ.state.gameActive = true →
        σ.state.carrierUID ∈ σ.state.participants ∧ σ.gameTimers = [σ.state.carrierUID]) :=
  ⟨_, rfl, rfl, rfl,
    (carrier_field_along_runs
      [Op.cmdHotPotato 63900000000000000000 sampleClient1 [],
       Op.hotPotatoAccept sampleClient1,
       Op.cmdHotPotato 63900000010000000000 sampleClient2 ["accept"],
       Op.hotPotatoOptInTimer 63900000060000000000 sampleTable [2, 1] 0]
      _ rfl).2.1⟩

/-! ## Timers of a game that was reset -/

/-- The mass-punish loop announces no outcome. -/
theorem punishAll_outcomes (carrier : Option Client) (intn : Nat → Nat) (cs : List Client)
    (k : Nat) (evs : List Event) (h : punishAll carrier intn k cs = some evs) :
    outcomes evs = [] := by
  induction cs generalizing k evs with
  | nil =>
    cases h
    rfl
  | cons c cs ih =>
    unfold punishAll at h
    split at h
    · next pType rest hp hrest =>
      cases h
      have h1 := ih (k + 1) rest hrest
      unfold outcomes at h1 ⊢
      cases carrier <;> simpa using h1
    · exact Option.noConfusion h

/-! ## What depends on the iteration order of the map -/

/-- Two orders in which a `range` can visit the same map are rearrangements of
each other. -/
theorem rangeOrders_perm (m : IntBoolMap) (o₁ o₂ : List Int)
    (h₁ : IsRangeOrder m o₁) (h₂ : IsRangeOrder m o₂) : o₁.Perm o₂ :=
  List.perm_of_nodup_nodup_toFinset_eq h₁.1 h₂.1 (h₁.2.trans h₂.2.symm)

theorem affectedClients_perm (getClientByUid : ClientTable) (carrierUID : Int)
    (o₁ o₂ : List Int) (h : o₁.Perm o₂) :
    (affectedClients getClientByUid carrierUID o₁).Perm
      (affectedClients getClientByUid carrierUID o₂) := by
  unfold affectedClients
  cases getClientByUid carrierUID with
  | none => exact List.Perm.refl _
  | some carrierClient => exact List.Perm.filterMap _ h

theorem selectedOutcome_perm (getClientByUid : ClientTable) (carrierUID : Int)
    (o₁ o₂ : List Int) (h : o₁.Perm o₂) :
    selectedOutcome getClientByUid carrierUID o₁ = selectedOutcome getClientByUid carrierUID o₂ := by
  unfold selectedOutcome
  rw [(affectedClients_perm getClientByUid carrierUID o₁ o₂ h).length_eq]

/-- What a resolution that runs to its end announces and whom it punishes and
disconnects, by the outcome selected. -/
theorem resolveGame_effects (getClientByUid : ClientTable) (carrierUID : Int)
    (order : List Int) (intn : Nat → Nat) (evs : List Event)
    (h : resolveGame getClientByUid carrierUID order intn = some evs) :
    outcomes evs = [selectedOutcome getClientByUid carrierUID order] ∧
    (punishments evs).map (fun x => x.1) =
      (match selectedOutcome getClientByUid carrierUID order with
       | Outcome.carrierSelfPunish => (getClientByUid carrierUID).toList
       | Outcome.massEject => []
       | Outcome.massPunish => affectedClients getClientByUid carrierUID order) ∧
    disconnects evs =
      (match selectedOutcome getClientByUid carrierUID order with
       | Outcome.massEject => affectedClients getClientByUid carrierUID order
       | _ => []) := by
  by_cases ha : affectedClients getClientByUid carrierUID order = []
  · have hsel : selectedOutcome getClientByUid carrierUID order = Outcome.carrierSelfPunish := by
      unfold selectedOutcome
      rw [ha]
      rfl
    rw [hsel]
    cases hcar : getClientByUid carrierUID with
    | none =>
      rw [resolveGame_unreachable getClientByUid carrierUID order intn hcar] at h
      cases h
      exact ⟨rfl, rfl, rfl⟩
    | some carrierClient =>
      cases hp : randomHotPotatoPunishment (intn 0) with
      | none =>
        unfold resolveGame at h
        rw [ha] at h
        simp [hcar, hp] at h
      | some pType =>
        rw [resolveGame_alone getClientByUid carrierUID order intn carrierClient pType hcar ha
          hp] at h
        cases h
        exact ⟨rfl, rfl, rfl⟩
  · obtain ⟨carrierClient, hcar⟩ := carrier_of_affected getClientByUid carrierUID order ha
    have hmod := isMod_eq getClientByUid carrierUID carrierClient hcar
    have hlen : ¬ (affectedClients getClientByUid carrierUID order).length = 0 := by
      simpa using ha
    cases hauth : carrierClient.Authenticated with
    | true =>
      have hsel : selectedOutcome getClientByUid carrierUID order = Outcome.massEject := by
        unfold selectedOutcome
        rw [if_neg hlen, hmod, hauth]
        rfl
      rw [hsel]
      rw [resolveGame_kick getClientByUid carrierUID order intn carrierClient hcar ha hauth] at h
      cases h
      refine ⟨?_, ?_, ?_⟩
      · rw [outcomes_append, outcomes_append, outcomes_kickAll]
        rfl
      · rw [punishments_append, punishments_append, punishments_kickAll]
        rfl
      · rw [disconnects_append, disconnects_append, disconnects_kickAll]
        simp [disconnects]
    | false =>
      have hsel : selectedOutcome getClientByUid carrierUID order = Outcome.massPunish := by
        unfold selectedOutcome
        rw [if_neg hlen, hmod, hauth]
        rfl
      rw [hsel]
      cases hpa : punishAll (some carrierClient) intn 0
          (affectedClients getClientByUid carrierUID order) with
      | none =>
        unfold resolveGame at h
        dsimp only at h
        rw [if_neg hlen] at h
        simp [hcar, hauth, hpa] at h
      | some evs' =>
        rw [resolveGame_punish getClientByUid carrierUID order intn carrierClient evs' hcar ha
          hauth hpa] at h
        cases h
        obtain ⟨h1, h2⟩ := punishAll_clients _ intn _ 0 evs' hpa
        have hout : outcomes evs' = [] :=
          punishAll_outcomes (some carrierClient) intn _ 0 evs' hpa
        refine ⟨?_, ?_, ?_⟩
        · show outcomes ([Event.writeToAll _] ++ evs') = _
          rw [outcomes_append, hout]
          rfl
        · show (punishments ([Event.writeToAll _] ++ evs')).map _ = _
          rw [punishments_append]
          exact h1
        · show disconnects ([Event.writeToAll _] ++ evs') = _
          rw [disconnects_append]
          exact h2

/-- What the opt-in expiry of an open opt-in phase leaves in the game state,
for any iteration order: the carrier is the drawn entry of the connected
participants in iteration order; the other fields depend on the number of
connected participants only. -/
theorem hotPotatoOptInTimer_state (s : hotPotatoState) (now : Int)
    (getClientByUid : ClientTable) (order : List Int) (intn : Nat)
    (hopt : s.optInActive = true) :
    (hotPotatoOptInTimer s now getClientByUid order intn).map (fun r => r.state) =
      if (order.filter (fun uid => (getClientByUid uid).isSome)).length
          < hotPotatoMinParticipants then
        some ⟨false, s.gameActive, s.participants, s.carrierUID, now⟩
      else
        ((order.filter (fun uid => (getClientByUid uid).isSome))[intn]?).map
          (fun carrierUID => ⟨false, true, s.participants, carrierUID, s.lastGameEnd⟩) := by
  by_cases hfew : (order.filter (fun uid => (getClientByUid uid).isSome)).length
      < hotPotatoMinParticipants
  · rw [if_pos hfew, hotPotatoOptInTimer_cancel s now getClientByUid order intn hopt hfew]
    rfl
  · rw [if_neg hfew]
    cases hget : (order.filter (fun uid => (getClientByUid uid).isSome))[intn]? with
    | none =>
      unfold hotPotatoOptInTimer
      rw [if_neg (by simp [hopt])]
      dsimp only
      rw [if_neg hfew, hget]
      rfl
    | some carrierUID =>
      rw [hotPotatoOptInTimer_promote s now getClientByUid order intn carrierUID hopt hfew hget]
      rfl

/-- C22, counterexample: the same game state, client table and draws, and two
orders in which the participant map can be iterated.  At opt-in expiry the draw
0 selects carrier 1 along one order and carrier 2 along the other; at resolution
with carrier 1 and the draws 0, 1, player 2 gets the first kind of the pool
along one order and the second kind along the other. -/
theorem determinism_counterexample :
    IsRangeOrder ((Finmap.singleton 1 true).insert 2 true) [1, 2] ∧
    IsRangeOrder ((Finmap.singleton 1 true).insert 2 true) [2, 1] ∧
    (hotPotatoOptInTimer ⟨true, false, (Finmap.singleton 1 true).insert 2 true, -1, 0⟩
      63900000060000000000 sampleTable [1, 2] 0).map (fun r => r.state.carrierUID) = some 1 ∧
    (hotPotatoOptInTimer ⟨true, false, (Finmap.singleton 1 true).insert 2 true, -1, 0⟩
      63900000060000000000 sampleTable [2, 1] 0).map (fun r => r.state.carrierUID) = some 2 ∧
    (hotPotatoGameTimer
      ⟨false, true, ((Finmap.singleton 1 true).insert 2 true).insert 3 true, 1, 0⟩
      63900000360000000000 1 sampleTableBack [1, 2, 3] (fun k => k)).map
        (fun r => (punishments r.events).map (fun x => (x.1.Uid, x.2.1)))
      = some [(2, PunishmentType.PunishmentBackward),
              (3, PunishmentType.PunishmentStutterstep)] ∧
    (hotPotatoGameTimer
      ⟨false, true, ((Finmap.singleton 1 true).insert 2 true).insert 3 true, 1, 0⟩
      63900000360000000000 1 sampleTableBack [3, 2, 1] (fun k => k)).map
        (fun r => (punishments r.events).map (fun x => (x.1.Uid, x.2.1)))
      = some [(3, PunishmentType.PunishmentBackward),
              (2, PunishmentType.PunishmentStutterstep)] := by
  refine ⟨by decide, by decide, by rfl, by rfl, by rfl, by rfl⟩

/-- C22, amended: for two runs of opt-in expiry and of resolution from the same
game states, with the same draws and the same client table, that iterate the
participant map in two orders: the opt-in expiry leaves the same flags,
participants and `lastGameEnd` (so the same decision to promote or cancel),
while the carrier it selects is the drawn entry of the connected participants in
the order of the iteration; and for one and the same carrier the resolution
leaves the same state, announces the same single outcome, and punishes and
disconnects the same clients up to their order (the kind a client gets is the
one drawn at its position in the iteration, see C18). -/
theorem iteration_order_effects (s g : hotPotatoState) (now later : Int)
    (getClientByUid : ClientTable) (o₁ o₂ : List Int) (intn : Nat) (carrierUID : Int)
    (draws : Nat → Nat)
    (hopt : s.optInActive = true)
    (h₁ : IsRangeOrder s.participants o₁) (h₂ : IsRangeOrder s.participants o₂)
    (hgame : g.gameActive = true) (hdraw : ∀ k, draws k < pool.length) :
    (hotPotatoOptInTimer s now getClientByUid o₁ intn).map
        (fun r => (r.state.optInActive, r.state.gameActive, r.state.participants,
          r.state.lastGameEnd)) =
      (hotPotatoOptInTimer s now getClientByUid o₂ intn).map
        (fun r => (r.state.optInActive, r.state.gameActive, r.state.participants,
          r.state.lastGameEnd)) ∧
    (hotPotatoOptInTimer s now getClientByUid o₁ intn).map (fun r => r.state.carrierUID) =
      (if (connectedParticipants s.participants getClientByUid).card < 2 then
        some s.carrierUID
       else (o₁.filter (fun uid => (getClientByUid uid).isSome))[intn]?) ∧
    selectedOutcome getClientByUid carrierUID o₁ = selectedOutcome getClientByUid carrierUID o₂ ∧
    ∃ r₁ r₂,
      hotPotatoGameTimer g later carrierUID getClientByUid o₁ draws = some r₁ ∧
      hotPotatoGameTimer g later carrierUID getClientByUid o₂ draws = some r₂ ∧
      r₁.state = r₂.state ∧
      outcomes r₁.events = [selectedOutcome getClientByUid carrierUID o₁] ∧
      outcomes r₂.events = outcomes r₁.events ∧
      ((punishments r₁.events).map (fun x => x.1)).Perm
        ((punishments r₂.events).map (fun x => x.1)) ∧
      (disconnects r₁.events).Perm (disconnects r₂.events) := by
  have hperm := rangeOrders_perm s.participants o₁ o₂ h₁ h₂
  have hlen₁ := length_validUIDs s.participants getClientByUid o₁ h₁
  have hlen₂ := length_validUIDs s.participants getClientByUid o₂ h₂
  have hst₁ := hotPotatoOptInTimer_state s now getClientByUid o₁ intn hopt
  have hst₂ := hotPotatoOptInTimer_state s now getClientByUid o₂ intn hopt
  have hmap : ∀ (α : Type) (f : hotPotatoState → α) (o : List Int),
      (hotPotatoOptInTimer s now getClientByUid o intn).map (fun r => f r.state) =
        ((hotPotatoOptInTimer s now getClientByUid o intn).map (fun r => r.state)).map f := by
    intro α f o
    rw [Option.map_map]
    rfl
  have hsel := selectedOutcome_perm getClientByUid carrierUID o₁ o₂ hperm
  have haff := affectedClients_perm getClientByUid carrierUID o₁ o₂ hperm
  refine ⟨?_, ?_, hsel, ?_⟩
  · rw [hmap _ (fun st => (st.optInActive, st.gameActive, st.participants, st.lastGameEnd)) o₁,
      hmap _ (fun st => (st.optInActive, st.gameActive, st.participants, st.lastGameEnd)) o₂,
      hst₁, hst₂, hlen₁, hlen₂]
    split_ifs with hfew
    · rfl
    · have hsome : ∀ o : List Int,
          (o.filter (fun uid => (getClientByUid uid).isSome)).length
            = (connectedParticipants s.participants getClientByUid).card →
          (((o.filter (fun uid => (getClientByUid uid).isSome))[intn]?).map
            (fun carrierUID =>
              (⟨false, true, s.participants, carrierUID, s.lastGameEnd⟩ : hotPotatoState))).map
            (fun st => (st.optInActive, st.gameActive, st.participants, st.lastGameEnd))
          = if intn < (connectedParticipants s.participants getClientByUid).card then
              some (false, true, s.participants, s.lastGameEnd) else none := by
        intro o ho
        by_cases hi : intn < (o.filter (fun uid => (getClientByUid uid).isSome)).length
        · rw [List.getElem?_eq_getElem hi, if_pos (by rw [← ho]; exact hi)]
          rfl
        · rw [List.getElem?_eq_none (not_lt.mp hi), if_neg (by rw [← ho]; exact hi)]
          rfl
      rw [hsome o₁ hlen₁, hsome o₂ hlen₂]
  · have htwo : hotPotatoMinParticipants = 2 := rfl
    rw [hmap _ (fun st => st.carrierUID) o₁, hst₁, hlen₁, htwo]
    split_ifs with hfew
    · rfl
    · rw [Option.map_map]
      exact Option.map_id'
  · obtain ⟨evs₁, he₁⟩ := resolveGame_total getClientByUid carrierUID o₁ draws hdraw
    obtain ⟨evs₂, he₂⟩ := resolveGame_total getClientByUid carrierUID o₂ draws hdraw
    obtain ⟨ho₁, hp₁, hd₁⟩ := resolveGame_effects getClientByUid carrierUID o₁ draws evs₁ he₁
    obtain ⟨ho₂, hp₂, hd₂⟩ := resolveGame_effects getClientByUid carrierUID o₂ draws evs₂ he₂
    refine ⟨_, _,
      hotPotatoGameTimer_active g later carrierUID getClientByUid o₁ draws evs₁ hgame he₁,
      hotPotatoGameTimer_active g later carrierUID getClientByUid o₂ draws evs₂ hgame he₂,
      rfl, ho₁, ?_, ?_, ?_⟩
    · show outcomes evs₂ = outcomes evs₁
      rw [ho₁, ho₂, hsel]
    · show ((punishments evs₁).map _).Perm ((punishments evs₂).map _)
      rw [hp₁, hp₂, ← hsel]
      cases selectedOutcome getClientByUid carrierUID o₁ with
      | carrierSelfPunish => exact List.Perm.refl _
      | massEject => exact List.Perm.refl _
      | massPunish => exact haff
    · show (disconnects evs₁).Perm (disconnects evs₂)
      rw [hd₁, hd₂, ← hsel]
      cases selectedOutcome getClientByUid carrierUID o₁ with
      | carrierSelfPunish => exact List.Perm.refl _
      | massEject => exact haff
      | massPunish => exact List.Perm.refl _

/-- C22 amended, at three players in one area and the two orders 1, 2, 3 and
3, 2, 1: the same flags after opt-in expiry and the same outcome of the
resolution with carrier 1. -/
theorem iteration_order_effects_witness :
    (hotPotatoOptInTimer
        ⟨true, false, ((Finmap.singleton 1 true).insert 2 true).insert 3 true, -1, 0⟩
        63900000060000000000 sampleTableBack [1, 2, 3] 0).map
        (fun r => (r.state.optInActive, r.state.gameActive, r.state.participants,
          r.state.lastGameEnd)) =
      (hotPotatoOptInTimer
        ⟨true, false, ((Finmap.singleton 1 true).insert 2 true).insert 3 true, -1, 0⟩
        63900000060000000000 sampleTableBack [3, 2, 1] 0).map
        (fun r => (r.state.optInActive, r.state.gameActive, r.state.participants,
          r.state.lastGameEnd)) ∧
    selectedOutcome sampleTableBack 1 [1, 2, 3] = selectedOutcome sampleTableBack 1 [3, 2, 1] :=
  have h := iteration_order_effects
    ⟨true, false, ((Finmap.singleton 1 true).insert 2 true).insert 3 true, -1, 0⟩
    ⟨false, true, ((Finmap.singleton 1 true).insert 2 true).insert 3 true, 1, 0⟩
    63900000060000000000 63900000360000000000 sampleTableBack [1, 2, 3] [3, 2, 1] 0 1
    (fun _ => 3) rfl (by decide) (by decide) rfl (fun _ => (by decide : 3 < pool.length))
  ⟨h.1, h.2.2.1⟩

/-! ## Participants that were gone at opt-in expiry -/

/-- A resolution that runs to its end punishes or disconnects every affected
client. -/
theorem affected_are_targeted (getClientByUid : ClientTable) (carrierUID : Int)
    (order : List Int) (intn : Nat → Nat) (evs : List Event)
    (h : resolveGame getClientByUid carrierUID order intn = some evs) (c : Client)
    (hc : c ∈ affectedClients getClientByUid carrierUID order) :
    c ∈ (punishments evs).map (fun x => x.1) ∨ c ∈ disconnects evs := by
  obtain ⟨-, hp, hd⟩ := resolveGame_effects getClientByUid carrierUID order intn evs h
  have hlen : ¬ (affectedClients getClientByUid carrierUID order).length = 0 := by
    intro h0
    rw [List.length_eq_zero] at h0
    rw [h0] at hc
    exact absurd hc (List.not_mem_nil c)
  unfold selectedOutcome at hp hd
  rw [if_neg hlen] at hp hd
  cases hm : isMod getClientByUid carrierUID with
  | true =>
    rw [hm] at hd
    right
    rw [hd]
    exact hc
  | false =>
    rw [hm] at hp
    left
    rw [hp]
    exact hc

/-- C13, amended: a participant whose ID does not resolve to a connected client
when opt-in expiry runs is excluded from carrier eligibility and from the player
count, but not from the participants held in the game state: promotion leaves
the participant map as it was, so the snapshot that `hotPotatoGameTimer` takes
of the promoted state is that whole map, and the affected list of the
resolution holds the client of such an ID exactly like that of any other
participant: when, at resolution time, the ID is not the carrier and resolves
to a client in the area of the carrier.  The game timer then punishes or
disconnects that client. -/
theorem disconnected_participant_stays (s : hotPotatoState) (now : Int)
    (getClientByUid : ClientTable) (order : List Int) (intn : Nat)
    (hopt : s.optInActive = true) (horder : IsRangeOrder s.participants order)
    (henough : 2 ≤ (connectedParticipants s.participants getClientByUid).card)
    (hdraw : intn < (connectedParticipants s.participants getClientByUid).card) :
    ∃ r, hotPotatoOptInTimer s now getClientByUid order intn = some r ∧
      r.state.gameActive = true ∧
      r.state.participants = s.participants ∧
      (∀ uid, getClientByUid uid = none →
        r.state.carrierUID ≠ uid ∧
        uid ∉ connectedParticipants s.participants getClientByUid) ∧
      Event.writeToAll
        (Msg.begun (connectedParticipants s.participants getClientByUid).card) ∈ r.events ∧
      (∀ (atResolution : ClientTable) (carrierClient : Client) (orderSnap orderCopy : List Int)
          (later : Int) (draws : Nat → Nat),
        atResolution r.state.carrierUID = some carrierClient →
        IsRangeOrder r.state.participants orderSnap →
        IsRangeOrder (copyParticipants r.state.participants orderSnap) orderCopy →
        (∀ k, draws k < pool.length) →
        copyParticipants r.state.participants orderSnap = s.participants ∧
        (∀ c, c ∈ affectedClients atResolution r.state.carrierUID orderCopy ↔
          ∃ uid, uid ∈ s.participants ∧ uid ≠ r.state.carrierUID ∧
            atResolution uid = some c ∧ c.Area = carrierClient.Area) ∧
        (∀ uid c, getClientByUid uid = none → uid ∈ s.participants →
          atResolution uid = some c → c.Area = carrierClient.Area →
          c ∈ affectedClients atResolution r.state.carrierUID orderCopy) ∧
        (tableAgrees atResolution orderCopy →
          ∀ uid, uid ∈ (affectedClients atResolution r.state.carrierUID orderCopy).map
              Client.Uid ↔
            uid ∈ s.participants ∧ uid ≠ r.state.carrierUID ∧
              ∃ c, atResolution uid = some c ∧ c.Area = carrierClient.Area) ∧
        ∃ r', hotPotatoGameTimer r.state later r.state.carrierUID atResolution orderCopy draws
            = some r' ∧
          ∀ c ∈ affectedClients atResolution r.state.carrierUID orderCopy,
            c ∈ (punishments r'.events).map (fun x => x.1) ∨ c ∈ disconnects r'.events) := by
  have hlen := length_validUIDs s.participants getClientByUid order horder
  have hmem := mem_validUIDs s.participants getClientByUid order horder
  have hge : ¬ (order.filter (fun uid => (getClientByUid uid).isSome)).length
      < hotPotatoMinParticipants := by
    rw [hlen]
    exact not_lt.mpr henough
  rw [← hlen] at hdraw
  have hcar := (hmem _).mp (List.getElem_mem hdraw)
  have hnot : ∀ uid, getClientByUid uid = none →
      uid ∉ connectedParticipants s.participants getClientByUid := by
    intro uid hnone hin
    unfold connectedParticipants at hin
    rw [Finset.mem_filter, hnone] at hin
    exact Bool.noConfusion hin.2
  have hne : ∀ uid, getClientByUid uid = none →
      (order.filter (fun uid => (getClientByUid uid).isSome))[intn] ≠ uid := by
    intro uid hnone heq
    apply hnot uid hnone
    rw [← heq]
    exact hcar
  refine ⟨_, hotPotatoOptInTimer_promote s now getClientByUid order intn _ hopt hge
    (List.getElem?_eq_getElem hdraw), rfl, rfl, ?_, ?_, ?_⟩
  · intro uid hnone
    exact ⟨hne uid hnone, hnot uid hnone⟩
  · rw [← hlen]
    simp
  · intro atResolution carrierClient orderSnap orderCopy later draws hcar' hsnapOrder hcopy
      hdraws
    have hsnap : copyParticipants s.participants orderSnap = s.participants :=
      copyParticipants_eq s.participants orderSnap hsnapOrder
    have hcopy' : IsRangeOrder s.participants orderCopy := by
      have h : IsRangeOrder (copyParticipants s.participants orderSnap) orderCopy := hcopy
      rw [hsnap] at h
      exact h
    have hkeys : ∀ uid, uid ∈ orderCopy ↔ uid ∈ s.participants := by
      intro uid
      rw [← List.mem_toFinset, hcopy'.2, Finmap.mem_keys]
    have hmemAff : ∀ c, c ∈ affectedClients atResolution
          (order.filter (fun uid => (getClientByUid uid).isSome))[intn] orderCopy ↔
        ∃ uid, uid ∈ s.participants ∧
          uid ≠ (order.filter (fun uid => (getClientByUid uid).isSome))[intn] ∧
          atResolution uid = some c ∧ c.Area = carrierClient.Area := by
      intro c
      rw [mem_affectedClients atResolution _ orderCopy carrierClient hcar' c]
      constructor
      · rintro ⟨uid, hu, rest⟩
        exact ⟨uid, (hkeys uid).mp hu, rest⟩
      · rintro ⟨uid, hu, rest⟩
        exact ⟨uid, (hkeys uid).mpr hu, rest⟩
    refine ⟨hsnap, hmemAff, ?_, ?_, ?_⟩
    · intro uid c hnone hin hres harea
      exact (hmemAff c).mpr ⟨uid, hin, fun heq => hne uid hnone heq.symm, hres, harea⟩
    · intro hag uid
      rw [affectedClients_map_Uid atResolution _ orderCopy carrierClient hcar' hag,
        List.mem_filter, isAffected_iff, hkeys uid]
    · obtain ⟨evs, hevs⟩ := resolveGame_total atResolution
        (order.filter (fun uid => (getClientByUid uid).isSome))[intn] orderCopy draws hdraws
      exact ⟨_, hotPotatoGameTimer_active _ later _ atResolution orderCopy draws evs rfl hevs,
        fun c hc => affected_are_targeted atResolution _ orderCopy draws evs hevs c hc⟩

/-- C13 amended, at the three opted-in players of whom the third is gone at
opt-in expiry. -/
theorem disconnected_participant_stays_witness :
    ∃ r, hotPotatoOptInTimer
        ⟨true, false, ((Finmap.singleton 1 true).insert 2 true).insert 3 true, -1, 0⟩
        63900000060000000000 sampleTable [1, 2, 3] 0 = some r ∧
      r.state.participants = ((Finmap.singleton 1 true).insert 2 true).insert 3 true :=
  have h := disconnected_participant_stays
    ⟨true, false, ((Finmap.singleton 1 true).insert 2 true).insert 3 true, -1, 0⟩
    63900000060000000000 sampleTable [1, 2, 3] 0 rfl (by decide) (by decide) (by decide)
  h.elim fun r hr => ⟨r, hr.1, hr.2.2.1⟩

/-! ## Timers of a game that was reset: when they are no-ops -/

end HotPotato
